import Mathlib

/-!
# WS2812 keychain: control plane

A shallow embedding of the control plane of the 8x8 LED keychain firmware
(`src/enums.h`, `src/manage.cpp`, `src/Device.cpp`, `src/Game.cpp`) and
theorems about it.

Conventions of the embedding:

* every C++ global that the control plane reads or writes is a field of `World`;
* `unsigned long` values (the `millis()` clock and the time stamps taken from
  it) are naturals, and the unsigned subtraction of the source is `ulsub`,
  which wraps modulo `2 ^ 32`;
* `int` values are integers; `uint8_t` values are naturals;
* the inputs a call takes from outside the program (the value of `millis()`
  during the call, the values drawn by `random`) are passed in an `Env`;
* one call reads the clock once: every `millis()` of a call returns `Env.millis`
  (`Poll.millis` for `read_key_event`);
* the pin levels `read_key_event` samples are passed in a `Poll`; a call whose
  wait loop does not end within the samples given has no result;
* the pixel buffer is not modelled, nor is the private state of the animations
  and of the menu icons, of which only `meteor_animation_initialized` is kept
  (`handle_input` writes it): `render_frame` returns, next to the new state,
  the list of renderers it invoked and the brightness it applied.
-/

namespace WS2812

/-! ## `enums.h` -/

/-- The `MainMode` enumeration of `enums.h`. -/
inductive MainMode where
  | ANIMATION | PIC | GAME | LETTER | NUMBER | TOOL | SYSTEM_OVERLAY
  deriving DecidableEq, Repr

/-- The `PicMode` enumeration of `enums.h`. -/
inductive PicMode where
  | CAT | PEACH | HEART | DARK | SWORD | DOG
  deriving DecidableEq, Repr

/-- The `LetterMode` enumeration of `enums.h`. -/
inductive LetterMode where
  | Letter_A | Letter_B | Letter_C | Letter_D | Letter_E | Letter_F | Letter_G
  | Letter_H | Letter_I | Letter_J | Letter_K | Letter_L | Letter_M | Letter_N
  | Letter_O | Letter_P | Letter_Q | Letter_R | Letter_S | Letter_T | Letter_U
  | Letter_V | Letter_W | Letter_X | Letter_Y | Letter_Z
  deriving DecidableEq, Repr

/-- The `NumberMode` enumeration of `enums.h`. -/
inductive NumberMode where
  | Number_0 | Number_1 | Number_2 | Number_3 | Number_4
  | Number_5 | Number_6 | Number_7 | Number_8 | Number_9
  deriving DecidableEq, Repr

/-- The `AnimMode` enumeration of `enums.h`. -/
inductive AnimMode where
  | FLAME | RAINBOW | RAINBOW_HEART | METEOR
  deriving DecidableEq, Repr

/-- The `GameMode` enumeration of `enums.h`. -/
inductive GameMode where
  | PINBALL | SNAKE | GAME_OF_LIFE
  deriving DecidableEq, Repr

/-- The `ToolMode` enumeration of `enums.h`. -/
inductive ToolMode where
  | SETTINGS
  deriving DecidableEq, Repr

/-- The `SystemOverlayMode` enumeration of `enums.h`. -/
inductive SystemOverlayMode where
  | NONE | BATTERY_DISPLAY | CHARGING_ANIMATION | CHARGING | CHARGE_FULL
  | LOW_POWER_WARNING
  deriving DecidableEq, Repr

/-- The `KeyEvent` enumeration of `enums.h`. -/
inductive KeyEvent where
  | NO_EVENT | LEFT_CLICK | LEFT_LONG_PRESS | RIGHT_CLICK | RIGHT_LONG_PRESS
  | BOTH_PRESS
  deriving DecidableEq, Repr

/-- The `BatteryLevel` enumeration of `enums.h`. -/
inductive BatteryLevel where
  | LEVEL_EMPTY | LEVEL_LOW | LEVEL_MEDIUM | LEVEL_HIGH | LEVEL_FULL
  deriving DecidableEq, Repr

/-- The `ChargingState` enumeration of `enums.h`. -/
inductive ChargingState where
  | STATE_DISCHARGING | STATE_CHARGING | STATE_CHARGE_FULL
  deriving DecidableEq, Repr

/-- The integer value of a `MainMode` enumerator, `(int)mode`. -/
def MainMode.toNat : MainMode → Nat
  | .ANIMATION => 0 | .PIC => 1 | .GAME => 2 | .LETTER => 3 | .NUMBER => 4
  | .TOOL => 5 | .SYSTEM_OVERLAY => 6

/-- The cast `static_cast<MainMode>(n)`. -/
def MainMode.cast : Nat → MainMode
  | 0 => .ANIMATION | 1 => .PIC | 2 => .GAME | 3 => .LETTER | 4 => .NUMBER
  | 5 => .TOOL | _ => .SYSTEM_OVERLAY

/-- The integer value of a `PicMode` enumerator. -/
def PicMode.toNat : PicMode → Nat
  | .CAT => 0 | .PEACH => 1 | .HEART => 2 | .DARK => 3 | .SWORD => 4 | .DOG => 5

/-- The cast `static_cast<PicMode>(n)`; the source only casts values below 6. -/
def PicMode.cast : Nat → PicMode
  | 0 => .CAT | 1 => .PEACH | 2 => .HEART | 3 => .DARK | 4 => .SWORD | _ => .DOG

/-- The integer value of an `AnimMode` enumerator. -/
def AnimMode.toNat : AnimMode → Nat
  | .FLAME => 0 | .RAINBOW => 1 | .RAINBOW_HEART => 2 | .METEOR => 3

/-- The cast `static_cast<AnimMode>(n)`; the source only casts values below 4. -/
def AnimMode.cast : Nat → AnimMode
  | 0 => .FLAME | 1 => .RAINBOW | 2 => .RAINBOW_HEART | _ => .METEOR

/-- The integer value of a `GameMode` enumerator. -/
def GameMode.toNat : GameMode → Nat
  | .PINBALL => 0 | .SNAKE => 1 | .GAME_OF_LIFE => 2

/-- The cast `static_cast<GameMode>(n)`; the source only casts values below 3. -/
def GameMode.cast : Nat → GameMode
  | 0 => .PINBALL | 1 => .SNAKE | _ => .GAME_OF_LIFE

/-- The integer value of a `NumberMode` enumerator. -/
def NumberMode.toNat : NumberMode → Nat
  | .Number_0 => 0 | .Number_1 => 1 | .Number_2 => 2 | .Number_3 => 3
  | .Number_4 => 4 | .Number_5 => 5 | .Number_6 => 6 | .Number_7 => 7
  | .Number_8 => 8 | .Number_9 => 9

/-- The cast `static_cast<NumberMode>(n)`; the source only casts values below 10. -/
def NumberMode.cast : Nat → NumberMode
  | 0 => .Number_0 | 1 => .Number_1 | 2 => .Number_2 | 3 => .Number_3
  | 4 => .Number_4 | 5 => .Number_5 | 6 => .Number_6 | 7 => .Number_7
  | 8 => .Number_8 | _ => .Number_9

/-- The integer value of a `LetterMode` enumerator. -/
def LetterMode.toNat : LetterMode → Nat
  | .Letter_A => 0 | .Letter_B => 1 | .Letter_C => 2 | .Letter_D => 3
  | .Letter_E => 4 | .Letter_F => 5 | .Letter_G => 6 | .Letter_H => 7
  | .Letter_I => 8 | .Letter_J => 9 | .Letter_K => 10 | .Letter_L => 11
  | .Letter_M => 12 | .Letter_N => 13 | .Letter_O => 14 | .Letter_P => 15
  | .Letter_Q => 16 | .Letter_R => 17 | .Letter_S => 18 | .Letter_T => 19
  | .Letter_U => 20 | .Letter_V => 21 | .Letter_W => 22 | .Letter_X => 23
  | .Letter_Y => 24 | .Letter_Z => 25

/-- The cast `static_cast<LetterMode>(n)`; the source only casts values below 26. -/
def LetterMode.cast : Nat → LetterMode
  | 0 => .Letter_A | 1 => .Letter_B | 2 => .Letter_C | 3 => .Letter_D
  | 4 => .Letter_E | 5 => .Letter_F | 6 => .Letter_G | 7 => .Letter_H
  | 8 => .Letter_I | 9 => .Letter_J | 10 => .Letter_K | 11 => .Letter_L
  | 12 => .Letter_M | 13 => .Letter_N | 14 => .Letter_O | 15 => .Letter_P
  | 16 => .Letter_Q | 17 => .Letter_R | 18 => .Letter_S | 19 => .Letter_T
  | 20 => .Letter_U | 21 => .Letter_V | 22 => .Letter_W | 23 => .Letter_X
  | 24 => .Letter_Y | _ => .Letter_Z

/-- The `AppState` structure of `enums.h`. -/
structure AppState where
  main_mode : MainMode
  anim_mode : AnimMode
  pic_mode : PicMode
  game_mode : GameMode
  letter_mode : LetterMode
  number_mode : NumberMode
  tool_mode : ToolMode
  overlay_mode : SystemOverlayMode
  in_sub_menu : Bool
  is_game_running : Bool
  brightness_level : Nat
  deriving DecidableEq, Repr

/-! ## Clock and environment -/

/-- The subtraction `a - b` of two `unsigned long` values (32 bits). -/
def ulsub (a b : Nat) : Nat := (a % 2 ^ 32 + (2 ^ 32 - b % 2 ^ 32)) % 2 ^ 32

/-- The conversion of an `int` to `unsigned long` in a mixed comparison. -/
def toUL (i : Int) : Nat := (i % 2 ^ 32).toNat

/-- What one call takes from outside the program: the value `millis()` returns
during the call and the raw value of the i-th `random` draw of the call. -/
structure Env where
  millis : Nat
  random : Nat → Nat

/-! ## `Game.cpp`: Pinball -/

/-- The `PinballState` enumeration of `Game.cpp`. -/
inductive PinballState where
  | PINBALL_RUNNING | PINBALL_GAME_OVER
  deriving DecidableEq, Repr

/-- The file-level variables of the Pinball game. -/
structure Pinball where
  pinball_state : PinballState
  ball_x : Int
  ball_y : Int
  vel_x : Int
  vel_y : Int
  paddle_pos : Int
  game_time : Nat
  game_speed : Int
  rainbow_hue : Nat
  game_over_time : Nat
  deriving DecidableEq, Repr

/-- The constant `BOARD_WIDTH` of `Game.h`. -/
def BOARD_WIDTH : Int := 8

/-- The constant `BOARD_HEIGHT` of `Game.h`. -/
def BOARD_HEIGHT : Int := 8

/-- The constant `PADDLE_LEN` of `Game.cpp`. -/
def PADDLE_LEN : Int := 3

/-- The Arduino `constrain(amt, low, high)`. -/
def constrain (amt low high : Int) : Int :=
  if amt < low then low else if amt > high then high else amt

/-- The function `pos2index` of `Game.cpp`. -/
def pos2index (x y : Int) : Int :=
  if x < 0 ∨ x ≥ BOARD_WIDTH ∨ y < 0 ∨ y ≥ BOARD_HEIGHT then -1
  else y * BOARD_WIDTH + x

/-- The function `pinball_init` of `Game.cpp`. -/
def pinball_init (env : Env) (p : Pinball) : Pinball :=
  { p with
    ball_x := 2, ball_y := 2, vel_x := 1, vel_y := 1, paddle_pos := 2,
    game_speed := 300, pinball_state := .PINBALL_RUNNING,
    game_time := env.millis }

/-- The function `pinball_handle_input` of `Game.cpp`. -/
def pinball_handle_input (event : KeyEvent) (env : Env) (p : Pinball) : Pinball :=
  if p.pinball_state = .PINBALL_GAME_OVER then
    if event = .LEFT_CLICK ∨ event = .RIGHT_CLICK then pinball_init env p else p
  else
    let paddle :=
      if event = .LEFT_CLICK then p.paddle_pos - 1
      else if event = .RIGHT_CLICK then p.paddle_pos + 1
      else p.paddle_pos
    { p with paddle_pos := constrain paddle 0 (BOARD_WIDTH - PADDLE_LEN) }

/-- The state changes of `pinball_update_and_render` of `Game.cpp` (the pixels
it draws are not part of the model). -/
def pinball_update_and_render (env : Env) (p : Pinball) : Pinball :=
  let p1 :=
    if p.pinball_state = .PINBALL_RUNNING then
      if ulsub env.millis p.game_time > toUL p.game_speed then
        let bx := p.ball_x + p.vel_x
        let bY := p.ball_y + p.vel_y
        let vx := if bx ≥ BOARD_WIDTH - 1 ∨ bx ≤ 0 then -p.vel_x else p.vel_x
        let vy := if bY ≤ 0 then -p.vel_y else p.vel_y
        let q := { p with game_time := env.millis, ball_x := bx, ball_y := bY,
                          vel_x := vx, vel_y := vy }
        if bY ≥ BOARD_HEIGHT - 2 then
          if bx ≥ q.paddle_pos ∧ bx < q.paddle_pos + PADDLE_LEN then
            { q with vel_y := -vy,
                     game_speed := if q.game_speed > 60 then q.game_speed - 20
                                   else q.game_speed }
          else
            { q with pinball_state := .PINBALL_GAME_OVER,
                     game_over_time := env.millis }
        else q
      else p
    else p
  { p1 with rainbow_hue := (p1.rainbow_hue + 1) % 256 }

/-! ## `Game.cpp`: Game of Life -/

/-- The constant `GOL_UPDATE_INTERVAL` of `Game.cpp`. -/
def GOL_UPDATE_INTERVAL : Nat := 200

/-- The file-level variables of the Game of Life: the two 32-bit words of
`life_world` and `gol_last_update_time`. -/
structure Life where
  life_world0 : Nat
  life_world1 : Nat
  gol_last_update_time : Nat
  deriving DecidableEq, Repr

/-- The function `getCellState` of `Game.cpp`, on the world `(w0, w1)`. -/
def getCellState (w0 w1 : Nat) (index : Int) : Nat :=
  if index < 0 ∨ index ≥ 64 then 0
  else if index < 32 then (w0 >>> index.toNat) &&& 1
  else (w1 >>> (index - 32).toNat) &&& 1

/-- The function `getCellStateXY` of `Game.cpp`. -/
def getCellStateXY (w0 w1 : Nat) (x y : Int) : Nat :=
  if x < 0 ∨ x ≥ 8 ∨ y < 0 ∨ y ≥ 8 then 0
  else getCellState w0 w1 (y * 8 + x)

/-- The function `countNeighbors` of `Game.cpp`: the two loops over
`i, j = -1, 0, 1`, the centre skipped. -/
def countNeighbors (w0 w1 : Nat) (x y : Int) : Nat :=
  ([-1, 0, 1] : List Int).foldl
    (fun count i =>
      ([-1, 0, 1] : List Int).foldl
        (fun count j =>
          if i = 0 ∧ j = 0 then count
          else count + getCellStateXY w0 w1 (x + i) (y + j))
        count)
    0

/-- The body of the inner loop of `computeNextGeneration`: the cell `(x, y)` is
decided from the old world `(w0, w1)` and, when alive, set in `next`. -/
def nextCell (w0 w1 : Nat) (next : Nat × Nat) (x y : Nat) : Nat × Nat :=
  let index := y * 8 + x
  let neighbors := countNeighbors w0 w1 x y
  let current_state := getCellState w0 w1 index
  let is_alive_next :=
    if current_state = 1 ∧ (neighbors = 2 ∨ neighbors = 3) then true
    else if current_state = 0 ∧ neighbors = 3 then true
    else false
  if is_alive_next then
    if index < 32 then (next.1 ||| (1 <<< index), next.2)
    else (next.1, next.2 ||| (1 <<< (index - 32)))
  else next

/-- The function `computeNextGeneration` of `Game.cpp`: the new `life_world`. -/
def computeNextGeneration (w0 w1 : Nat) : Nat × Nat :=
  (List.range 8).foldl
    (fun next x => (List.range 8).foldl (fun next y => nextCell w0 w1 next x y) next)
    (0, 0)

/-- The function `initGameOfLife` of `Game.cpp`: `64 / 5 = 12` random cells are
set in an empty world. -/
def initGameOfLife (env : Env) (g : Life) : Life :=
  let world := (List.range (64 / 5)).foldl
    (fun (wd : Nat × Nat) i =>
      let index := env.random i % 64
      if index < 32 then (wd.1 ||| (1 <<< index), wd.2)
      else (wd.1, wd.2 ||| (1 <<< (index - 32))))
    (0, 0)
  { g with life_world0 := world.1, life_world1 := world.2 }

/-- The state changes of `updateAndRenderGameOfLife` of `Game.cpp`. -/
def updateAndRenderGameOfLife (env : Env) (g : Life) : Life :=
  if ulsub env.millis g.gol_last_update_time > GOL_UPDATE_INTERVAL then
    let g1 := { g with gol_last_update_time := env.millis }
    let next := computeNextGeneration g1.life_world0 g1.life_world1
    if (next.1 = 0 ∧ next.2 = 0) ∨ (next.1 = g1.life_world0 ∧ next.2 = g1.life_world1) then
      initGameOfLife env { g1 with life_world0 := next.1, life_world1 := next.2 }
    else
      { g1 with life_world0 := next.1, life_world1 := next.2 }
  else g

/-! ## `Game.cpp`: Snake -/

/-- The constant `SNAKE_MAX_LENGTH` of `Game.cpp`. -/
def SNAKE_MAX_LENGTH : Nat := 64

/-- The `SnakeState` enumeration of `Game.cpp`. -/
inductive SnakeState where
  | IDLE | RUNNING | GAME_OVER
  deriving DecidableEq, Repr

/-- The `SnakeDirection` enumeration of `Game.cpp`. -/
inductive SnakeDirection where
  | UP | DOWN | LEFT | RIGHT
  deriving DecidableEq, Repr

/-- The `Point` structure of `Game.cpp`; the coordinates are `int8_t`. -/
structure Point where
  x : Int
  y : Int
  deriving DecidableEq, Repr, Inhabited

/-- The narrowing of an integer to `int8_t` (two's complement). -/
def toInt8 (i : Int) : Int := (i + 128) % 256 - 128

/-- The file-level variables of the Snake game; `snake_body` is the array of
`SNAKE_MAX_LENGTH` points. -/
structure Snake where
  snake_state : SnakeState
  snake_dir : SnakeDirection
  snake_body : List Point
  snake_len : Nat
  food : Point
  snake_last_move_time : Nat
  snake_move_interval : Int
  deriving DecidableEq, Repr

/-- A food position `{random(BOARD_WIDTH), random(BOARD_HEIGHT)}`: the first
two draws of the call. -/
def randomFood (env : Env) : Point :=
  { x := ((env.random 0 % 8 : Nat) : Int), y := ((env.random 1 % 8 : Nat) : Int) }

/-- The function `snake_init` of `Game.cpp`. -/
def snake_init (env : Env) (s : Snake) : Snake :=
  { s with
    snake_state := .RUNNING,
    snake_len := 3,
    snake_body := ((s.snake_body.set 0 ⟨4, 4⟩).set 1 ⟨3, 4⟩).set 2 ⟨2, 4⟩,
    snake_dir := .RIGHT,
    food := randomFood env,
    snake_last_move_time := env.millis }

/-- The function `snake_handle_input` of `Game.cpp`. -/
def snake_handle_input (event : KeyEvent) (env : Env) (s : Snake) : Snake :=
  if s.snake_state = .GAME_OVER then
    if event = .LEFT_CLICK ∨ event = .RIGHT_CLICK then snake_init env s else s
  else if event = .LEFT_CLICK then
    match s.snake_dir with
    | .UP => { s with snake_dir := .LEFT }
    | .DOWN => { s with snake_dir := .LEFT }
    | .LEFT => { s with snake_dir := .DOWN }
    | .RIGHT => { s with snake_dir := .UP }
  else if event = .RIGHT_CLICK then
    match s.snake_dir with
    | .UP => { s with snake_dir := .RIGHT }
    | .DOWN => { s with snake_dir := .RIGHT }
    | .LEFT => { s with snake_dir := .UP }
    | .RIGHT => { s with snake_dir := .DOWN }
  else s

/-- The head moved one cell in the direction `d`, as `snake_update_and_render`
computes `next_head`. -/
def nextHead (d : SnakeDirection) (head : Point) : Point :=
  match d with
  | .UP => { head with y := toInt8 (head.y - 1) }
  | .DOWN => { head with y := toInt8 (head.y + 1) }
  | .LEFT => { head with x := toInt8 (head.x - 1) }
  | .RIGHT => { head with x := toInt8 (head.x + 1) }

/-- The loop `for (i = k; i > 0; i--) snake_body[i] = snake_body[i-1]` of
`snake_update_and_render`, started at `i = k`. -/
def shiftBody (body : List Point) : Nat → List Point
  | 0 => body
  | k + 1 => shiftBody (body.set (k + 1) (body.getD k default)) k

/-- The state changes of `snake_update_and_render` of `Game.cpp`. -/
def snake_update_and_render (env : Env) (s : Snake) : Snake :=
  if s.snake_state = .RUNNING ∧
      ulsub env.millis s.snake_last_move_time > toUL s.snake_move_interval then
    let s1 := { s with snake_last_move_time := env.millis }
    let next_head := nextHead s1.snake_dir (s1.snake_body.getD 0 default)
    let hitWall : Bool :=
      next_head.x < 0 ∨ next_head.x ≥ BOARD_WIDTH ∨
      next_head.y < 0 ∨ next_head.y ≥ BOARD_HEIGHT
    let hitSelf : Bool :=
      (List.range s1.snake_len).any
        (fun i => decide (next_head = s1.snake_body.getD i default))
    if hitWall || hitSelf then
      { s1 with snake_state := .GAME_OVER }
    else
      let ate_food : Bool := next_head = s1.food
      let len :=
        if ate_food ∧ s1.snake_len < SNAKE_MAX_LENGTH then (s1.snake_len + 1) % 256
        else s1.snake_len
      let fd := if ate_food then randomFood env else s1.food
      { s1 with
        snake_len := len,
        food := fd,
        snake_body := (shiftBody s1.snake_body (len - 1)).set 0 next_head }
  else s

/-! ## `Game.cpp`: the game management interface -/

/-- The private state of the three games. -/
structure Games where
  pinball : Pinball
  snake : Snake
  life : Life
  deriving DecidableEq, Repr

/-- The function `game_start` of `Game.cpp`. -/
def game_start (mode : GameMode) (env : Env) (g : Games) : Games :=
  match mode with
  | .SNAKE => { g with snake := snake_init env g.snake }
  | .PINBALL => { g with pinball := pinball_init env g.pinball }
  | .GAME_OF_LIFE => { g with life := initGameOfLife env g.life }

/-- The function `game_handle_input` of `Game.cpp`; `mode` is
`appState.game_mode`. The switch has no case for `GAME_OF_LIFE`. -/
def game_handle_input (mode : GameMode) (event : KeyEvent) (env : Env) (g : Games) : Games :=
  match mode with
  | .SNAKE => { g with snake := snake_handle_input event env g.snake }
  | .PINBALL => { g with pinball := pinball_handle_input event env g.pinball }
  | .GAME_OF_LIFE => g

/-- The function `game_update_and_render` of `Game.cpp`; `mode` is
`appState.game_mode`. -/
def game_update_and_render (mode : GameMode) (env : Env) (g : Games) : Games :=
  match mode with
  | .SNAKE => { g with snake := snake_update_and_render env g.snake }
  | .PINBALL => { g with pinball := pinball_update_and_render env g.pinball }
  | .GAME_OF_LIFE => { g with life := updateAndRenderGameOfLife env g.life }

/-! ## The program state -/

/-- The globals of `manage.cpp`, `Device.cpp`, `Animation.cpp` and `Game.cpp`
that the control plane reads or writes. `eeprom_byte` is the byte stored at
`BRIGHTNESS_EEPROM_ADDR`, the value `EEPROM.read` returns, and `eeprom_writes`
counts the calls of `EEPROM.write` made so far (a ghost field: the program
never reads it). -/
structure World where
  appState : AppState
  battery_overlay_start_time : Nat
  battery_level_snapshot : BatteryLevel
  preview_brightness_level : Nat
  eeprom_byte : Nat
  eeprom_writes : Nat
  g_charging_started_event : Bool
  g_current_level : BatteryLevel
  g_charging_state : ChargingState
  meteor_animation_initialized : Bool
  games : Games
  deriving DecidableEq, Repr

/-- The initializer of `appState` in `manage.cpp`. -/
def appStateInit : AppState :=
  { main_mode := .ANIMATION, anim_mode := .FLAME, pic_mode := .CAT,
    game_mode := .PINBALL, letter_mode := .Letter_A, number_mode := .Number_0,
    tool_mode := .SETTINGS, overlay_mode := .NONE, in_sub_menu := false,
    is_game_running := false, brightness_level := 1 }

/-- The state at program start: every global has its initializer, or zero when
it has none; the stored byte `b` is whatever the EEPROM holds. -/
def initWorld (b : Nat) : World :=
  { appState := appStateInit,
    battery_overlay_start_time := 0,
    battery_level_snapshot := .LEVEL_EMPTY,
    preview_brightness_level := 0,
    eeprom_byte := b,
    eeprom_writes := 0,
    g_charging_started_event := false,
    g_current_level := .LEVEL_FULL,
    g_charging_state := .STATE_DISCHARGING,
    meteor_animation_initialized := false,
    games :=
      { pinball :=
          { pinball_state := .PINBALL_RUNNING, ball_x := 0, ball_y := 0,
            vel_x := 0, vel_y := 0, paddle_pos := 0, game_time := 0,
            game_speed := 0, rainbow_hue := 0, game_over_time := 0 },
        snake :=
          { snake_state := .IDLE, snake_dir := .UP,
            snake_body := List.replicate SNAKE_MAX_LENGTH ⟨0, 0⟩,
            snake_len := 0, food := ⟨0, 0⟩, snake_last_move_time := 0,
            snake_move_interval := 350 },
        life := { life_world0 := 0, life_world1 := 0, gol_last_update_time := 0 } } }

/-! ## `Device.cpp`: power management -/

/-- The constant `VOLTAGE_LEVEL_FULL` of `Device.h`. -/
def VOLTAGE_LEVEL_FULL : Nat := 4000

/-- The constant `VOLTAGE_LEVEL_HIGH` of `Device.h`. -/
def VOLTAGE_LEVEL_HIGH : Nat := 3850

/-- The constant `VOLTAGE_LEVEL_MEDIUM` of `Device.h`. -/
def VOLTAGE_LEVEL_MEDIUM : Nat := 3700

/-- The constant `VOLTAGE_LEVEL_LOW` of `Device.h`. -/
def VOLTAGE_LEVEL_LOW : Nat := 3550

/-- The function `readBatteryVoltage` of `Device.cpp`; `mv` is what
`analogReadMillivolts(ADC_PIN)` returns. -/
def readBatteryVoltage (mv : Nat) : Nat := ((mv * 2) % 2 ^ 32) % 2 ^ 16

/-- The function `updateVoltageState` of `Device.cpp`. -/
def updateVoltageState (mv : Nat) (w : World) : World :=
  let voltage := readBatteryVoltage mv
  if voltage ≥ VOLTAGE_LEVEL_FULL then { w with g_current_level := .LEVEL_FULL }
  else if voltage ≥ VOLTAGE_LEVEL_HIGH then { w with g_current_level := .LEVEL_HIGH }
  else if voltage ≥ VOLTAGE_LEVEL_MEDIUM then { w with g_current_level := .LEVEL_MEDIUM }
  else if voltage ≥ VOLTAGE_LEVEL_LOW then { w with g_current_level := .LEVEL_LOW }
  else { w with g_current_level := .LEVEL_EMPTY }

/-- The function `updateChargingState` of `Device.cpp`; `chrg_low` says that
`digitalRead(CHRG_PIN) == LOW`, and `mv` is the ADC reading. -/
def updateChargingState (chrg_low : Bool) (mv : Nat) (w : World) : World :=
  let is_currently_charging := chrg_low
  if is_currently_charging ∧ w.g_charging_state ≠ .STATE_CHARGING ∧
      w.g_charging_state ≠ .STATE_CHARGE_FULL then
    { w with g_charging_started_event := true, g_charging_state := .STATE_CHARGING }
  else if is_currently_charging ∧ w.g_charging_state = .STATE_CHARGING then
    let voltage := readBatteryVoltage mv
    if voltage ≥ VOLTAGE_LEVEL_FULL then
      { w with g_charging_state := .STATE_CHARGE_FULL, g_charging_started_event := true }
    else w
  else if ¬ is_currently_charging ∧
      (w.g_charging_state = .STATE_CHARGING ∨ w.g_charging_state = .STATE_CHARGE_FULL) then
    { w with g_charging_state := .STATE_DISCHARGING }
  else w

/-- The function `getCurrentBatteryLevel` of `Device.cpp`. -/
def getCurrentBatteryLevel (w : World) : BatteryLevel := w.g_current_level

/-- The function `getCurrentChargingState` of `Device.cpp`. -/
def getCurrentChargingState (w : World) : ChargingState := w.g_charging_state

/-! ## `Device.cpp`: the key driver -/

/-- The constant `DEBOUNCE_TIME` of `Device.h`. -/
def DEBOUNCE_TIME : Nat := 20

/-- The constant `LONG_PRESS_TIME` of `Device.h`. -/
def LONG_PRESS_TIME : Nat := 800

/-- The file-level variables of the key driver of `Device.cpp`. -/
structure Keys where
  left_key_down_time : Nat
  right_key_down_time : Nat
  left_key_long_press_fired : Bool
  right_key_long_press_fired : Bool
  deriving DecidableEq, Repr

/-- The key driver at program start. -/
def keysInit : Keys :=
  { left_key_down_time := 0, right_key_down_time := 0,
    left_key_long_press_fired := false, right_key_long_press_fired := false }

/-- What one call of `read_key_event` takes from outside the program. A pin
sample says, for the left and for the right button, whether it is pressed
(`!digitalRead(pin)`); the two reads of one condition are one sample.
`left_key_pressed` and `right_key_pressed` are the sample at entry, `millis` is
the clock, `debounced` is the sample read after `delay(DEBOUNCE_TIME)`, and
`loop_samples` are the samples the tests of the wait loop read, in order. -/
structure Poll where
  left_key_pressed : Bool
  right_key_pressed : Bool
  millis : Nat
  debounced : Bool × Bool
  loop_samples : List (Bool × Bool)
  deriving DecidableEq, Repr

/-- What one call of `read_key_event` gives: the event returned, the key
driver afterwards, and the last pin sample the call read, which is the raw
level of the two buttons at the moment of return. -/
structure KeyResult where
  event : KeyEvent
  keys : Keys
  last_read : Bool × Bool
  deriving DecidableEq, Repr

/-- The loop `while(!digitalRead(LEFT_KEY_PIN) && !digitalRead(RIGHT_KEY_PIN))`
of `read_key_event`: the first sample in which not both buttons are pressed
ends it; no result while the samples given are all of both pressed. -/
def waitRelease : List (Bool × Bool) → Option (Bool × Bool)
  | [] => none
  | s :: rest => if s.1 ∧ s.2 then waitRelease rest else some s

/-- Block 2 of `read_key_event`, the left button: the event it returns, if it
returns, and the key driver it leaves. -/
def left_key_logic (left_key_pressed : Bool) (now : Nat) (k : Keys) : Option KeyEvent × Keys :=
  if left_key_pressed then
    if k.left_key_down_time = 0 then
      (none, { k with left_key_down_time := now, left_key_long_press_fired := false })
    else if ¬ k.left_key_long_press_fired ∧ ulsub now k.left_key_down_time > LONG_PRESS_TIME then
      (some .LEFT_LONG_PRESS, { k with left_key_long_press_fired := true })
    else (none, k)
  else
    if k.left_key_down_time > 0 then
      if ¬ k.left_key_long_press_fired ∧ ulsub now k.left_key_down_time > DEBOUNCE_TIME then
        (some .LEFT_CLICK, { k with left_key_down_time := 0 })
      else (none, { k with left_key_down_time := 0 })
    else (none, k)

/-- Block 3 of `read_key_event`, the right button: the event it returns, if it
returns, and the key driver it leaves. -/
def right_key_logic (right_key_pressed : Bool) (now : Nat) (k : Keys) : Option KeyEvent × Keys :=
  if right_key_pressed then
    if k.right_key_down_time = 0 then
      (none, { k with right_key_down_time := now, right_key_long_press_fired := false })
    else if ¬ k.right_key_long_press_fired ∧
        ulsub now k.right_key_down_time > LONG_PRESS_TIME then
      (some .RIGHT_LONG_PRESS, { k with right_key_long_press_fired := true })
    else (none, k)
  else
    if k.right_key_down_time > 0 then
      if ¬ k.right_key_long_press_fired ∧ ulsub now k.right_key_down_time > DEBOUNCE_TIME then
        (some .RIGHT_CLICK, { k with right_key_down_time := 0 })
      else (none, { k with right_key_down_time := 0 })
    else (none, k)

/-- Blocks 2 and 3 of `read_key_event` and its final `return NO_EVENT`: the
left button first, the right button when the left block did not return. -/
def single_key_logic (p : Poll) (k : Keys) : KeyEvent × Keys :=
  match left_key_logic p.left_key_pressed p.millis k with
  | (some e, k1) => (e, k1)
  | (none, k1) =>
      match right_key_logic p.right_key_pressed p.millis k1 with
      | (some e, k2) => (e, k2)
      | (none, k2) => (.NO_EVENT, k2)

/-- Whether a call of `read_key_event` takes the chord path to its end: both
buttons are pressed at entry and again after the debounce delay. -/
def chordConfirmed (p : Poll) : Bool :=
  (p.left_key_pressed && p.right_key_pressed) && (p.debounced.1 && p.debounced.2)

/-- The function `read_key_event` of `Device.cpp`. There is no result when the
wait loop does not end within the samples given: the call has not returned. -/
def read_key_event (p : Poll) (k : Keys) : Option KeyResult :=
  if p.left_key_pressed ∧ p.right_key_pressed then
    if p.debounced.1 ∧ p.debounced.2 then
      match waitRelease p.loop_samples with
      | some s => some { event := .BOTH_PRESS, keys := k, last_read := s }
      | none => none
    else
      some { event := (single_key_logic p k).1, keys := (single_key_logic p k).2,
             last_read := p.debounced }
  else
    some { event := (single_key_logic p k).1, keys := (single_key_logic p k).2,
           last_read := (p.left_key_pressed, p.right_key_pressed) }

/-- The events a sequence of calls of `read_key_event` returns, and the key
driver it leaves; no result when one of the calls does not return. -/
def read_key_events (k : Keys) : List Poll → Option (List KeyEvent × Keys)
  | [] => some ([], k)
  | p :: ps =>
      match read_key_event p k with
      | none => none
      | some r =>
          match read_key_events r.keys ps with
          | none => none
          | some (es, kf) => some (r.event :: es, kf)

/-- A poll outside the chord path: the pin levels at entry and the clock. -/
def pollAt (left_key_pressed right_key_pressed : Bool) (t : Nat) : Poll :=
  { left_key_pressed := left_key_pressed, right_key_pressed := right_key_pressed,
    millis := t, debounced := (left_key_pressed, right_key_pressed), loop_samples := [] }

/-- Whether only the left button is pressed in the poll. -/
def Poll.leftHeld (p : Poll) : Bool := p.left_key_pressed && !p.right_key_pressed

/-- Whether only the right button is pressed in the poll. -/
def Poll.rightHeld (p : Poll) : Bool := !p.left_key_pressed && p.right_key_pressed

/-- Whether no button is pressed in the poll. -/
def Poll.released (p : Poll) : Bool := !p.left_key_pressed && !p.right_key_pressed

/-! ## `manage.cpp`: brightness persistence -/

/-- The function `load_brightness_from_eeprom` of `manage.cpp`; the byte read
is a `uint8_t`, so the test `saved_level >= 0` always holds. -/
def load_brightness_from_eeprom (w : World) : World :=
  let saved_level := w.eeprom_byte
  if saved_level ≥ 0 ∧ saved_level ≤ 4 then
    { w with appState := { w.appState with brightness_level := saved_level } }
  else
    { w with appState := { w.appState with brightness_level := 2 } }

/-- The function `save_brightness_to_eeprom` of `manage.cpp`. -/
def save_brightness_to_eeprom (level : Nat) (w : World) : World :=
  if w.eeprom_byte ≠ level then
    { w with eeprom_byte := level, eeprom_writes := w.eeprom_writes + 1 }
  else w

/-! ## `manage.cpp`: `handle_input` -/

/-- The `if (appState.main_mode == MainMode::ANIMATION)` block of the running
branch of `handle_input`. -/
def running_animation_input (event : KeyEvent) (w : World) : World :=
  if w.appState.main_mode = .ANIMATION then
    if event = .LEFT_CLICK then
      { w with appState := { w.appState with
          anim_mode := AnimMode.cast ((w.appState.anim_mode.toNat + 1) % 4) } }
    else w
  else w

/-- The `if (appState.main_mode == MainMode::PIC)` block of the running branch
of `handle_input`. -/
def running_pic_input (event : KeyEvent) (w : World) : World :=
  if w.appState.main_mode = .PIC then
    if event = .LEFT_CLICK then
      { w with appState := { w.appState with
          pic_mode := PicMode.cast ((w.appState.pic_mode.toNat + 1) % 6) } }
    else w
  else w

/-- The `if (appState.main_mode == MainMode::LETTER)` block of the running
branch of `handle_input`. -/
def running_letter_input (event : KeyEvent) (w : World) : World :=
  if w.appState.main_mode = .LETTER then
    if event = .LEFT_CLICK then
      { w with appState := { w.appState with
          letter_mode := LetterMode.cast ((w.appState.letter_mode.toNat + 1) % 26) } }
    else w
  else w

/-- The `if (appState.main_mode == MainMode::NUMBER) ... else if
(appState.main_mode == MainMode::GAME)` block of the running branch of
`handle_input`. -/
def running_number_game_input (event : KeyEvent) (env : Env) (w : World) : World :=
  if w.appState.main_mode = .NUMBER then
    if event = .LEFT_CLICK then
      { w with appState := { w.appState with
          number_mode := NumberMode.cast ((w.appState.number_mode.toNat + 1) % 10) } }
    else w
  else if w.appState.main_mode = .GAME then
    { w with games := game_handle_input w.appState.game_mode event env w.games }
  else w

/-- The common exit logic of the running branch of `handle_input`: the
`if (event == KeyEvent::RIGHT_LONG_PRESS)` block. -/
def running_exit (event : KeyEvent) (env : Env) (w : World) : World :=
  if event = .RIGHT_LONG_PRESS then
    let w5 := { w with appState := { w.appState with
                  is_game_running := false, in_sub_menu := false } }
    let w6 :=
      if w5.appState.main_mode = .GAME then
        match w5.appState.game_mode with
        | .SNAKE =>
            { w5 with games := { w5.games with snake := snake_init env w5.games.snake } }
        | .PINBALL =>
            { w5 with games := { w5.games with pinball := pinball_init env w5.games.pinball } }
        | .GAME_OF_LIFE => w5
      else w5
    if w6.appState.main_mode = .ANIMATION then
      { w6 with meteor_animation_initialized := false }
    else w6
  else w

/-- The part of `handle_input` that runs when `appState.is_game_running` holds
(priority 3 of the source): its blocks in the order of the source. -/
def handle_input_running (event : KeyEvent) (env : Env) (w : World) : World :=
  running_exit event env
    (running_number_game_input event env
      (running_letter_input event
        (running_pic_input event
          (running_animation_input event w))))

/-- The part of `handle_input` that does the menu navigation (priority 4 of
the source): the `switch (event)`. -/
def handle_input_menu (event : KeyEvent) (env : Env) (w : World) : World :=
  match event with
  | .LEFT_CLICK =>
      if w.appState.in_sub_menu then
        match w.appState.main_mode with
        | .GAME =>
            { w with appState := { w.appState with
                game_mode := GameMode.cast ((w.appState.game_mode.toNat + 1) % 3) } }
        | .TOOL =>
            { w with preview_brightness_level := (w.preview_brightness_level + 1) % 5 }
        | _ => w
      else
        { w with appState := { w.appState with
            main_mode := MainMode.cast ((w.appState.main_mode.toNat + 1) % 6) } }
  | .RIGHT_CLICK =>
      if w.appState.main_mode = .ANIMATION ∨ w.appState.main_mode = .PIC ∨
          w.appState.main_mode = .LETTER ∨ w.appState.main_mode = .NUMBER then
        { w with appState := { w.appState with is_game_running := true } }
      else if w.appState.in_sub_menu then
        let w1 :=
          if w.appState.main_mode = .GAME then
            { w with appState := { w.appState with is_game_running := true },
                     games := game_start w.appState.game_mode env w.games }
          else w
        if w1.appState.main_mode = .TOOL then
          let w2 := { w1 with appState := { w1.appState with
                        brightness_level := w1.preview_brightness_level } }
          let w3 := save_brightness_to_eeprom w2.appState.brightness_level w2
          { w3 with appState := { w3.appState with in_sub_menu := false } }
        else w1
      else
        let w1 :=
          if w.appState.main_mode = .TOOL then
            { w with preview_brightness_level := w.appState.brightness_level }
          else w
        { w1 with appState := { w1.appState with in_sub_menu := true } }
  | .RIGHT_LONG_PRESS =>
      if w.appState.in_sub_menu then
        { w with appState := { w.appState with in_sub_menu := false } }
      else w
  | _ => w

/-- The function `handle_input` of `manage.cpp`, after its first line: `event`
is the value `read_key_event()` returned. -/
def handle_input (event : KeyEvent) (env : Env) (w : World) : World :=
  if event = .NO_EVENT then w
  else if w.appState.overlay_mode = .BATTERY_DISPLAY then w
  else if event = .BOTH_PRESS then
    let is_actual_game_active : Bool :=
      w.appState.main_mode = .GAME ∧ w.appState.is_game_running
    if ¬ is_actual_game_active then
      { w with
        appState := { w.appState with overlay_mode := .BATTERY_DISPLAY },
        battery_overlay_start_time := env.millis,
        battery_level_snapshot := getCurrentBatteryLevel w }
    else w
  else if w.appState.is_game_running then handle_input_running event env w
  else handle_input_menu event env w

/-! ## `manage.cpp`: `render_frame` -/

/-- The renderers `render_frame` can invoke, one constructor per call site. -/
inductive Renderer where
  | render_battery_display
  | render_charging_display
  | render_charge_full_display
  | flameEffect_lowRam
  | anim_rainbow_flow
  | anim_beating_heart
  | anim_meteor_shower
  | Draw_pic (mode : PicMode)
  | game_update_and_render (mode : GameMode)
  | Rainbow_letter (mode : LetterMode)
  | Rainbow_number (mode : NumberMode)
  | draw_game_icon (mode : GameMode)
  | draw_tool_icon (mode : ToolMode)
  | draw_main_menu_icon (mode : MainMode)
  deriving DecidableEq, Repr

/-- Whether a renderer is one of the three overlay renderers. -/
def Renderer.isOverlay : Renderer → Bool
  | .render_battery_display => true
  | .render_charging_display => true
  | .render_charge_full_display => true
  | _ => false

/-- What a frame shows: the renderers invoked, in order, and the value passed
to `strip.setBrightness`. -/
structure Frame where
  calls : List Renderer
  brightness : Nat
  deriving DecidableEq, Repr

/-- Steps 0, 0.5 and 1 of `render_frame`: the charging-changed signal is
consumed, a charging overlay ends when the charger is gone, and the battery
overlay times out. -/
def render_frame_overlay (env : Env) (w : World) : World :=
  let w1 :=
    if w.g_charging_started_event then
      let charging_state := getCurrentChargingState w
      let w0 :=
        if charging_state = .STATE_CHARGING then
          { w with appState := { w.appState with overlay_mode := .CHARGING } }
        else if charging_state = .STATE_CHARGE_FULL then
          { w with appState := { w.appState with overlay_mode := .CHARGE_FULL } }
        else w
      { w0 with g_charging_started_event := false }
    else w
  let w2 :=
    if w1.appState.overlay_mode = .CHARGING ∨ w1.appState.overlay_mode = .CHARGE_FULL then
      let charging_state := getCurrentChargingState w1
      if charging_state = .STATE_DISCHARGING then
        { w1 with appState := { w1.appState with overlay_mode := .NONE } }
      else w1
    else w1
  match w2.appState.overlay_mode with
  | .BATTERY_DISPLAY =>
      if ulsub env.millis w2.battery_overlay_start_time > 2000 then
        { w2 with appState := { w2.appState with overlay_mode := .NONE } }
      else w2
  | _ => w2

/-- The branch of `render_frame` that draws the main content (`overlay_mode`
is `NONE`): the renderers invoked and the state they leave. -/
def render_frame_content (env : Env) (w : World) : World × List Renderer :=
  if w.appState.is_game_running then
    match w.appState.main_mode with
    | .ANIMATION =>
        match w.appState.anim_mode with
        | .FLAME => (w, [.flameEffect_lowRam])
        | .RAINBOW => (w, [.anim_rainbow_flow])
        | .RAINBOW_HEART => (w, [.anim_beating_heart])
        | .METEOR => ({ w with meteor_animation_initialized := true }, [.anim_meteor_shower])
    | .PIC => (w, [.Draw_pic w.appState.pic_mode])
    | .GAME =>
        ({ w with games := game_update_and_render w.appState.game_mode env w.games },
         [.game_update_and_render w.appState.game_mode])
    | .LETTER => (w, [.Rainbow_letter w.appState.letter_mode])
    | .NUMBER => (w, [.Rainbow_number w.appState.number_mode])
    | _ => (w, [])
  else if w.appState.in_sub_menu then
    match w.appState.main_mode with
    | .GAME => (w, [.draw_game_icon w.appState.game_mode])
    | .TOOL => (w, [.draw_tool_icon w.appState.tool_mode])
    | _ => (w, [])
  else (w, [.draw_main_menu_icon w.appState.main_mode])

/-- The dispatch of `render_frame`: an overlay renderer when `overlay_mode` is
not `NONE`, the main content otherwise. -/
def render_frame_dispatch (env : Env) (w : World) : World × List Renderer :=
  if w.appState.overlay_mode ≠ .NONE then
    if w.appState.overlay_mode = .BATTERY_DISPLAY then (w, [.render_battery_display])
    else if w.appState.overlay_mode = .CHARGING then (w, [.render_charging_display])
    else if w.appState.overlay_mode = .CHARGE_FULL then (w, [.render_charge_full_display])
    else (w, [])
  else render_frame_content env w

/-- The `switch (level_to_render)` of `render_frame`. -/
def real_brightness (level_to_render : Nat) : Nat :=
  match level_to_render with
  | 0 => 30
  | 1 => 60
  | 2 => 90
  | 3 => 160
  | 4 => 255
  | _ => 90

/-- The level `render_frame` renders with: the preview inside the Tool
sub-menu, the committed level everywhere else. -/
def level_to_render (w : World) : Nat :=
  if w.appState.main_mode = .TOOL ∧ w.appState.in_sub_menu then w.preview_brightness_level
  else w.appState.brightness_level

/-- The function `render_frame` of `manage.cpp`: the new state and the frame
shown. -/
def render_frame (env : Env) (w : World) : World × Frame :=
  let w1 := render_frame_overlay env w
  let r := render_frame_dispatch env w1
  (r.1, { calls := r.2, brightness := real_brightness (level_to_render r.1) })

/-! ## Runs of the control plane -/

/-- One call made by the main loop. -/
inductive Action where
  | key (event : KeyEvent) (env : Env)
  | frame (env : Env)
  | charging (chrg_low : Bool) (mv : Nat)
  | voltage (mv : Nat)

/-- The state after one call. -/
def step (w : World) : Action → World
  | .key event env => handle_input event env w
  | .frame env => (render_frame env w).1
  | .charging chrg_low mv => updateChargingState chrg_low mv w
  | .voltage mv => updateVoltageState mv w

/-- The state after a sequence of calls. -/
def run (w : World) (acts : List Action) : World := acts.foldl step w

/-- The state after a sequence of key events, each handled by `handle_input`. -/
def handle_inputs (w : World) (events : List (KeyEvent × Env)) : World :=
  events.foldl (fun v e => handle_input e.1 e.2 v) w

/-- Whether `overlay_mode` is one of the two charging overlays. -/
def isChargingOverlay (m : SystemOverlayMode) : Bool :=
  m = .CHARGING ∨ m = .CHARGE_FULL

/-! ## Properties of states -/

/-- The states the program can be in: the state at program start for some
stored byte, and every state a reachable state is taken to by
`load_brightness_from_eeprom` or by one call of the main loop (`handle_input`
with any event, `render_frame`, an update of the power management). -/
inductive Reachable : World → Prop where
  | init (b : Nat) : Reachable (initWorld b)
  | load {w : World} : Reachable w → Reachable (load_brightness_from_eeprom w)
  | step {w : World} (a : Action) : Reachable w → Reachable (step w a)

/-- The navigation invariant: `main_mode` is one of the six modes
`ANIMATION` .. `TOOL`, an open sub-menu is on `GAME` or `TOOL`, running content
is not on `TOOL`, and a running game has its sub-menu open. -/
def navInvariant (a : AppState) : Prop :=
  a.main_mode ≠ .SYSTEM_OVERLAY ∧
  (a.in_sub_menu = true → a.main_mode = .GAME ∨ a.main_mode = .TOOL) ∧
  (a.is_game_running = true → a.main_mode ≠ .TOOL) ∧
  (a.is_game_running = true → a.main_mode = .GAME → a.in_sub_menu = true)

/-- Whether `overlay_mode` is one of the four values the program assigns. -/
def overlayAssigned (m : SystemOverlayMode) : Prop :=
  m = .NONE ∨ m = .BATTERY_DISPLAY ∨ m = .CHARGING ∨ m = .CHARGE_FULL

/-- The renderer of the stated dispatch rule: the overlay renderer matching
`overlay_mode` when it is not `NONE`, otherwise the full-screen content
renderer of `main_mode` and its sub-mode when content runs, otherwise the
sub-menu icon when a sub-menu is open, otherwise the main-menu icon; none where
the rule names no renderer. -/
def selectedRenderer (a : AppState) : Option Renderer :=
  match a.overlay_mode with
  | .BATTERY_DISPLAY => some .render_battery_display
  | .CHARGING => some .render_charging_display
  | .CHARGE_FULL => some .render_charge_full_display
  | .NONE =>
      if a.is_game_running then
        match a.main_mode with
        | .ANIMATION =>
            some (match a.anim_mode with
              | .FLAME => .flameEffect_lowRam
              | .RAINBOW => .anim_rainbow_flow
              | .RAINBOW_HEART => .anim_beating_heart
              | .METEOR => .anim_meteor_shower)
        | .PIC => some (.Draw_pic a.pic_mode)
        | .GAME => some (.game_update_and_render a.game_mode)
        | .LETTER => some (.Rainbow_letter a.letter_mode)
        | .NUMBER => some (.Rainbow_number a.number_mode)
        | _ => none
      else if a.in_sub_menu then
        match a.main_mode with
        | .GAME => some (.draw_game_icon a.game_mode)
        | .TOOL => some (.draw_tool_icon a.tool_mode)
        | _ => none
      else some (.draw_main_menu_icon a.main_mode)
  | _ => none

/-- The initial layout of Pinball: Running, ball at (2, 2) with velocity
(1, 1), paddle at 2, speed 300 ms. -/
def pinballFresh (p : Pinball) : Prop :=
  p.pinball_state = .PINBALL_RUNNING ∧ p.ball_x = 2 ∧ p.ball_y = 2 ∧
  p.vel_x = 1 ∧ p.vel_y = 1 ∧ p.paddle_pos = 2 ∧ p.game_speed = 300

/-- The initial layout of Snake: Running, length 3 with the body at (4, 4),
(3, 4), (2, 4), heading right, the food inside the 8x8 grid. -/
def snakeFresh (s : Snake) : Prop :=
  s.snake_state = .RUNNING ∧ s.snake_len = 3 ∧
  s.snake_body.take 3 = [⟨4, 4⟩, ⟨3, 4⟩, ⟨2, 4⟩] ∧ s.snake_dir = .RIGHT ∧
  0 ≤ s.food.x ∧ s.food.x < 8 ∧ 0 ≤ s.food.y ∧ s.food.y < 8

/-! ## Conway's rules on the 8x8 grid -/

/-- Whether cell `(x, y)` is alive in the world `(w0, w1)`: bit
`(y * 8 + x) % 32` of word `(y * 8 + x) / 32`. -/
def lifeCell (w0 w1 : Nat) (x y : Nat) : Bool :=
  (if (y * 8 + x) / 32 = 0 then w0 else w1).testBit ((y * 8 + x) % 32)

/-- The eight offsets from a cell to its neighbours. -/
def neighbourOffsets : List (Int × Int) :=
  [(-1, -1), (-1, 0), (-1, 1), (0, -1), (0, 1), (1, -1), (1, 0), (1, 1)]

/-- Whether `(x, y)` is a cell of the 8x8 grid. -/
def inGrid (x y : Int) : Bool := decide (0 ≤ x ∧ x < 8 ∧ 0 ≤ y ∧ y < 8)

/-- The number of live cells among the neighbours of `(x, y)` that lie inside
the grid; a neighbour outside the grid counts as dead. -/
def liveNeighbours (w0 w1 : Nat) (x y : Nat) : Nat :=
  neighbourOffsets.countP
    (fun d => inGrid (x + d.1) (y + d.2) &&
      lifeCell w0 w1 ((x : Int) + d.1).toNat ((y : Int) + d.2).toNat)

/-- Conway's rules: a live cell with 2 or 3 live neighbours stays alive, a dead
cell with exactly 3 live neighbours becomes alive, every other cell is dead. -/
def conwayNext (w0 w1 : Nat) (x y : Nat) : Bool :=
  (lifeCell w0 w1 x y && (liveNeighbours w0 w1 x y = 2 || liveNeighbours w0 w1 x y = 3)) ||
  (!lifeCell w0 w1 x y && liveNeighbours w0 w1 x y = 3)

/-! ## Sample inputs -/

/-- A sample environment: the clock reads `t` and every random draw is 0. -/
def envAt (t : Nat) : Env := { millis := t, random := fun _ => 0 }

/-- The state in which the battery overlay was entered at clock 1000 from the
initial state. -/
def batteryShown : World := handle_input .BOTH_PRESS (envAt 1000) (initWorld 255)

/-- Whether the PowerMonitor state differs from `STATE_DISCHARGING` in every
state from which a `render_frame` call of the run of `acts` from `w` starts. -/
def chargerStaysOn (w : World) : List Action → Bool
  | [] => true
  | a :: acts =>
      (match a with
        | .frame _ => decide (w.g_charging_state ≠ .STATE_DISCHARGING)
        | _ => true) &&
      chargerStaysOn (step w a) acts

/-- Whether every `BOTH_PRESS` event of the run of `acts` from `w` is handled
while a game is running (`main_mode` is `GAME` and `is_game_running`). -/
def chordOnlyInGame (w : World) : List Action → Bool
  | [] => true
  | a :: acts =>
      (match a with
        | .key .BOTH_PRESS _ =>
            decide (w.appState.main_mode = .GAME ∧ w.appState.is_game_running = true)
        | _ => true) &&
      chordOnlyInGame (step w a) acts

/-- The state in which the charger was plugged into the initial state and one
frame has been rendered: the charging overlay is shown. -/
def chargingShown : World :=
  run (initWorld 255) [.charging true 3900, .frame (envAt 100)]

/-- Whether the navigation fields select a content renderer: running content
is not on `TOOL` or `SYSTEM_OVERLAY`, and an open sub-menu is on `GAME` or
`TOOL`. -/
def contentSelectable (a : AppState) : Bool :=
  if a.is_game_running then
    decide (a.main_mode ≠ .TOOL ∧ a.main_mode ≠ .SYSTEM_OVERLAY)
  else if a.in_sub_menu then decide (a.main_mode = .GAME ∨ a.main_mode = .TOOL)
  else true

/-- The state in which the charger was unplugged while the charging overlay
was shown. -/
def chargerRemoved : World := updateChargingState false 3900 chargingShown

/-- The events of one visit of the Tool sub-menu: `RIGHT_CLICK` to enter, one
`LEFT_CLICK` per element of `envs`, then the event `last`. -/
def toolVisit (e0 : Env) (envs : List Env) (last : KeyEvent) (e1 : Env) :
    List (KeyEvent × Env) :=
  (KeyEvent.RIGHT_CLICK, e0) :: (envs.map (fun e => (KeyEvent.LEFT_CLICK, e)) ++ [(last, e1)])

/-- The initial state with the top menu moved to `TOOL` (five `LEFT_CLICK`s). -/
def toolSelected : World :=
  handle_inputs (initWorld 255) (List.replicate 5 (KeyEvent.LEFT_CLICK, envAt 10))

/-- The state in which an animation runs: `RIGHT_CLICK` in the initial state. -/
def animRunning : World := handle_input .RIGHT_CLICK (envAt 10) (initWorld 255)

/-- The state in which Pinball runs: from the initial state, the top menu is
moved to `GAME`, the sub-menu is opened and the selected game is started. -/
def gameRunning : World :=
  handle_inputs (initWorld 255)
    [(.LEFT_CLICK, envAt 10), (.LEFT_CLICK, envAt 20), (.RIGHT_CLICK, envAt 30),
     (.RIGHT_CLICK, envAt 40)]

/-- A call of `read_key_event` that finds both buttons pressed, at entry and
after the debounce delay, and whose wait loop ends when the left button is
released while the right button is still pressed. -/
def chordPoll : Poll :=
  { left_key_pressed := true, right_key_pressed := true, millis := 500,
    debounced := (true, true), loop_samples := [(true, true), (false, true)] }

/-- An environment whose i-th random draw is `a * i + b`. -/
def envRandom (t a b : Nat) : Env := { millis := t, random := fun i => a * i + b }

/-- The state in which the Game of Life runs: from the initial state, the top
menu is moved to `GAME`, the sub-menu is opened, `GAME_OF_LIFE` is selected and
started, seeded with the cells 0, 5, 10, .., 55. -/
def lifeRunning : World :=
  handle_inputs (initWorld 255)
    [(.LEFT_CLICK, envAt 10), (.LEFT_CLICK, envAt 20), (.RIGHT_CLICK, envAt 30),
     (.LEFT_CLICK, envAt 40), (.LEFT_CLICK, envAt 50), (.RIGHT_CLICK, envRandom 60 5 0)]

/-- Pinball after its start at clock 40 and four ticks without input: the ball
has passed the paddle and the game is over. -/
def pinballOver : Pinball :=
  pinball_update_and_render (envAt 1700)
    (pinball_update_and_render (envAt 1300)
      (pinball_update_and_render (envAt 900)
        (pinball_update_and_render (envAt 500) gameRunning.games.pinball)))

/-- Snake after its start at clock 40 and four moves without input: the head
has run into the right wall and the game is over. -/
def snakeOver : Snake :=
  snake_update_and_render (envAt 1700)
    (snake_update_and_render (envAt 1300)
      (snake_update_and_render (envAt 900)
        (snake_update_and_render (envAt 500)
          (snake_init (envAt 40) (initWorld 255).games.snake))))

/-! ## `Game.cpp`: the pixels the games write -/

/-- The indices `pinball_update_and_render` passes to `setWs2812Color` in its
rendering part, in the state its logic part leaves: the three paddle cells and
the ball while the game runs, the whole matrix in the lit half of the
game-over blink. -/
def pinball_render (env : Env) (p : Pinball) : List Int :=
  if p.pinball_state = .PINBALL_RUNNING then
    (List.range PADDLE_LEN.toNat).map
        (fun (i : Nat) => pos2index (p.paddle_pos + (i : Int)) (BOARD_HEIGHT - 1)) ++
      [pos2index p.ball_x p.ball_y]
  else if (env.millis % 2 ^ 32 / 300) % 2 = 0 then
    (List.range 64).map (fun (i : Nat) => (i : Int))
  else []

/-- The pixel indices `snake_update_and_render` passes to `setWs2812Color` in
its rendering part, in the state its logic part leaves: the segments and, in
the lit half of its blink, the food while the game runs; the whole matrix in
the lit half of the game-over blink. -/
def snake_render (env : Env) (s : Snake) : List Int :=
  if s.snake_state = .RUNNING then
    (List.range s.snake_len).map
        (fun (i : Nat) => (s.snake_body.getD i default).y * BOARD_WIDTH +
          (s.snake_body.getD i default).x) ++
      (if (env.millis % 2 ^ 32 / 200) % 2 = 0 then [s.food.y * BOARD_WIDTH + s.food.x]
       else [])
  else if s.snake_state = .GAME_OVER then
    if (env.millis % 2 ^ 32 / 300) % 2 = 0 then (List.range 64).map (fun (i : Nat) => (i : Int))
    else []
  else []

/-! ## Properties of the games -/

/-- The Pinball states reachable from `pinball_init`: the state `pinball_init`
leaves, whatever the state before it, and every state a reachable state is
taken to by `pinball_handle_input` with any event or by one call of
`pinball_update_and_render`, at any clock value. -/
inductive PinballReachable : Pinball → Prop where
  | init (env : Env) (p : Pinball) : PinballReachable (pinball_init env p)
  | input {p : Pinball} (event : KeyEvent) (env : Env) :
      PinballReachable p → PinballReachable (pinball_handle_input event env p)
  | tick {p : Pinball} (env : Env) :
      PinballReachable p → PinballReachable (pinball_update_and_render env p)

/-- The stated Pinball invariant: the ball is in columns 0..7 and rows 0..6,
both velocity components are +1 or -1, the paddle is in 0..5 and `game_speed`
is a multiple of 20 between 60 and 300. -/
def pinballInvariant (p : Pinball) : Prop :=
  (0 ≤ p.ball_x ∧ p.ball_x ≤ 7) ∧ (0 ≤ p.ball_y ∧ p.ball_y ≤ 6) ∧
  (p.vel_x = 1 ∨ p.vel_x = -1) ∧ (p.vel_y = 1 ∨ p.vel_y = -1) ∧
  (0 ≤ p.paddle_pos ∧ p.paddle_pos ≤ 5) ∧
  p.game_speed % 20 = 0 ∧ 60 ≤ p.game_speed ∧ p.game_speed ≤ 300

/-- The ball moves away from a wall it is on: the facts that make
`pinballInvariant` inductive. -/
def pinballHeading (p : Pinball) : Prop :=
  (p.ball_x = 0 → p.vel_x = 1) ∧ (p.ball_x = 7 → p.vel_x = -1) ∧
  (p.ball_y = 0 → p.vel_y = 1) ∧ (p.ball_y = 6 → p.vel_y = -1)

/-- Whether the paddle of Pinball is inside the range `constrain` keeps it
in. -/
def paddleInRange (w : World) : Prop :=
  0 ≤ w.games.pinball.paddle_pos ∧ w.games.pinball.paddle_pos ≤ 5

/-- The direction opposite to a direction of the snake. -/
def SnakeDirection.opposite : SnakeDirection → SnakeDirection
  | .UP => .DOWN
  | .DOWN => .UP
  | .LEFT => .RIGHT
  | .RIGHT => .LEFT

/-- Whether a direction of the snake is along the x axis. -/
def SnakeDirection.horizontal : SnakeDirection → Bool
  | .UP => false
  | .DOWN => false
  | .LEFT => true
  | .RIGHT => true

/-- Whether two directions are perpendicular: one is along the x axis and the
other along the y axis. -/
def perpendicular (d e : SnakeDirection) : Bool := d.horizontal != e.horizontal

/-- The cell next to `head` in direction `d`, in unbounded integers. -/
def movedHead (d : SnakeDirection) (head : Point) : Point :=
  match d with
  | .UP => { x := head.x, y := head.y - 1 }
  | .DOWN => { x := head.x, y := head.y + 1 }
  | .LEFT => { x := head.x - 1, y := head.y }
  | .RIGHT => { x := head.x + 1, y := head.y }

/-- The snake as the specification describes it: the phase, the body as the
list of its segments from the head to the tail, the length and the food. -/
structure SnakeView where
  phase : SnakeState
  segments : List Point
  length : Nat
  food : Point
  deriving DecidableEq, Repr

/-- The view of a state of `Game.cpp`: the segments are the first `snake_len`
cells of `snake_body`. -/
def snakeView (s : Snake) : SnakeView :=
  { phase := s.snake_state, segments := s.snake_body.take s.snake_len,
    length := s.snake_len, food := s.food }

/-- The reference step of a Snake move in the words of the specification: with
`h` the head moved one cell in the direction `d`, the game is over, body and
length unchanged, when `h` is outside the grid or is one of the current
segments; otherwise the body is `h` followed by the old body, cut to the new
length, which is one more (at most 64) when `h` is on the food, and the food
is drawn again only then. -/
def snakeReferenceStep (env : Env) (d : SnakeDirection) (v : SnakeView) : SnakeView :=
  let h := movedHead d (v.segments.headD default)
  if inGrid h.x h.y = false ∨ h ∈ v.segments then { v with phase := .GAME_OVER }
  else
    let len := if h = v.food then min (v.length + 1) 64 else v.length
    { phase := v.phase, segments := (h :: v.segments).take len, length := len,
      food := if h = v.food then randomFood env else v.food }

/-- The Snake states reachable from `snake_init`: the state `snake_init`
leaves when called on the 64-cell body array, and every state a reachable
state is taken to by `snake_handle_input` with any event or by one call of
`snake_update_and_render`, at any clock value and for any random draws. -/
inductive SnakeReachable : Snake → Prop where
  | init (env : Env) (s : Snake) :
      s.snake_body.length = SNAKE_MAX_LENGTH → SnakeReachable (snake_init env s)
  | input {s : Snake} (event : KeyEvent) (env : Env) :
      SnakeReachable s → SnakeReachable (snake_handle_input event env s)
  | tick {s : Snake} (env : Env) :
      SnakeReachable s → SnakeReachable (snake_update_and_render env s)

/-- The stated Snake invariant: the length is in 3..64, every segment with
index below `snake_len` is inside the grid, the segments are pairwise
distinct, and the food is inside the grid. -/
def snakeInvariant (s : Snake) : Prop :=
  (3 ≤ s.snake_len ∧ s.snake_len ≤ 64) ∧
  (∀ i, i < s.snake_len →
    inGrid (s.snake_body.getD i default).x (s.snake_body.getD i default).y = true) ∧
  (∀ i j, i < j → j < s.snake_len →
    s.snake_body.getD i default ≠ s.snake_body.getD j default) ∧
  inGrid s.food.x s.food.y = true

/-- The invariant on the view of the snake: the length is in 3..64, the list
of segments has no repetition and lies inside the grid, as does the food. -/
def snakeViewInvariant (v : SnakeView) : Prop :=
  (3 ≤ v.length ∧ v.length ≤ 64) ∧ (∀ p ∈ v.segments, inGrid p.x p.y = true) ∧
  v.segments.Nodup ∧ inGrid v.food.x v.food.y = true

/-! ## Properties of the power monitor and of the overlays -/

/-- The transition table of the power monitor in the words of the
specification: from the charge pin (`true` is low, the charger connected), the
battery voltage in mV, the previous state and the previous charging-changed
flag to the new state and the new flag. -/
def chargingTable (pin_low : Bool) (voltage : Nat) (s : ChargingState) (flag : Bool) :
    ChargingState × Bool :=
  match pin_low, s with
  | true, .STATE_DISCHARGING => (.STATE_CHARGING, true)
  | true, .STATE_CHARGING =>
      if voltage ≥ 4000 then (.STATE_CHARGE_FULL, true) else (.STATE_CHARGING, flag)
  | true, .STATE_CHARGE_FULL => (.STATE_CHARGE_FULL, flag)
  | false, .STATE_CHARGING => (.STATE_DISCHARGING, flag)
  | false, .STATE_CHARGE_FULL => (.STATE_DISCHARGING, flag)
  | false, .STATE_DISCHARGING => (.STATE_DISCHARGING, flag)

/-- The state `w` with `overlay_mode` replaced by `m`: the states that differ
from `w` only in `overlay_mode`. -/
def setOverlay (m : SystemOverlayMode) (w : World) : World :=
  { w with appState := { w.appState with overlay_mode := m } }

/-! ## More sample inputs -/

/-- Snake right after its start at clock 40. -/
def snakeStarted : Snake := snake_init (envAt 40) (initWorld 255).games.snake

/-- Pinball started again at clock 40 after a lost game, the paddle moved
left once, and one tick at clock 500. -/
def pinballPlayed : Pinball :=
  pinball_update_and_render (envAt 500)
    (pinball_handle_input .LEFT_CLICK (envAt 100) (pinball_init (envAt 40) pinballOver))

/-- The state in which the charger is plugged in while Pinball runs and one
frame has been rendered: the charging overlay is shown over the running
game. -/
def chargingDuringGame : World :=
  run gameRunning [.charging true 3900, .frame (envAt 100)]

/-- A key driver in which both buttons were pressed at clock 100 and neither
hold has fired. -/
def bothDown : Keys :=
  { left_key_down_time := 100, right_key_down_time := 100,
    left_key_long_press_fired := false, right_key_long_press_fired := false }

/-! ## The seeding of the Game of Life -/

/-- Whether cell `(x, y)` is one of the cells `initGameOfLife` draws: its index
`y * 8 + x` is `random(64)` of one of the `64 / 5 = 12` draws. -/
def seededCell (env : Env) (x y : Nat) : Bool :=
  (List.range 12).any (fun i => decide (env.random i % 64 = y * 8 + x))

/-- The body of the loop of `initGameOfLife` of `Game.cpp`: draw `i` sets the
bit of the cell `random(64)` in the word that holds it. -/
def seedStep (env : Env) (wd : Nat × Nat) (i : Nat) : Nat × Nat :=
  if env.random i % 64 < 32 then (wd.1 ||| (1 <<< (env.random i % 64)), wd.2)
  else (wd.1, wd.2 ||| (1 <<< (env.random i % 64 - 32)))

/-- A world in which the four cells of the block in the top left corner are
alive, a still life, last evolved at clock 0. -/
def lifeBlock : Life := { life_world0 := 771, life_world1 := 0, gol_last_update_time := 0 }

/-! ## Theorems -/

/-- C1: while `overlay_mode` is `BATTERY_DISPLAY`, `handle_input` returns the
state it was given, for every key event: no field of `AppState`, of the overlay
state, of the brightness preview, of the persistent storage or of the games
changes. -/
theorem handle_input_battery_display_ignored (event : KeyEvent) (env : Env) (w : World)
    (h : w.appState.overlay_mode = .BATTERY_DISPLAY) :
    handle_input event env w = w := by
  unfold handle_input
  simp [h]

/-- The instance of C1 at the battery overlay entered from the initial state,
with a `RIGHT_CLICK`. -/
theorem handle_input_battery_display_ignored_witness :
    batteryShown.appState.overlay_mode = .BATTERY_DISPLAY ∧
      handle_input .RIGHT_CLICK (envAt 1500) batteryShown = batteryShown :=
  ⟨by decide, handle_input_battery_display_ignored _ _ _ (by decide)⟩

/-- C2: when `overlay_mode` is not `BATTERY_DISPLAY`, `handle_input` on
`BOTH_PRESS` enters the battery overlay, with the clock as start time and the
current battery level as snapshot and nothing else changed, unless a game is
running (`main_mode` is `GAME` and `is_game_running`), in which case the state
is unchanged. -/
theorem handle_input_both_press (env : Env) (w : World)
    (h : w.appState.overlay_mode ≠ .BATTERY_DISPLAY) :
    (¬ (w.appState.main_mode = .GAME ∧ w.appState.is_game_running = true) →
      handle_input .BOTH_PRESS env w =
        { w with
          appState := { w.appState with overlay_mode := .BATTERY_DISPLAY },
          battery_overlay_start_time := env.millis,
          battery_level_snapshot := w.g_current_level }) ∧
    (w.appState.main_mode = .GAME ∧ w.appState.is_game_running = true →
      handle_input .BOTH_PRESS env w = w) := by
  unfold handle_input getCurrentBatteryLevel
  constructor
  · intro hg
    simp [h, hg]
  · intro hg
    simp [h, hg]

/-- The instance of C2 at the initial state, where no game is running. -/
theorem handle_input_both_press_witness :
    (initWorld 255).appState.overlay_mode ≠ .BATTERY_DISPLAY ∧
      ¬ ((initWorld 255).appState.main_mode = .GAME ∧
          (initWorld 255).appState.is_game_running = true) ∧
      handle_input .BOTH_PRESS (envAt 1000) (initWorld 255) =
        { initWorld 255 with
          appState := { (initWorld 255).appState with overlay_mode := .BATTERY_DISPLAY },
          battery_overlay_start_time := (envAt 1000).millis,
          battery_level_snapshot := (initWorld 255).g_current_level } :=
  ⟨by decide, by decide,
    (handle_input_both_press (envAt 1000) (initWorld 255) (by decide)).1 (by decide)⟩

/-- The unsigned difference is the plain difference when the clock has not
wrapped since the time stamp was taken. -/
theorem ulsub_eq_sub (t t0 : Nat) (h0 : t0 ≤ t) (ht : t < 2 ^ 32) : ulsub t t0 = t - t0 := by
  unfold ulsub
  have h1 : t % 2 ^ 32 = t := Nat.mod_eq_of_lt ht
  have h2 : t0 % 2 ^ 32 = t0 := Nat.mod_eq_of_lt (lt_of_le_of_lt h0 ht)
  rw [h1, h2]
  have h3 : t + (2 ^ 32 - t0) = (t - t0) + 2 ^ 32 := by omega
  rw [h3, Nat.add_mod_right]
  exact Nat.mod_eq_of_lt (by omega)

/-- C3, as stated, fails: a battery overlay entered at clock 1000 is still shown
by the frame rendered at clock 3000, exactly 2000 ms later; and the frame
rendered 500 ms after entry replaces it by the charging overlay when the
charging-changed signal is pending. -/
theorem render_frame_battery_expiry_counterexample :
    batteryShown.appState.overlay_mode = .BATTERY_DISPLAY ∧
      batteryShown.battery_overlay_start_time = 1000 ∧
      (render_frame (envAt 3000) batteryShown).1.appState.overlay_mode = .BATTERY_DISPLAY ∧
      (render_frame (envAt 1500)
          (updateChargingState true 3900 batteryShown)).1.appState.overlay_mode = .CHARGING := by
  decide

/-- The main-content branch of `render_frame` leaves `appState` alone. -/
theorem render_frame_content_appState (env : Env) (w : World) :
    (render_frame_content env w).1.appState = w.appState := by
  unfold render_frame_content
  split
  · split
    · split <;> rfl
    all_goals rfl
  · split
    · split <;> rfl
    · rfl

/-- The dispatch of `render_frame` leaves `appState` alone. -/
theorem render_frame_dispatch_appState (env : Env) (w : World) :
    (render_frame_dispatch env w).1.appState = w.appState := by
  unfold render_frame_dispatch
  split
  · split
    · rfl
    · split
      · rfl
      · split <;> rfl
  · exact render_frame_content_appState env w

/-- The overlay of the state `render_frame` returns is decided by its steps 0,
0.5 and 1. -/
theorem render_frame_overlay_mode (env : Env) (w : World) :
    (render_frame env w).1.appState.overlay_mode =
      (render_frame_overlay env w).appState.overlay_mode := by
  unfold render_frame
  simp only [render_frame_dispatch_appState]

/-- C3, amended: from a state showing the battery overlay, with no pending
charging-changed signal for a charging state, `render_frame` keeps
`BATTERY_DISPLAY` when the unsigned elapsed time `millis() - start` is at most
2000 and sets `NONE` when it is more than 2000. -/
theorem render_frame_battery_expiry (env : Env) (w : World)
    (h : w.appState.overlay_mode = .BATTERY_DISPLAY)
    (hc : w.g_charging_started_event = false ∨ w.g_charging_state = .STATE_DISCHARGING) :
    (ulsub env.millis w.battery_overlay_start_time ≤ 2000 →
      (render_frame env w).1.appState.overlay_mode = .BATTERY_DISPLAY) ∧
    (ulsub env.millis w.battery_overlay_start_time > 2000 →
      (render_frame env w).1.appState.overlay_mode = .NONE) := by
  rw [render_frame_overlay_mode]
  unfold render_frame_overlay getCurrentChargingState
  rcases hc with hc | hc
  · constructor
    · intro ht
      simp [h, hc, Nat.not_lt.mpr ht]
    · intro ht
      simp [h, hc, ht]
  · constructor
    · intro ht
      cases hf : w.g_charging_started_event <;> simp [h, hc, Nat.not_lt.mpr ht]
    · intro ht
      cases hf : w.g_charging_started_event <;> simp [h, hc, ht]

/-- The instance of amended C3 at the battery overlay entered at clock 1000 and
the frame rendered at clock 3001. -/
theorem render_frame_battery_expiry_witness :
    batteryShown.appState.overlay_mode = .BATTERY_DISPLAY ∧
      (batteryShown.g_charging_started_event = false ∨
        batteryShown.g_charging_state = .STATE_DISCHARGING) ∧
      ulsub (envAt 3001).millis batteryShown.battery_overlay_start_time > 2000 ∧
      (render_frame (envAt 3001) batteryShown).1.appState.overlay_mode = .NONE :=
  ⟨by decide, by decide, by decide,
    (render_frame_battery_expiry (envAt 3001) batteryShown (by decide) (by decide)).2
      (by decide)⟩

/-- The running branch of `handle_input` leaves `overlay_mode` alone. -/
theorem handle_input_running_overlay (event : KeyEvent) (env : Env) (w : World) :
    (handle_input_running event env w).appState.overlay_mode = w.appState.overlay_mode := by
  obtain ⟨⟨mm, am, pm, gm, lm, nm, tm, om, sub, run, bl⟩, t0, snap, pv, eb, ew, fl, lvl, cs,
    met, g⟩ := w
  cases mm <;> cases event <;>
    simp [handle_input_running, running_exit, running_number_game_input, running_letter_input,
      running_pic_input, running_animation_input]
  all_goals (cases gm <;> rfl)

/-- The menu branch of `handle_input` leaves `overlay_mode` alone. -/
theorem handle_input_menu_overlay (event : KeyEvent) (env : Env) (w : World) :
    (handle_input_menu event env w).appState.overlay_mode = w.appState.overlay_mode := by
  obtain ⟨⟨mm, am, pm, gm, lm, nm, tm, om, sub, run, bl⟩, t0, snap, pv, eb, ew, fl, lvl, cs,
    met, g⟩ := w
  cases mm <;> cases event <;> cases sub <;>
    simp [handle_input_menu, save_brightness_to_eeprom]
  all_goals (split <;> rfl)

/-- Every event but `BOTH_PRESS` leaves `overlay_mode` as it was. -/
theorem handle_input_overlay_of_ne_chord (event : KeyEvent) (env : Env) (w : World)
    (he : event ≠ .BOTH_PRESS) :
    (handle_input event env w).appState.overlay_mode = w.appState.overlay_mode := by
  unfold handle_input
  split
  · rfl
  · split
    · rfl
    · split
      · exact handle_input_running_overlay event env w
      · exact handle_input_menu_overlay event env w

/-- A `BOTH_PRESS` event leaves `overlay_mode` as it was or sets
`BATTERY_DISPLAY`, the latter only when no game is running. -/
theorem handle_input_overlay_of_chord (env : Env) (w : World) :
    (handle_input .BOTH_PRESS env w).appState.overlay_mode = w.appState.overlay_mode ∨
      ((handle_input .BOTH_PRESS env w).appState.overlay_mode = .BATTERY_DISPLAY ∧
        ¬ (w.appState.main_mode = .GAME ∧ w.appState.is_game_running = true)) := by
  unfold handle_input
  by_cases hb : w.appState.overlay_mode = .BATTERY_DISPLAY
  · simp [hb]
  · by_cases hg : w.appState.main_mode = .GAME ∧ w.appState.is_game_running = true
    · simp [hb, hg]
    · right
      simp [hb, hg]

/-- The state `updateChargingState` returns has the `appState` it was given. -/
theorem updateChargingState_appState (chrg_low : Bool) (mv : Nat) (w : World) :
    (updateChargingState chrg_low mv w).appState = w.appState := by
  unfold updateChargingState
  simp only []
  split_ifs <;> rfl

/-- The state `updateVoltageState` returns has the `appState` it was given. -/
theorem updateVoltageState_appState (mv : Nat) (w : World) :
    (updateVoltageState mv w).appState = w.appState := by
  unfold updateVoltageState
  simp only []
  split_ifs <;> rfl

/-- What steps 0, 0.5 and 1 of `render_frame` make of `overlay_mode` when no
charging-changed signal is pending. -/
theorem render_frame_overlay_of_no_signal (env : Env) (w : World)
    (hf : w.g_charging_started_event = false) :
    (render_frame_overlay env w).appState.overlay_mode =
      if isChargingOverlay w.appState.overlay_mode = true then
        (if w.g_charging_state = .STATE_DISCHARGING then .NONE else w.appState.overlay_mode)
      else if w.appState.overlay_mode = .BATTERY_DISPLAY then
        (if ulsub env.millis w.battery_overlay_start_time > 2000 then .NONE
         else .BATTERY_DISPLAY)
      else w.appState.overlay_mode := by
  obtain ⟨⟨mm, am, pm, gm, lm, nm, tm, om, sub, run, bl⟩, t0, snap, pv, eb, ew, fl, lvl, cs,
    met, g⟩ := w
  simp only at hf
  subst hf
  cases om <;> cases cs <;>
    simp [render_frame_overlay, getCurrentChargingState, isChargingOverlay]
  all_goals (split <;> rfl)

/-- What steps 0, 0.5 and 1 of `render_frame` make of `overlay_mode` when the
charging-changed signal is pending. -/
theorem render_frame_overlay_of_signal (env : Env) (w : World)
    (hf : w.g_charging_started_event = true) :
    (render_frame_overlay env w).appState.overlay_mode =
      match w.g_charging_state with
      | .STATE_CHARGING => .CHARGING
      | .STATE_CHARGE_FULL => .CHARGE_FULL
      | .STATE_DISCHARGING =>
          if isChargingOverlay w.appState.overlay_mode = true then .NONE
          else if w.appState.overlay_mode = .BATTERY_DISPLAY then
            (if ulsub env.millis w.battery_overlay_start_time > 2000 then .NONE
             else .BATTERY_DISPLAY)
          else w.appState.overlay_mode := by
  obtain ⟨⟨mm, am, pm, gm, lm, nm, tm, om, sub, run, bl⟩, t0, snap, pv, eb, ew, fl, lvl, cs,
    met, g⟩ := w
  simp only at hf
  subst hf
  cases om <;> cases cs <;>
    simp [render_frame_overlay, getCurrentChargingState, isChargingOverlay]
  all_goals (split <;> rfl)

/-- One call of the main loop keeps a charging overlay when it is not a frame
rendered with the charger gone and not a chord handled outside a game. -/
theorem step_keeps_charging_overlay (w : World) (a : Action)
    (h0 : isChargingOverlay w.appState.overlay_mode = true)
    (h1 : chargerStaysOn w [a] = true) (h2 : chordOnlyInGame w [a] = true) :
    isChargingOverlay (step w a).appState.overlay_mode = true := by
  cases a with
  | key event env =>
      by_cases he : event = .BOTH_PRESS
      · subst he
        rcases handle_input_overlay_of_chord env w with h | ⟨_, hg⟩
        · simp only [step]
          rw [h]
          exact h0
        · simp [chordOnlyInGame] at h2
          exact absurd h2 hg
      · simp only [step]
        rw [handle_input_overlay_of_ne_chord event env w he]
        exact h0
  | frame env =>
      have hd : w.g_charging_state ≠ .STATE_DISCHARGING := by
        simpa [chargerStaysOn] using h1
      simp only [step]
      rw [render_frame_overlay_mode]
      cases hf : w.g_charging_started_event
      · rw [render_frame_overlay_of_no_signal env w hf]
        simp [h0, hd]
      · rw [render_frame_overlay_of_signal env w hf]
        cases hs : w.g_charging_state
        · exact absurd hs hd
        · rfl
        · rfl
  | charging chrg_low mv =>
      simp only [step, updateChargingState_appState]
      exact h0
  | voltage mv =>
      simp only [step, updateVoltageState_appState]
      exact h0

/-- C4, as stated, fails: with the charging overlay shown and the charger
still plugged in, a `BOTH_PRESS` event replaces the overlay by
`BATTERY_DISPLAY`, and the frame rendered 2100 ms later sets `NONE`. -/
theorem charging_overlay_persists_counterexample :
    chargingShown.appState.overlay_mode = .CHARGING ∧
      chargerStaysOn chargingShown [.key .BOTH_PRESS (envAt 200), .frame (envAt 2300)] = true ∧
      (run chargingShown [.key .BOTH_PRESS (envAt 200)]).appState.overlay_mode =
        .BATTERY_DISPLAY ∧
      (run chargingShown
        [.key .BOTH_PRESS (envAt 200), .frame (envAt 2300)]).appState.overlay_mode = .NONE := by
  decide

/-- C4, amended: once `overlay_mode` is `CHARGING` or `CHARGE_FULL`, it stays
one of the two across every sequence of `handle_input`, `render_frame` and
PowerMonitor calls in which no frame is rendered while the PowerMonitor state is
`STATE_DISCHARGING` and no `BOTH_PRESS` event is handled outside a running
game. -/
theorem charging_overlay_persists (w : World) (acts : List Action)
    (h0 : isChargingOverlay w.appState.overlay_mode = true)
    (h1 : chargerStaysOn w acts = true) (h2 : chordOnlyInGame w acts = true) :
    isChargingOverlay (run w acts).appState.overlay_mode = true := by
  induction acts generalizing w with
  | nil => exact h0
  | cons a acts ih =>
      have h1s : chargerStaysOn w [a] = true ∧ chargerStaysOn (step w a) acts = true := by
        simpa [chargerStaysOn] using h1
      have h2s : chordOnlyInGame w [a] = true ∧ chordOnlyInGame (step w a) acts = true := by
        simpa [chordOnlyInGame] using h2
      have hs := step_keeps_charging_overlay w a h0 h1s.1 h2s.1
      simpa [run] using ih (step w a) hs h1s.2 h2s.2

/-- The instance of amended C4 at the charging overlay entered from the
initial state, over clicks, frames and a PowerMonitor call. -/
theorem charging_overlay_persists_witness :
    isChargingOverlay chargingShown.appState.overlay_mode = true ∧
      isChargingOverlay (run chargingShown
        [.key .RIGHT_CLICK (envAt 200), .frame (envAt 300), .charging true 4100,
          .frame (envAt 5000), .key .LEFT_CLICK (envAt 5100)]).appState.overlay_mode = true :=
  ⟨by decide, charging_overlay_persists _ _ (by decide) (by decide) (by decide)⟩

/-- A charging overlay in the state steps 0, 0.5 and 1 of `render_frame` return
was the overlay before, or was entered by a pending charging-changed signal. -/
theorem render_frame_overlay_charging (env : Env) (w : World)
    (h : isChargingOverlay (render_frame_overlay env w).appState.overlay_mode = true) :
    (render_frame_overlay env w).appState.overlay_mode = w.appState.overlay_mode ∨
      (w.g_charging_started_event = true ∧
        (((render_frame_overlay env w).appState.overlay_mode = .CHARGING ∧
            w.g_charging_state = .STATE_CHARGING) ∨
          ((render_frame_overlay env w).appState.overlay_mode = .CHARGE_FULL ∧
            w.g_charging_state = .STATE_CHARGE_FULL))) := by
  obtain ⟨⟨mm, am, pm, gm, lm, nm, tm, om, sub, run, bl⟩, t0, snap, pv, eb, ew, fl, lvl, cs,
    met, g⟩ := w
  revert h
  cases fl <;> cases om <;> cases cs <;>
    simp [render_frame_overlay, getCurrentChargingState, isChargingOverlay]
  all_goals (split <;> simp)

/-- C5, as stated, fails: with the battery overlay shown, plugging in the
charger makes the next frame replace `BATTERY_DISPLAY` by `CHARGING`. -/
theorem charging_overlay_entry_counterexample :
    (updateChargingState true 3900 batteryShown).appState.overlay_mode = .BATTERY_DISPLAY ∧
      (step (updateChargingState true 3900 batteryShown)
        (.frame (envAt 1200))).appState.overlay_mode = .CHARGING := by
  decide

/-- C5, amended: a call of the main loop whose result has a charging overlay
either started with that same overlay or is a `render_frame` call that consumes
a pending charging-changed signal, the overlay being `CHARGING` when the
PowerMonitor state is `STATE_CHARGING` and `CHARGE_FULL` when it is
`STATE_CHARGE_FULL`, whatever the overlay was before. -/
theorem charging_overlay_entry (w : World) (a : Action)
    (h : isChargingOverlay (step w a).appState.overlay_mode = true) :
    (step w a).appState.overlay_mode = w.appState.overlay_mode ∨
      ((∃ env, a = .frame env) ∧ w.g_charging_started_event = true ∧
        (((step w a).appState.overlay_mode = .CHARGING ∧
            w.g_charging_state = .STATE_CHARGING) ∨
          ((step w a).appState.overlay_mode = .CHARGE_FULL ∧
            w.g_charging_state = .STATE_CHARGE_FULL))) := by
  cases a with
  | key event env =>
      left
      by_cases he : event = .BOTH_PRESS
      · subst he
        rcases handle_input_overlay_of_chord env w with h1 | ⟨h1, _⟩
        · exact h1
        · simp only [step] at h
          rw [h1] at h
          exact absurd h (by decide)
      · exact handle_input_overlay_of_ne_chord event env w he
  | frame env =>
      simp only [step] at h ⊢
      rw [render_frame_overlay_mode] at h ⊢
      rcases render_frame_overlay_charging env w h with h1 | ⟨hf, h1⟩
      · exact Or.inl h1
      · exact Or.inr ⟨⟨env, rfl⟩, hf, h1⟩
  | charging chrg_low mv =>
      left
      simp only [step, updateChargingState_appState]
  | voltage mv =>
      left
      simp only [step, updateVoltageState_appState]

/-- The instance of amended C5 at the frame that enters the charging overlay
from the initial state. -/
theorem charging_overlay_entry_witness :
    isChargingOverlay (step (updateChargingState true 3900 (initWorld 255))
        (.frame (envAt 100))).appState.overlay_mode = true ∧
      ((step (updateChargingState true 3900 (initWorld 255))
          (.frame (envAt 100))).appState.overlay_mode =
          (updateChargingState true 3900 (initWorld 255)).appState.overlay_mode ∨
        ((∃ env, Action.frame (envAt 100) = .frame env) ∧
          (updateChargingState true 3900 (initWorld 255)).g_charging_started_event = true ∧
          (((step (updateChargingState true 3900 (initWorld 255))
                (.frame (envAt 100))).appState.overlay_mode = .CHARGING ∧
              (updateChargingState true 3900 (initWorld 255)).g_charging_state =
                .STATE_CHARGING) ∨
            ((step (updateChargingState true 3900 (initWorld 255))
                (.frame (envAt 100))).appState.overlay_mode = .CHARGE_FULL ∧
              (updateChargingState true 3900 (initWorld 255)).g_charging_state =
                .STATE_CHARGE_FULL)))) :=
  ⟨by decide, charging_overlay_entry _ _ (by decide)⟩

/-- The main-content branch of `render_frame` leaves the charging-changed
signal alone. -/
theorem render_frame_content_signal (env : Env) (w : World) :
    (render_frame_content env w).1.g_charging_started_event = w.g_charging_started_event := by
  unfold render_frame_content
  split
  · split
    · split <;> rfl
    all_goals rfl
  · split
    · split <;> rfl
    · rfl

/-- The dispatch of `render_frame` leaves the charging-changed signal alone. -/
theorem render_frame_dispatch_signal (env : Env) (w : World) :
    (render_frame_dispatch env w).1.g_charging_started_event = w.g_charging_started_event := by
  unfold render_frame_dispatch
  split
  · split
    · rfl
    · split
      · rfl
      · split <;> rfl
  · exact render_frame_content_signal env w

/-- Steps 0, 0.5 and 1 of `render_frame` leave the charging-changed signal
cleared. -/
theorem render_frame_overlay_signal (env : Env) (w : World) :
    (render_frame_overlay env w).g_charging_started_event = false := by
  obtain ⟨⟨mm, am, pm, gm, lm, nm, tm, om, sub, run, bl⟩, t0, snap, pv, eb, ew, fl, lvl, cs,
    met, g⟩ := w
  cases fl <;> cases om <;> cases cs <;>
    simp [render_frame_overlay, getCurrentChargingState]
  all_goals (split <;> rfl)

/-- C6: `render_frame` with the charging-changed signal set puts `overlay_mode`
to `CHARGING` when the PowerMonitor state is `STATE_CHARGING` and to
`CHARGE_FULL` when it is `STATE_CHARGE_FULL`; with the signal clear, a charging
overlay in the result was already the overlay before the call; and in the state
returned the signal is always false. -/
theorem render_frame_charging_signal (env : Env) (w : World) :
    (w.g_charging_started_event = true → w.g_charging_state = .STATE_CHARGING →
      (render_frame env w).1.appState.overlay_mode = .CHARGING) ∧
    (w.g_charging_started_event = true → w.g_charging_state = .STATE_CHARGE_FULL →
      (render_frame env w).1.appState.overlay_mode = .CHARGE_FULL) ∧
    (w.g_charging_started_event = false →
      isChargingOverlay (render_frame env w).1.appState.overlay_mode = true →
      (render_frame env w).1.appState.overlay_mode = w.appState.overlay_mode) ∧
    (render_frame env w).1.g_charging_started_event = false := by
  refine ⟨?_, ?_, ?_, ?_⟩
  · intro hf hs
    rw [render_frame_overlay_mode, render_frame_overlay_of_signal env w hf, hs]
  · intro hf hs
    rw [render_frame_overlay_mode, render_frame_overlay_of_signal env w hf, hs]
  · intro hf h
    rw [render_frame_overlay_mode] at h ⊢
    rcases render_frame_overlay_charging env w h with h1 | ⟨hf1, _⟩
    · exact h1
    · rw [hf] at hf1
      exact absurd hf1 (by decide)
  · show (render_frame_dispatch env (render_frame_overlay env w)).1.g_charging_started_event
      = false
    rw [render_frame_dispatch_signal, render_frame_overlay_signal]

/-- The instance of C6 at the initial state with the charger just plugged in. -/
theorem render_frame_charging_signal_witness :
    (updateChargingState true 3900 (initWorld 255)).g_charging_started_event = true ∧
      (updateChargingState true 3900 (initWorld 255)).g_charging_state = .STATE_CHARGING ∧
      (render_frame (envAt 100)
        (updateChargingState true 3900 (initWorld 255))).1.appState.overlay_mode = .CHARGING :=
  ⟨by decide, by decide,
    (render_frame_charging_signal (envAt 100)
      (updateChargingState true 3900 (initWorld 255))).1 (by decide) (by decide)⟩

/-- The main-content branch of `render_frame` invokes no overlay renderer. -/
theorem render_frame_content_not_overlay (env : Env) (w : World) :
    ∀ r ∈ (render_frame_content env w).2, r.isOverlay = false := by
  obtain ⟨⟨mm, am, pm, gm, lm, nm, tm, om, sub, run, bl⟩, t0, snap, pv, eb, ew, fl, lvl, cs,
    met, g⟩ := w
  cases run <;> cases sub <;> cases mm <;>
    simp [render_frame_content, Renderer.isOverlay]
  all_goals (cases am <;> simp [Renderer.isOverlay])

/-- The main-content branch of `render_frame` invokes exactly one renderer when
the navigation fields select one. -/
theorem render_frame_content_single (env : Env) (w : World)
    (h : contentSelectable w.appState = true) :
    ∃ r, (render_frame_content env w).2 = [r] := by
  obtain ⟨⟨mm, am, pm, gm, lm, nm, tm, om, sub, run, bl⟩, t0, snap, pv, eb, ew, fl, lvl, cs,
    met, g⟩ := w
  revert h
  cases run <;> cases sub <;> cases mm <;>
    simp [render_frame_content, contentSelectable]
  all_goals (cases am <;> simp)

/-- Steps 0, 0.5 and 1 of `render_frame` end a charging overlay when the
PowerMonitor state is `STATE_DISCHARGING`. -/
theorem render_frame_overlay_of_discharging (env : Env) (w : World)
    (h : isChargingOverlay w.appState.overlay_mode = true)
    (hd : w.g_charging_state = .STATE_DISCHARGING) :
    render_frame_overlay env w =
      { w with appState := { w.appState with overlay_mode := .NONE },
               g_charging_started_event := false } := by
  obtain ⟨⟨mm, am, pm, gm, lm, nm, tm, om, sub, run, bl⟩, t0, snap, pv, eb, ew, fl, lvl, cs,
    met, g⟩ := w
  simp only at hd
  subst hd
  revert h
  cases fl <;> cases om <;>
    simp [render_frame_overlay, getCurrentChargingState, isChargingOverlay]

/-- C7: when `overlay_mode` is `CHARGING` or `CHARGE_FULL` and the PowerMonitor
state is `STATE_DISCHARGING`, `render_frame` returns a state with
`overlay_mode = NONE`, and the renderers of that same frame are those of the
main-content branch for the navigation fields, none of them an overlay
renderer, exactly one whenever the navigation fields select a renderer. -/
theorem render_frame_charger_removed (env : Env) (w : World)
    (h : isChargingOverlay w.appState.overlay_mode = true)
    (hd : w.g_charging_state = .STATE_DISCHARGING) :
    (render_frame env w).1.appState.overlay_mode = .NONE ∧
      (render_frame env w).2.calls =
        (render_frame_content env
          { w with appState := { w.appState with overlay_mode := .NONE },
                   g_charging_started_event := false }).2 ∧
      (∀ r ∈ (render_frame env w).2.calls, r.isOverlay = false) ∧
      (contentSelectable w.appState = true → ∃ r, (render_frame env w).2.calls = [r]) := by
  have hc : (render_frame env w).2.calls =
      (render_frame_content env
        { w with appState := { w.appState with overlay_mode := .NONE },
                 g_charging_started_event := false }).2 := by
    unfold render_frame
    simp only [render_frame_overlay_of_discharging env w h hd]
    simp [render_frame_dispatch]
  refine ⟨?_, hc, ?_, ?_⟩
  · rw [render_frame_overlay_mode, render_frame_overlay_of_discharging env w h hd]
  · rw [hc]
    exact render_frame_content_not_overlay env _
  · intro hs
    rw [hc]
    exact render_frame_content_single env _ (by simpa [contentSelectable] using hs)

/-- The instance of C7 at the charging overlay entered from the initial state,
after the charger was unplugged: the frame shows the main-menu icon. -/
theorem render_frame_charger_removed_witness :
    isChargingOverlay chargerRemoved.appState.overlay_mode = true ∧
      chargerRemoved.g_charging_state = .STATE_DISCHARGING ∧
      (render_frame (envAt 700) chargerRemoved).1.appState.overlay_mode = .NONE ∧
      (render_frame (envAt 700) chargerRemoved).2.calls = [.draw_main_menu_icon .ANIMATION] :=
  ⟨by decide, by decide,
    (render_frame_charger_removed (envAt 700) chargerRemoved (by decide) (by decide)).1,
    by decide⟩

/-- The running branch of `handle_input` makes no storage write. -/
theorem handle_input_running_writes (event : KeyEvent) (env : Env) (w : World) :
    (handle_input_running event env w).eeprom_writes = w.eeprom_writes := by
  obtain ⟨⟨mm, am, pm, gm, lm, nm, tm, om, sub, run, bl⟩, t0, snap, pv, eb, ew, fl, lvl, cs,
    met, g⟩ := w
  cases mm <;> cases event <;>
    simp [handle_input_running, running_exit, running_number_game_input, running_letter_input,
      running_pic_input, running_animation_input]
  all_goals (cases gm <;> rfl)

/-- The menu branch of `handle_input` never lowers the count of storage
writes. -/
theorem handle_input_menu_writes (event : KeyEvent) (env : Env) (w : World) :
    w.eeprom_writes ≤ (handle_input_menu event env w).eeprom_writes := by
  obtain ⟨⟨mm, am, pm, gm, lm, nm, tm, om, sub, run, bl⟩, t0, snap, pv, eb, ew, fl, lvl, cs,
    met, g⟩ := w
  cases mm <;> cases event <;> cases sub <;>
    simp [handle_input_menu, save_brightness_to_eeprom]
  all_goals (split <;> simp)

/-- The count of storage writes never goes down in `handle_input`. -/
theorem handle_input_writes_le (event : KeyEvent) (env : Env) (w : World) :
    w.eeprom_writes ≤ (handle_input event env w).eeprom_writes := by
  unfold handle_input
  split
  · exact le_refl _
  · split
    · exact le_refl _
    · split
      · simp only []
        split <;> exact le_refl _
      · split
        · exact le_of_eq (handle_input_running_writes event env w).symm
        · exact handle_input_menu_writes event env w

/-- The count of storage writes never goes down over a sequence of events. -/
theorem handle_inputs_writes_le (events : List (KeyEvent × Env)) (w : World) :
    w.eeprom_writes ≤ (handle_inputs w events).eeprom_writes := by
  induction events generalizing w with
  | nil => exact le_refl _
  | cons e events ih =>
      exact le_trans (handle_input_writes_le e.1 e.2 w) (ih (handle_input e.1 e.2 w))

/-- A sequence of events is handled by handling a first part and then the
rest. -/
theorem handle_inputs_append (w : World) (xs ys : List (KeyEvent × Env)) :
    handle_inputs w (xs ++ ys) = handle_inputs (handle_inputs w xs) ys := by
  simp [handle_inputs, List.foldl_append]

/-- When a sequence of events ends with the count of storage writes it began
with, the count is that same number after every initial part of it. -/
theorem handle_inputs_no_write_at_any_point (events : List (KeyEvent × Env)) (w : World)
    (h : (handle_inputs w events).eeprom_writes = w.eeprom_writes) (k : Nat) :
    (handle_inputs w (events.take k)).eeprom_writes = w.eeprom_writes := by
  have h1 := handle_inputs_writes_le (events.take k) w
  have h2 := handle_inputs_writes_le (events.drop k) (handle_inputs w (events.take k))
  rw [← handle_inputs_append, List.take_append_drop, h] at h2
  exact le_antisymm h2 h1

/-- Entering the Tool sub-menu: `RIGHT_CLICK` in the top menu on `TOOL` copies
the committed brightness into the preview and opens the sub-menu. -/
theorem handle_input_tool_enter (env : Env) (w : World)
    (hm : w.appState.main_mode = .TOOL) (hs : w.appState.in_sub_menu = false)
    (hr : w.appState.is_game_running = false)
    (ho : w.appState.overlay_mode ≠ .BATTERY_DISPLAY) :
    handle_input .RIGHT_CLICK env w =
      { w with preview_brightness_level := w.appState.brightness_level,
               appState := { w.appState with in_sub_menu := true } } := by
  simp [handle_input, handle_input_menu, hm, hs, hr, ho]

/-- Cycling in the Tool sub-menu: `LEFT_CLICK` advances the preview modulo 5
and changes nothing else. -/
theorem handle_input_tool_cycle (env : Env) (w : World)
    (hm : w.appState.main_mode = .TOOL) (hs : w.appState.in_sub_menu = true)
    (hr : w.appState.is_game_running = false)
    (ho : w.appState.overlay_mode ≠ .BATTERY_DISPLAY) :
    handle_input .LEFT_CLICK env w =
      { w with preview_brightness_level := (w.preview_brightness_level + 1) % 5 } := by
  simp [handle_input, handle_input_menu, hm, hs, hr, ho]

/-- A run of `LEFT_CLICK`s in the Tool sub-menu advances the preview by their
number modulo 5 and changes nothing else. -/
theorem handle_inputs_tool_cycle (envs : List Env) (w : World)
    (hm : w.appState.main_mode = .TOOL) (hs : w.appState.in_sub_menu = true)
    (hr : w.appState.is_game_running = false)
    (ho : w.appState.overlay_mode ≠ .BATTERY_DISPLAY)
    (hp : w.preview_brightness_level ≤ 4) :
    handle_inputs w (envs.map (fun e => (KeyEvent.LEFT_CLICK, e))) =
      { w with preview_brightness_level := (w.preview_brightness_level + envs.length) % 5 } := by
  induction envs generalizing w with
  | nil =>
      have : w.preview_brightness_level % 5 = w.preview_brightness_level :=
        Nat.mod_eq_of_lt (by omega)
      simp [handle_inputs, this]
  | cons e envs ih =>
      have h1 := handle_input_tool_cycle e w hm hs hr ho
      have h2 := ih (handle_input .LEFT_CLICK e w) (by rw [h1]; exact hm) (by rw [h1]; exact hs)
        (by rw [h1]; exact hr) (by rw [h1]; exact ho)
        (by rw [h1]; exact Nat.le_of_lt_succ (Nat.mod_lt _ (by decide)))
      have h3 : handle_inputs w ((e :: envs).map (fun e => (KeyEvent.LEFT_CLICK, e))) =
          handle_inputs (handle_input .LEFT_CLICK e w)
            (envs.map (fun e => (KeyEvent.LEFT_CLICK, e))) := by
        simp [handle_inputs]
      rw [h3, h2, h1]
      have h4 : ((w.preview_brightness_level + 1) % 5 + envs.length) % 5 =
          (w.preview_brightness_level + (envs.length + 1)) % 5 := by omega
      simp [h4]

/-- The state before the last event of a visit of the Tool sub-menu: the
sub-menu is open and the preview is the committed level advanced by the number
of `LEFT_CLICK`s modulo 5. -/
theorem handle_inputs_tool_preview (e0 : Env) (envs : List Env) (w : World)
    (hm : w.appState.main_mode = .TOOL) (hs : w.appState.in_sub_menu = false)
    (hr : w.appState.is_game_running = false)
    (ho : w.appState.overlay_mode ≠ .BATTERY_DISPLAY)
    (hc : w.appState.brightness_level ≤ 4) :
    handle_inputs w ((KeyEvent.RIGHT_CLICK, e0) :: envs.map (fun e => (KeyEvent.LEFT_CLICK, e))) =
      { w with
        preview_brightness_level := (w.appState.brightness_level + envs.length) % 5,
        appState := { w.appState with in_sub_menu := true } } := by
  have h1 := handle_input_tool_enter e0 w hm hs hr ho
  have h2 : handle_inputs w
      ((KeyEvent.RIGHT_CLICK, e0) :: envs.map (fun e => (KeyEvent.LEFT_CLICK, e))) =
      handle_inputs (handle_input .RIGHT_CLICK e0 w)
        (envs.map (fun e => (KeyEvent.LEFT_CLICK, e))) := by
    simp [handle_inputs]
  rw [h2, handle_inputs_tool_cycle envs (handle_input .RIGHT_CLICK e0 w)
    (by rw [h1]; exact hm) (by rw [h1]) (by rw [h1]; exact hr) (by rw [h1]; exact ho)
    (by rw [h1]; exact hc), h1]

/-- A visit of the Tool sub-menu is handled by handling its entry and its
`LEFT_CLICK`s and then its last event. -/
theorem handle_inputs_toolVisit (e0 e1 : Env) (envs : List Env) (last : KeyEvent) (w : World) :
    handle_inputs w (toolVisit e0 envs last e1) =
      handle_input last e1
        (handle_inputs w
          ((KeyEvent.RIGHT_CLICK, e0) :: envs.map (fun e => (KeyEvent.LEFT_CLICK, e)))) := by
  simp [toolVisit, handle_inputs, List.foldl_append]

/-- C8: Tool cancel. From the top menu on `TOOL` (not running, overlay not
`BATTERY_DISPLAY`, committed brightness at most 4), the events `RIGHT_CLICK`,
any number of `LEFT_CLICK`s, `RIGHT_LONG_PRESS` end in the state they started
from except for the preview: `brightness_level` is unchanged, `in_sub_menu` is
false, and after every initial part of the sequence the count of storage writes
is the one at the start. -/
theorem tool_cancel (w : World) (e0 e1 : Env) (envs : List Env)
    (hm : w.appState.main_mode = .TOOL) (hs : w.appState.in_sub_menu = false)
    (hr : w.appState.is_game_running = false)
    (ho : w.appState.overlay_mode ≠ .BATTERY_DISPLAY)
    (hc : w.appState.brightness_level ≤ 4) :
    handle_inputs w (toolVisit e0 envs .RIGHT_LONG_PRESS e1) =
        { w with
          preview_brightness_level := (w.appState.brightness_level + envs.length) % 5 } ∧
      (handle_inputs w (toolVisit e0 envs .RIGHT_LONG_PRESS e1)).appState.brightness_level =
        w.appState.brightness_level ∧
      (handle_inputs w (toolVisit e0 envs .RIGHT_LONG_PRESS e1)).appState.in_sub_menu = false ∧
      ∀ k, (handle_inputs w
        ((toolVisit e0 envs .RIGHT_LONG_PRESS e1).take k)).eeprom_writes = w.eeprom_writes := by
  have hfin : handle_inputs w (toolVisit e0 envs .RIGHT_LONG_PRESS e1) =
      { w with
        preview_brightness_level := (w.appState.brightness_level + envs.length) % 5 } := by
    rw [handle_inputs_toolVisit, handle_inputs_tool_preview e0 envs w hm hs hr ho hc]
    obtain ⟨⟨mm, am, pm, gm, lm, nm, tm, om, sub, run, bl⟩, t0, snap, pv, eb, ew, fl, lvl, cs,
      met, g⟩ := w
    simp only at hm hs hr ho
    subst hm hs hr
    simp [handle_input, handle_input_menu, ho]
  refine ⟨hfin, ?_, ?_, ?_⟩
  · rw [hfin]
  · rw [hfin]
    exact hs
  · intro k
    exact handle_inputs_no_write_at_any_point _ w (by rw [hfin]) k

/-- The instance of C8 with three `LEFT_CLICK`s, from the top menu moved to
`TOOL` after program start. -/
theorem tool_cancel_witness :
    (handle_inputs toolSelected
        (toolVisit (envAt 20) [envAt 30, envAt 40, envAt 50] .RIGHT_LONG_PRESS
          (envAt 900))).appState.brightness_level = toolSelected.appState.brightness_level ∧
      (handle_inputs toolSelected
        (toolVisit (envAt 20) [envAt 30, envAt 40, envAt 50] .RIGHT_LONG_PRESS
          (envAt 900))).eeprom_writes = 0 :=
  ⟨(tool_cancel toolSelected (envAt 20) (envAt 900) [envAt 30, envAt 40, envAt 50]
      (by decide) (by decide) (by decide) (by decide) (by decide)).2.1,
    by decide⟩

/-- C9: Tool confirm. From the top menu on `TOOL` (not running, overlay not
`BATTERY_DISPLAY`, committed brightness `c` at most 4), the events
`RIGHT_CLICK`, `n` times `LEFT_CLICK`, `RIGHT_CLICK` end with
`brightness_level = (c + n) % 5`, the stored byte equal to that value and
`in_sub_menu` false; the storage is written once when the stored byte was
another value and not at all otherwise. -/
theorem tool_confirm (w : World) (e0 e1 : Env) (envs : List Env)
    (hm : w.appState.main_mode = .TOOL) (hs : w.appState.in_sub_menu = false)
    (hr : w.appState.is_game_running = false)
    (ho : w.appState.overlay_mode ≠ .BATTERY_DISPLAY)
    (hc : w.appState.brightness_level ≤ 4) :
    (handle_inputs w (toolVisit e0 envs .RIGHT_CLICK e1)).appState.brightness_level =
        (w.appState.brightness_level + envs.length) % 5 ∧
      (handle_inputs w (toolVisit e0 envs .RIGHT_CLICK e1)).eeprom_byte =
        (w.appState.brightness_level + envs.length) % 5 ∧
      (handle_inputs w (toolVisit e0 envs .RIGHT_CLICK e1)).appState.in_sub_menu = false ∧
      (handle_inputs w (toolVisit e0 envs .RIGHT_CLICK e1)).eeprom_writes =
        (if w.eeprom_byte = (w.appState.brightness_level + envs.length) % 5
          then w.eeprom_writes else w.eeprom_writes + 1) := by
  rw [handle_inputs_toolVisit, handle_inputs_tool_preview e0 envs w hm hs hr ho hc]
  obtain ⟨⟨mm, am, pm, gm, lm, nm, tm, om, sub, run, bl⟩, t0, snap, pv, eb, ew, fl, lvl, cs,
    met, g⟩ := w
  simp only at hm hs hr ho
  subst hm hs hr
  by_cases hb : eb = (bl + envs.length) % 5
  · simp [handle_input, handle_input_menu, save_brightness_to_eeprom, ho, hb]
  · simp [handle_input, handle_input_menu, save_brightness_to_eeprom, ho, hb]

/-- The instance of C9 with three `LEFT_CLICK`s, from the top menu moved to
`TOOL` after program start: level 1 becomes level 4 and is stored. -/
theorem tool_confirm_witness :
    toolSelected.appState.brightness_level = 1 ∧
      (handle_inputs toolSelected
        (toolVisit (envAt 20) [envAt 30, envAt 40, envAt 50] .RIGHT_CLICK
          (envAt 60))).appState.brightness_level = (1 + 3) % 5 ∧
      (handle_inputs toolSelected
        (toolVisit (envAt 20) [envAt 30, envAt 40, envAt 50] .RIGHT_CLICK
          (envAt 60))).eeprom_byte = (1 + 3) % 5 :=
  ⟨by decide,
    (tool_confirm toolSelected (envAt 20) (envAt 60) [envAt 30, envAt 40, envAt 50]
      (by decide) (by decide) (by decide) (by decide) (by decide)).1,
    (tool_confirm toolSelected (envAt 20) (envAt 60) [envAt 30, envAt 40, envAt 50]
      (by decide) (by decide) (by decide) (by decide) (by decide)).2.1⟩

/-- C10: `load_brightness_from_eeprom` sets `brightness_level` to the stored
byte when that is at most 4 and to 2 otherwise, changes nothing else, and makes
no storage write; so the stored values 7 and 255 both load as 2. -/
theorem load_brightness_from_eeprom_spec (w : World) :
    load_brightness_from_eeprom w =
        { w with appState := { w.appState with
            brightness_level := if w.eeprom_byte ≤ 4 then w.eeprom_byte else 2 } } ∧
      (load_brightness_from_eeprom w).eeprom_writes = w.eeprom_writes ∧
      (load_brightness_from_eeprom w).eeprom_byte = w.eeprom_byte ∧
      (load_brightness_from_eeprom (initWorld 7)).appState.brightness_level = 2 ∧
      (load_brightness_from_eeprom (initWorld 255)).appState.brightness_level = 2 := by
  refine ⟨?_, ?_, ?_, by decide, by decide⟩
  all_goals
    unfold load_brightness_from_eeprom
    by_cases h : w.eeprom_byte ≤ 4 <;> simp [h]

/-- C11: `save_brightness_to_eeprom(level)` returns the state unchanged, with
no storage write, when the stored byte is `level`, and otherwise makes exactly
one write that stores `level`; in both cases the stored byte is `level`
afterwards. -/
theorem save_brightness_to_eeprom_spec (level : Nat) (w : World) :
    save_brightness_to_eeprom level w =
        (if w.eeprom_byte = level then w
         else { w with eeprom_byte := level, eeprom_writes := w.eeprom_writes + 1 }) ∧
      (save_brightness_to_eeprom level w).eeprom_writes =
        (if w.eeprom_byte = level then w.eeprom_writes else w.eeprom_writes + 1) ∧
      (save_brightness_to_eeprom level w).eeprom_byte = level := by
  unfold save_brightness_to_eeprom
  by_cases h : w.eeprom_byte = level <;> simp [h]

/-- Outside the chord path `read_key_event` returns what the two single-button
blocks give. -/
theorem read_key_event_of_not_chord (p : Poll) (k : Keys) (h : chordConfirmed p = false) :
    ∃ s, read_key_event p k =
      some { event := (single_key_logic p k).1, keys := (single_key_logic p k).2,
             last_read := s } := by
  unfold read_key_event
  unfold chordConfirmed at h
  by_cases hb : p.left_key_pressed = true ∧ p.right_key_pressed = true
  · by_cases hd : p.debounced.1 = true ∧ p.debounced.2 = true
    · simp [hb.1, hb.2, hd.1, hd.2] at h
    · exact ⟨p.debounced, by rw [if_pos hb, if_neg hd]⟩
  · exact ⟨(p.left_key_pressed, p.right_key_pressed), by rw [if_neg hb]⟩

/-- Running a sequence of polls is running a first part and then the rest. -/
theorem read_key_events_append (k k1 k2 : Keys) (xs ys : List Poll) (es fs : List KeyEvent)
    (h1 : read_key_events k xs = some (es, k1))
    (h2 : read_key_events k1 ys = some (fs, k2)) :
    read_key_events k (xs ++ ys) = some (es ++ fs, k2) := by
  induction xs generalizing k es with
  | nil =>
      simp only [read_key_events, Option.some.injEq, Prod.mk.injEq] at h1
      obtain ⟨rfl, rfl⟩ := h1
      simpa using h2
  | cons p ps ih =>
      simp only [read_key_events, List.cons_append] at h1 ⊢
      cases hr : read_key_event p k with
      | none => simp [hr] at h1
      | some r =>
          simp only [hr] at h1 ⊢
          cases hq : read_key_events r.keys ps with
          | none => simp [hq] at h1
          | some q =>
              obtain ⟨qs, kq⟩ := q
              simp only [hq, Option.some.injEq, Prod.mk.injEq] at h1
              obtain ⟨rfl, rfl⟩ := h1
              have h3 := ih r.keys qs hq
              simp only [List.append_eq] at h3 ⊢
              rw [h3]
              rfl

/-- One poll outside the chord path, followed by a sequence of polls. -/
theorem read_key_events_cons (p : Poll) (ps : List Poll) (k kf : Keys) (es : List KeyEvent)
    (hc : chordConfirmed p = false)
    (h : read_key_events (single_key_logic p k).2 ps = some (es, kf)) :
    read_key_events k (p :: ps) = some ((single_key_logic p k).1 :: es, kf) := by
  obtain ⟨s, hs⟩ := read_key_event_of_not_chord p k hc
  simp only [read_key_events, hs, h]

/-- A poll with at most one button pressed is outside the chord path. -/
theorem chordConfirmed_of_leftHeld (p : Poll) (h : p.leftHeld = true) :
    chordConfirmed p = false := by
  unfold Poll.leftHeld at h
  unfold chordConfirmed
  cases hl : p.left_key_pressed <;> cases hr : p.right_key_pressed <;> simp_all

/-- A poll with at most one button pressed is outside the chord path. -/
theorem chordConfirmed_of_rightHeld (p : Poll) (h : p.rightHeld = true) :
    chordConfirmed p = false := by
  unfold Poll.rightHeld at h
  unfold chordConfirmed
  cases hl : p.left_key_pressed <;> cases hr : p.right_key_pressed <;> simp_all

/-- A poll with no button pressed is outside the chord path. -/
theorem chordConfirmed_of_released (p : Poll) (h : p.released = true) :
    chordConfirmed p = false := by
  unfold Poll.released at h
  unfold chordConfirmed
  cases hl : p.left_key_pressed <;> cases hr : p.right_key_pressed <;> simp_all

/-- One poll with only the left button pressed: no left click; a left
long-press only from a hold that has not fired, and then the flag is set; the
down time is kept once it is set and the flag is never cleared then. -/
theorem single_key_logic_leftHeld (p : Poll) (k : Keys) (h : p.leftHeld = true) :
    (single_key_logic p k).1 ≠ .LEFT_CLICK ∧
      ((single_key_logic p k).1 = .LEFT_LONG_PRESS →
        k.left_key_long_press_fired = false ∧
        ulsub p.millis k.left_key_down_time > LONG_PRESS_TIME ∧
        (single_key_logic p k).2.left_key_long_press_fired = true ∧
        (single_key_logic p k).2.left_key_down_time ≠ 0) ∧
      (k.left_key_down_time ≠ 0 →
        (single_key_logic p k).2.left_key_down_time = k.left_key_down_time ∧
        (k.left_key_long_press_fired = true →
          (single_key_logic p k).2.left_key_long_press_fired = true) ∧
        ((single_key_logic p k).1 ≠ .LEFT_LONG_PRESS →
          (single_key_logic p k).2.left_key_long_press_fired = k.left_key_long_press_fired)) ∧
      (k.left_key_down_time = 0 →
        (single_key_logic p k).2.left_key_down_time = p.millis ∧
        (single_key_logic p k).2.left_key_long_press_fired = false) := by
  obtain ⟨l, r, t, db, ls⟩ := p
  obtain ⟨ld, rd, lf, rf⟩ := k
  simp only [Poll.leftHeld, Bool.and_eq_true, Bool.not_eq_true'] at h
  obtain ⟨rfl, rfl⟩ := h
  by_cases h0 : ld = 0
  · subst h0
    by_cases hr0 : rd = 0
    · simp [single_key_logic, left_key_logic, right_key_logic, hr0]
    · have : 0 < rd := Nat.pos_of_ne_zero hr0
      by_cases hc : rf = false ∧ ulsub t rd > DEBOUNCE_TIME
      · simp [single_key_logic, left_key_logic, right_key_logic, this, hc.1, hc.2]
      · simp [single_key_logic, left_key_logic, right_key_logic, this, hc]
  · by_cases hl : lf = false ∧ ulsub t ld > LONG_PRESS_TIME
    · simp [single_key_logic, left_key_logic, h0, hl.1, hl.2]
    · by_cases hr0 : rd = 0
      · simp [single_key_logic, left_key_logic, right_key_logic, h0, hl, hr0]
      · have : 0 < rd := Nat.pos_of_ne_zero hr0
        by_cases hc : rf = false ∧ ulsub t rd > DEBOUNCE_TIME
        · simp [single_key_logic, left_key_logic, right_key_logic, h0, hl, this, hc.1, hc.2]
        · simp [single_key_logic, left_key_logic, right_key_logic, h0, hl, this, hc]

/-- One poll with no button pressed, seen from the left button: no long-press;
the down time is cleared; a left click exactly when a hold that has not fired
ends more than `DEBOUNCE_TIME` after its start. -/
theorem single_key_logic_released_left (p : Poll) (k : Keys) (h : p.released = true) :
    (single_key_logic p k).1 ≠ .LEFT_LONG_PRESS ∧
      (single_key_logic p k).2.left_key_down_time = 0 ∧
      ((single_key_logic p k).1 = .LEFT_CLICK ↔
        (0 < k.left_key_down_time ∧ k.left_key_long_press_fired = false ∧
          ulsub p.millis k.left_key_down_time > DEBOUNCE_TIME)) := by
  obtain ⟨l, r, t, db, ls⟩ := p
  obtain ⟨ld, rd, lf, rf⟩ := k
  simp only [Poll.released, Bool.and_eq_true, Bool.not_eq_true'] at h
  obtain ⟨rfl, rfl⟩ := h
  by_cases h1 : ld = 0 <;> by_cases h2 : rd = 0 <;> cases lf <;> cases rf <;>
    by_cases h3 : DEBOUNCE_TIME < ulsub t ld <;>
    by_cases h4 : DEBOUNCE_TIME < ulsub t rd <;>
    simp [single_key_logic, left_key_logic, right_key_logic, Nat.pos_iff_ne_zero, *]

/-- One poll with only the right button pressed: no right click; a right
long-press only from a hold that has not fired, and then the flag is set; the
down time is kept once it is set and the flag is never cleared then. -/
theorem single_key_logic_rightHeld (p : Poll) (k : Keys) (h : p.rightHeld = true) :
    (single_key_logic p k).1 ≠ .RIGHT_CLICK ∧
      ((single_key_logic p k).1 = .RIGHT_LONG_PRESS →
        k.right_key_long_press_fired = false ∧
        ulsub p.millis k.right_key_down_time > LONG_PRESS_TIME ∧
        (single_key_logic p k).2.right_key_long_press_fired = true ∧
        (single_key_logic p k).2.right_key_down_time ≠ 0) ∧
      (k.right_key_down_time ≠ 0 →
        (single_key_logic p k).2.right_key_down_time = k.right_key_down_time ∧
        (k.right_key_long_press_fired = true →
          (single_key_logic p k).2.right_key_long_press_fired = true) ∧
        ((single_key_logic p k).1 ≠ .RIGHT_LONG_PRESS →
          (single_key_logic p k).2.right_key_long_press_fired =
            k.right_key_long_press_fired)) ∧
      (k.left_key_down_time = 0 →
        (single_key_logic p k).2.left_key_down_time = 0 ∧
        (single_key_logic p k).1 ≠ .LEFT_CLICK ∧
        (single_key_logic p k).1 ≠ .LEFT_LONG_PRESS ∧
        (k.right_key_down_time = 0 →
          (single_key_logic p k).2.right_key_down_time = p.millis ∧
          (single_key_logic p k).2.right_key_long_press_fired = false)) := by
  obtain ⟨l, r, t, db, ls⟩ := p
  obtain ⟨ld, rd, lf, rf⟩ := k
  simp only [Poll.rightHeld, Bool.and_eq_true, Bool.not_eq_true'] at h
  obtain ⟨rfl, rfl⟩ := h
  by_cases h1 : ld = 0 <;> by_cases h2 : rd = 0 <;> cases lf <;> cases rf <;>
    by_cases h3 : DEBOUNCE_TIME < ulsub t ld <;>
    by_cases h4 : LONG_PRESS_TIME < ulsub t rd <;>
    simp [single_key_logic, left_key_logic, right_key_logic, Nat.pos_iff_ne_zero, *]

/-- One poll with no button pressed, seen from the right button: no
long-press; a right click only when a hold that has not fired ends more than
`DEBOUNCE_TIME` after its start, and always then when the left button is idle;
the down time is cleared or, when the left block returned, the right button is
as before. -/
theorem single_key_logic_released_right (p : Poll) (k : Keys) (h : p.released = true) :
    (single_key_logic p k).1 ≠ .RIGHT_LONG_PRESS ∧
      ((single_key_logic p k).2.right_key_down_time = 0 ∨
        ((single_key_logic p k).2.right_key_down_time = k.right_key_down_time ∧
          (single_key_logic p k).2.right_key_long_press_fired =
            k.right_key_long_press_fired)) ∧
      ((single_key_logic p k).1 = .RIGHT_CLICK →
        (0 < k.right_key_down_time ∧ k.right_key_long_press_fired = false ∧
          ulsub p.millis k.right_key_down_time > DEBOUNCE_TIME)) ∧
      (k.left_key_down_time = 0 →
        (single_key_logic p k).2.left_key_down_time = 0 ∧
        (single_key_logic p k).2.right_key_down_time = 0 ∧
        (single_key_logic p k).1 ≠ .LEFT_CLICK ∧
        (single_key_logic p k).1 ≠ .LEFT_LONG_PRESS ∧
        ((0 < k.right_key_down_time ∧ k.right_key_long_press_fired = false ∧
            ulsub p.millis k.right_key_down_time > DEBOUNCE_TIME) →
          (single_key_logic p k).1 = .RIGHT_CLICK)) := by
  obtain ⟨l, r, t, db, ls⟩ := p
  obtain ⟨ld, rd, lf, rf⟩ := k
  simp only [Poll.released, Bool.and_eq_true, Bool.not_eq_true'] at h
  obtain ⟨rfl, rfl⟩ := h
  by_cases h1 : ld = 0 <;> by_cases h2 : rd = 0 <;> cases lf <;> cases rf <;>
    by_cases h3 : DEBOUNCE_TIME < ulsub t ld <;>
    by_cases h4 : DEBOUNCE_TIME < ulsub t rd <;>
    simp [single_key_logic, left_key_logic, right_key_logic, Nat.pos_iff_ne_zero, *]

/-- While only the left button is held after its long-press has fired, no left
event is returned and the hold stays fired. -/
theorem read_key_events_left_hold_fired (hold : List Poll) (k : Keys)
    (hh : ∀ p ∈ hold, p.leftHeld = true)
    (hf : k.left_key_long_press_fired = true) (hd : k.left_key_down_time ≠ 0) :
    ∃ evs kf, read_key_events k hold = some (evs, kf) ∧
      KeyEvent.LEFT_LONG_PRESS ∉ evs ∧ KeyEvent.LEFT_CLICK ∉ evs ∧
      kf.left_key_long_press_fired = true ∧ kf.left_key_down_time ≠ 0 := by
  induction hold generalizing k with
  | nil => exact ⟨[], k, rfl, by simp, by simp, hf, hd⟩
  | cons p ps ih =>
      have hp : p.leftHeld = true := hh p (List.mem_cons_self p ps)
      obtain ⟨h1, h2, h3, _⟩ := single_key_logic_leftHeld p k hp
      obtain ⟨h3a, h3b, _⟩ := h3 hd
      have hne : (single_key_logic p k).1 ≠ .LEFT_LONG_PRESS := by
        intro he
        have := (h2 he).1
        rw [hf] at this
        exact absurd this (by decide)
      obtain ⟨evs, kf, he, e1, e2, e3, e4⟩ :=
        ih (single_key_logic p k).2 (fun q hq => hh q (List.mem_cons_of_mem p hq)) (h3b hf)
          (by rw [h3a]; exact hd)
      refine ⟨(single_key_logic p k).1 :: evs, kf,
        read_key_events_cons p ps k kf evs (chordConfirmed_of_leftHeld p hp) he, ?_, ?_, e3, e4⟩
      · simp only [List.mem_cons, not_or]
        exact ⟨fun h => hne h.symm, e1⟩
      · simp only [List.mem_cons, not_or]
        exact ⟨fun h => h1 h.symm, e2⟩

/-- While only the left button is held, no left click is returned and at most
one left long-press, after which the hold is fired. -/
theorem read_key_events_left_hold (hold : List Poll) (k : Keys)
    (hh : ∀ p ∈ hold, p.leftHeld = true) :
    ∃ evs kf, read_key_events k hold = some (evs, kf) ∧
      KeyEvent.LEFT_CLICK ∉ evs ∧ evs.count KeyEvent.LEFT_LONG_PRESS ≤ 1 ∧
      (KeyEvent.LEFT_LONG_PRESS ∈ evs →
        kf.left_key_long_press_fired = true ∧ kf.left_key_down_time ≠ 0) := by
  induction hold generalizing k with
  | nil => exact ⟨[], k, rfl, by simp, by simp, by simp⟩
  | cons p ps ih =>
      have hp : p.leftHeld = true := hh p (List.mem_cons_self p ps)
      have hps : ∀ q ∈ ps, q.leftHeld = true := fun q hq => hh q (List.mem_cons_of_mem p hq)
      obtain ⟨h1, h2, _, _⟩ := single_key_logic_leftHeld p k hp
      by_cases he : (single_key_logic p k).1 = .LEFT_LONG_PRESS
      · obtain ⟨_, _, hf, hd⟩ := h2 he
        obtain ⟨evs, kf, hr, e1, e2, e3, e4⟩ :=
          read_key_events_left_hold_fired ps (single_key_logic p k).2 hps hf hd
        refine ⟨(single_key_logic p k).1 :: evs, kf,
          read_key_events_cons p ps k kf evs (chordConfirmed_of_leftHeld p hp) hr, ?_, ?_, ?_⟩
        · simp only [List.mem_cons, not_or]
          exact ⟨fun h => h1 h.symm, e2⟩
        · rw [he, List.count_cons_self, List.count_eq_zero_of_not_mem e1]
        · intro _
          exact ⟨e3, e4⟩
      · obtain ⟨evs, kf, hr, e1, e2, e3⟩ := ih (single_key_logic p k).2 hps
        refine ⟨(single_key_logic p k).1 :: evs, kf,
          read_key_events_cons p ps k kf evs (chordConfirmed_of_leftHeld p hp) hr, ?_, ?_, ?_⟩
        · simp only [List.mem_cons, not_or]
          exact ⟨fun h => h1 h.symm, e1⟩
        · rw [List.count_cons_of_ne (fun h => he h.symm)]
          exact e2
        · intro hm
          simp only [List.mem_cons] at hm
          rcases hm with hm | hm
          · exact absurd hm.symm he
          · exact e3 hm

/-- While no button is pressed, no left long-press is returned, and no left
click either when the left button starts fired or idle. -/
theorem read_key_events_released_left (rel : List Poll) (k : Keys)
    (hh : ∀ p ∈ rel, p.released = true) :
    ∃ evs kf, read_key_events k rel = some (evs, kf) ∧
      KeyEvent.LEFT_LONG_PRESS ∉ evs ∧
      (k.left_key_long_press_fired = true ∨ k.left_key_down_time = 0 →
        KeyEvent.LEFT_CLICK ∉ evs) := by
  induction rel generalizing k with
  | nil => exact ⟨[], k, rfl, by simp, by simp⟩
  | cons p ps ih =>
      have hp : p.released = true := hh p (List.mem_cons_self p ps)
      obtain ⟨h1, h2, h3⟩ := single_key_logic_released_left p k hp
      obtain ⟨evs, kf, hr, e1, e2⟩ :=
        ih (single_key_logic p k).2 (fun q hq => hh q (List.mem_cons_of_mem p hq))
      refine ⟨(single_key_logic p k).1 :: evs, kf,
        read_key_events_cons p ps k kf evs (chordConfirmed_of_released p hp) hr, ?_, ?_⟩
      · simp only [List.mem_cons, not_or]
        exact ⟨fun h => h1 h.symm, e1⟩
      · intro hk
        simp only [List.mem_cons, not_or]
        refine ⟨?_, e2 (Or.inr h2)⟩
        intro h
        obtain ⟨c1, c2, _⟩ := h3.mp h.symm
        rcases hk with hk | hk
        · rw [hk] at c2
          exact absurd c2 (by decide)
        · omega

/-- While only the right button is held after its long-press has fired, no
right event is returned and the hold stays fired. -/
theorem read_key_events_right_hold_fired (hold : List Poll) (k : Keys)
    (hh : ∀ p ∈ hold, p.rightHeld = true)
    (hf : k.right_key_long_press_fired = true) (hd : k.right_key_down_time ≠ 0) :
    ∃ evs kf, read_key_events k hold = some (evs, kf) ∧
      KeyEvent.RIGHT_LONG_PRESS ∉ evs ∧ KeyEvent.RIGHT_CLICK ∉ evs ∧
      kf.right_key_long_press_fired = true ∧ kf.right_key_down_time ≠ 0 := by
  induction hold generalizing k with
  | nil => exact ⟨[], k, rfl, by simp, by simp, hf, hd⟩
  | cons p ps ih =>
      have hp : p.rightHeld = true := hh p (List.mem_cons_self p ps)
      obtain ⟨h1, h2, h3, _⟩ := single_key_logic_rightHeld p k hp
      obtain ⟨h3a, h3b, _⟩ := h3 hd
      have hne : (single_key_logic p k).1 ≠ .RIGHT_LONG_PRESS := by
        intro he
        have := (h2 he).1
        rw [hf] at this
        exact absurd this (by decide)
      obtain ⟨evs, kf, he, e1, e2, e3, e4⟩ :=
        ih (single_key_logic p k).2 (fun q hq => hh q (List.mem_cons_of_mem p hq)) (h3b hf)
          (by rw [h3a]; exact hd)
      refine ⟨(single_key_logic p k).1 :: evs, kf,
        read_key_events_cons p ps k kf evs (chordConfirmed_of_rightHeld p hp) he, ?_, ?_, e3, e4⟩
      · simp only [List.mem_cons, not_or]
        exact ⟨fun h => hne h.symm, e1⟩
      · simp only [List.mem_cons, not_or]
        exact ⟨fun h => h1 h.symm, e2⟩

/-- While only the right button is held, no right click is returned and at
most one right long-press, after which the hold is fired. -/
theorem read_key_events_right_hold (hold : List Poll) (k : Keys)
    (hh : ∀ p ∈ hold, p.rightHeld = true) :
    ∃ evs kf, read_key_events k hold = some (evs, kf) ∧
      KeyEvent.RIGHT_CLICK ∉ evs ∧ evs.count KeyEvent.RIGHT_LONG_PRESS ≤ 1 ∧
      (KeyEvent.RIGHT_LONG_PRESS ∈ evs →
        kf.right_key_long_press_fired = true ∧ kf.right_key_down_time ≠ 0) := by
  induction hold generalizing k with
  | nil => exact ⟨[], k, rfl, by simp, by simp, by simp⟩
  | cons p ps ih =>
      have hp : p.rightHeld = true := hh p (List.mem_cons_self p ps)
      have hps : ∀ q ∈ ps, q.rightHeld = true := fun q hq => hh q (List.mem_cons_of_mem p hq)
      obtain ⟨h1, h2, _, _⟩ := single_key_logic_rightHeld p k hp
      by_cases he : (single_key_logic p k).1 = .RIGHT_LONG_PRESS
      · obtain ⟨_, _, hf, hd⟩ := h2 he
        obtain ⟨evs, kf, hr, e1, e2, e3, e4⟩ :=
          read_key_events_right_hold_fired ps (single_key_logic p k).2 hps hf hd
        refine ⟨(single_key_logic p k).1 :: evs, kf,
          read_key_events_cons p ps k kf evs (chordConfirmed_of_rightHeld p hp) hr, ?_, ?_, ?_⟩
        · simp only [List.mem_cons, not_or]
          exact ⟨fun h => h1 h.symm, e2⟩
        · rw [he, List.count_cons_self, List.count_eq_zero_of_not_mem e1]
        · intro _
          exact ⟨e3, e4⟩
      · obtain ⟨evs, kf, hr, e1, e2, e3⟩ := ih (single_key_logic p k).2 hps
        refine ⟨(single_key_logic p k).1 :: evs, kf,
          read_key_events_cons p ps k kf evs (chordConfirmed_of_rightHeld p hp) hr, ?_, ?_, ?_⟩
        · simp only [List.mem_cons, not_or]
          exact ⟨fun h => h1 h.symm, e1⟩
        · rw [List.count_cons_of_ne (fun h => he h.symm)]
          exact e2
        · intro hm
          simp only [List.mem_cons] at hm
          rcases hm with hm | hm
          · exact absurd hm.symm he
          · exact e3 hm

/-- While no button is pressed, no right long-press is returned, and no right
click either when the right button starts fired or idle. -/
theorem read_key_events_released_right (rel : List Poll) (k : Keys)
    (hh : ∀ p ∈ rel, p.released = true) :
    ∃ evs kf, read_key_events k rel = some (evs, kf) ∧
      KeyEvent.RIGHT_LONG_PRESS ∉ evs ∧
      (k.right_key_long_press_fired = true ∨ k.right_key_down_time = 0 →
        KeyEvent.RIGHT_CLICK ∉ evs) := by
  induction rel generalizing k with
  | nil => exact ⟨[], k, rfl, by simp, by simp⟩
  | cons p ps ih =>
      have hp : p.released = true := hh p (List.mem_cons_self p ps)
      obtain ⟨h1, h2, h3, _⟩ := single_key_logic_released_right p k hp
      obtain ⟨evs, kf, hr, e1, e2⟩ :=
        ih (single_key_logic p k).2 (fun q hq => hh q (List.mem_cons_of_mem p hq))
      refine ⟨(single_key_logic p k).1 :: evs, kf,
        read_key_events_cons p ps k kf evs (chordConfirmed_of_released p hp) hr, ?_, ?_⟩
      · simp only [List.mem_cons, not_or]
        exact ⟨fun h => h1 h.symm, e1⟩
      · intro hk
        simp only [List.mem_cons, not_or]
        constructor
        · intro h
          obtain ⟨c1, c2, _⟩ := h3 h.symm
          rcases hk with hk | hk
          · rw [hk] at c2
            exact absurd c2 (by decide)
          · omega
        · apply e2
          rcases h2 with h2 | ⟨h2a, h2b⟩
          · exact Or.inr h2
          · rcases hk with hk | hk
            · exact Or.inl (by rw [h2b]; exact hk)
            · exact Or.inr (by rw [h2a]; exact hk)

/-- C12: in a sequence of polls in which one button alone is held and then
released (the hold of any length, the released part possibly empty, from any
state of the key driver and for any clock), every call returns, at most one
long-press event of that side is returned, and when one is returned no click
event of that side is returned, neither during the hold nor on the release nor
on any later poll with the button released. -/
theorem single_hold_one_long_press (k : Keys) (hold rel : List Poll)
    (hr : ∀ p ∈ rel, p.released = true) :
    ((∀ p ∈ hold, p.leftHeld = true) →
      ∃ evs kf, read_key_events k (hold ++ rel) = some (evs, kf) ∧
        evs.count KeyEvent.LEFT_LONG_PRESS ≤ 1 ∧
        (KeyEvent.LEFT_LONG_PRESS ∈ evs → KeyEvent.LEFT_CLICK ∉ evs)) ∧
    ((∀ p ∈ hold, p.rightHeld = true) →
      ∃ evs kf, read_key_events k (hold ++ rel) = some (evs, kf) ∧
        evs.count KeyEvent.RIGHT_LONG_PRESS ≤ 1 ∧
        (KeyEvent.RIGHT_LONG_PRESS ∈ evs → KeyEvent.RIGHT_CLICK ∉ evs)) := by
  constructor
  · intro hh
    obtain ⟨es, k1, h1, a1, a2, a3⟩ := read_key_events_left_hold hold k hh
    obtain ⟨fs, k2, h2, b1, b2⟩ := read_key_events_released_left rel k1 hr
    refine ⟨es ++ fs, k2, read_key_events_append k k1 k2 hold rel es fs h1 h2, ?_, ?_⟩
    · rw [List.count_append, List.count_eq_zero_of_not_mem b1]
      exact a2
    · intro hm
      simp only [List.mem_append] at hm ⊢
      rcases hm with hm | hm
      · intro hc
        rcases hc with hc | hc
        · exact a1 hc
        · exact b2 (Or.inl (a3 hm).1) hc
      · exact absurd hm b1
  · intro hh
    obtain ⟨es, k1, h1, a1, a2, a3⟩ := read_key_events_right_hold hold k hh
    obtain ⟨fs, k2, h2, b1, b2⟩ := read_key_events_released_right rel k1 hr
    refine ⟨es ++ fs, k2, read_key_events_append k k1 k2 hold rel es fs h1 h2, ?_, ?_⟩
    · rw [List.count_append, List.count_eq_zero_of_not_mem b1]
      exact a2
    · intro hm
      simp only [List.mem_append] at hm ⊢
      rcases hm with hm | hm
      · intro hc
        rcases hc with hc | hc
        · exact a1 hc
        · exact b2 (Or.inl (a3 hm).1) hc
      · exact absurd hm b1

/-- The instance of C12 at a left hold of 2000 ms polled four times and then
released: one long-press and no click. -/
theorem single_hold_one_long_press_witness :
    ∃ evs kf,
      read_key_events keysInit
        ([pollAt true false 100, pollAt true false 600, pollAt true false 1100,
          pollAt true false 2100] ++ [pollAt false false 2200, pollAt false false 2300]) =
        some (evs, kf) ∧
      evs.count KeyEvent.LEFT_LONG_PRESS ≤ 1 ∧
      (KeyEvent.LEFT_LONG_PRESS ∈ evs → KeyEvent.LEFT_CLICK ∉ evs) :=
  (single_hold_one_long_press keysInit
    [pollAt true false 100, pollAt true false 600, pollAt true false 1100,
      pollAt true false 2100]
    [pollAt false false 2200, pollAt false false 2300] (by decide)).1 (by decide)


/-- While only the left button is held and no poll sees more than
`LONG_PRESS_TIME` elapsed since the press, no left event is returned and the
left button is as it was. -/
theorem read_key_events_left_hold_quiet (hold : List Poll) (k : Keys) (t0 : Nat)
    (hd : k.left_key_down_time = t0) (h0 : t0 ≠ 0) (hf : k.left_key_long_press_fired = false)
    (hh : ∀ p ∈ hold, p.leftHeld = true ∧ ulsub p.millis t0 ≤ LONG_PRESS_TIME) :
    ∃ evs kf, read_key_events k hold = some (evs, kf) ∧
      KeyEvent.LEFT_CLICK ∉ evs ∧ KeyEvent.LEFT_LONG_PRESS ∉ evs ∧
      kf.left_key_down_time = t0 ∧ kf.left_key_long_press_fired = false := by
  induction hold generalizing k with
  | nil => exact ⟨[], k, rfl, by simp, by simp, hd, hf⟩
  | cons p ps ih =>
      obtain ⟨hp, ht⟩ := hh p (List.mem_cons_self p ps)
      obtain ⟨h1, h2, h3, _⟩ := single_key_logic_leftHeld p k hp
      have hne : (single_key_logic p k).1 ≠ .LEFT_LONG_PRESS := by
        intro he
        have := (h2 he).2.1
        rw [hd] at this
        omega
      obtain ⟨h3a, _, h3c⟩ := h3 (by rw [hd]; exact h0)
      obtain ⟨evs, kf, he, e1, e2, e3, e4⟩ :=
        ih (single_key_logic p k).2 (by rw [h3a]; exact hd) (by rw [h3c hne]; exact hf)
          (fun q hq => hh q (List.mem_cons_of_mem p hq))
      refine ⟨(single_key_logic p k).1 :: evs, kf,
        read_key_events_cons p ps k kf evs (chordConfirmed_of_leftHeld p hp) he, ?_, ?_, e3, e4⟩
      · simp only [List.mem_cons, not_or]
        exact ⟨fun h => h1 h.symm, e1⟩
      · simp only [List.mem_cons, not_or]
        exact ⟨fun h => hne h.symm, e2⟩

/-- While only the right button is held, the left button is idle and no poll
sees more than `LONG_PRESS_TIME` elapsed since the press, no left or right
button event is returned and both buttons are as they were. -/
theorem read_key_events_right_hold_quiet (hold : List Poll) (k : Keys) (t0 : Nat)
    (hl : k.left_key_down_time = 0)
    (hd : k.right_key_down_time = t0) (h0 : t0 ≠ 0) (hf : k.right_key_long_press_fired = false)
    (hh : ∀ p ∈ hold, p.rightHeld = true ∧ ulsub p.millis t0 ≤ LONG_PRESS_TIME) :
    ∃ evs kf, read_key_events k hold = some (evs, kf) ∧
      KeyEvent.RIGHT_CLICK ∉ evs ∧ KeyEvent.RIGHT_LONG_PRESS ∉ evs ∧
      kf.left_key_down_time = 0 ∧
      kf.right_key_down_time = t0 ∧ kf.right_key_long_press_fired = false := by
  induction hold generalizing k with
  | nil => exact ⟨[], k, rfl, by simp, by simp, hl, hd, hf⟩
  | cons p ps ih =>
      obtain ⟨hp, ht⟩ := hh p (List.mem_cons_self p ps)
      obtain ⟨h1, h2, h3, h4⟩ := single_key_logic_rightHeld p k hp
      have hne : (single_key_logic p k).1 ≠ .RIGHT_LONG_PRESS := by
        intro he
        have := (h2 he).2.1
        rw [hd] at this
        omega
      obtain ⟨h3a, _, h3c⟩ := h3 (by rw [hd]; exact h0)
      obtain ⟨evs, kf, he, e1, e2, e3, e4, e5⟩ :=
        ih (single_key_logic p k).2 (h4 hl).1 (by rw [h3a]; exact hd)
          (by rw [h3c hne]; exact hf) (fun q hq => hh q (List.mem_cons_of_mem p hq))
      refine ⟨(single_key_logic p k).1 :: evs, kf,
        read_key_events_cons p ps k kf evs (chordConfirmed_of_rightHeld p hp) he, ?_, ?_,
        e3, e4, e5⟩
      · simp only [List.mem_cons, not_or]
        exact ⟨fun h => h1 h.symm, e1⟩
      · simp only [List.mem_cons, not_or]
        exact ⟨fun h => hne h.symm, e2⟩

/-- C13, as stated, fails: a left press whose release is seen 10 ms later, well
before 800 ms have elapsed, returns no click at all. -/
theorem short_press_one_click_counterexample :
    read_key_events keysInit
        [pollAt true false 100, pollAt false false 110, pollAt false false 700] =
      some ([.NO_EVENT, .NO_EVENT, .NO_EVENT], keysInit) := by
  decide

/-- C13, amended: when a button that was idle is pressed alone at a non-zero
clock reading, is held with no poll seeing more than 800 ms elapsed since the
press, and its release is seen more than 20 ms after the press (the other
button idle throughout), then every call returns and, over the press, the
release and any later polls with no button pressed, exactly one click event of
that side and no long-press event of that side is returned. -/
theorem short_press_one_click (k : Keys) (p0 pr : Poll) (hold idle : List Poll)
    (ht : p0.millis ≠ 0)
    (hr : pr.released = true) (hd : ulsub pr.millis p0.millis > DEBOUNCE_TIME)
    (hi : ∀ p ∈ idle, p.released = true) :
    (k.left_key_down_time = 0 → p0.leftHeld = true →
      (∀ p ∈ hold, p.leftHeld = true ∧ ulsub p.millis p0.millis ≤ LONG_PRESS_TIME) →
      ∃ evs kf, read_key_events k (p0 :: hold ++ pr :: idle) = some (evs, kf) ∧
        evs.count KeyEvent.LEFT_CLICK = 1 ∧ KeyEvent.LEFT_LONG_PRESS ∉ evs) ∧
    (k.left_key_down_time = 0 → k.right_key_down_time = 0 → p0.rightHeld = true →
      (∀ p ∈ hold, p.rightHeld = true ∧ ulsub p.millis p0.millis ≤ LONG_PRESS_TIME) →
      ∃ evs kf, read_key_events k (p0 :: hold ++ pr :: idle) = some (evs, kf) ∧
        evs.count KeyEvent.RIGHT_CLICK = 1 ∧ KeyEvent.RIGHT_LONG_PRESS ∉ evs) := by
  constructor
  · intro hk hp0 hh
    obtain ⟨a1, a2, _, a4⟩ := single_key_logic_leftHeld p0 k hp0
    obtain ⟨a4a, a4b⟩ := a4 hk
    have a5 : (single_key_logic p0 k).1 ≠ .LEFT_LONG_PRESS := by
      intro he
      have := (a2 he).2.2.1
      rw [a4b] at this
      exact absurd this (by decide)
    obtain ⟨es, k1, h1, b1, b2, b3, b4⟩ :=
      read_key_events_left_hold_quiet hold (single_key_logic p0 k).2 p0.millis a4a ht a4b hh
    obtain ⟨c1, c2, c3⟩ := single_key_logic_released_left pr k1 hr
    have c4 : (single_key_logic pr k1).1 = .LEFT_CLICK :=
      c3.mpr ⟨by rw [b3]; exact Nat.pos_of_ne_zero ht, b4, by rw [b3]; exact hd⟩
    obtain ⟨fs, k2, h2, d1, d2⟩ := read_key_events_released_left idle (single_key_logic pr k1).2 hi
    have d3 := d2 (Or.inr c2)
    have h3 := read_key_events_cons pr idle k1 k2 fs (chordConfirmed_of_released pr hr) h2
    have h4 := read_key_events_append _ k1 k2 hold (pr :: idle) es _ h1 h3
    have h5 := read_key_events_cons p0 (hold ++ pr :: idle) k k2 _
      (chordConfirmed_of_leftHeld p0 hp0) h4
    refine ⟨_, k2, h5, ?_, ?_⟩
    · rw [List.count_cons_of_ne (fun h => a1 h.symm), List.count_append, c4,
        List.count_cons_self, List.count_eq_zero_of_not_mem b1,
        List.count_eq_zero_of_not_mem d3]
    · simp only [List.mem_cons, List.mem_append, not_or]
      exact ⟨fun h => a5 h.symm, b2, fun h => c1 h.symm, d1⟩
  · intro hk hk2 hp0 hh
    obtain ⟨a1, a2, _, a4⟩ := single_key_logic_rightHeld p0 k hp0
    obtain ⟨a4l, _, _, a4r⟩ := a4 hk
    obtain ⟨a4a, a4b⟩ := a4r hk2
    have a5 : (single_key_logic p0 k).1 ≠ .RIGHT_LONG_PRESS := by
      intro he
      have := (a2 he).2.2.1
      rw [a4b] at this
      exact absurd this (by decide)
    obtain ⟨es, k1, h1, b1, b2, b0, b3, b4⟩ :=
      read_key_events_right_hold_quiet hold (single_key_logic p0 k).2 p0.millis a4l a4a ht a4b hh
    obtain ⟨c1, _, _, c3⟩ := single_key_logic_released_right pr k1 hr
    obtain ⟨_, c2, _, _, c5⟩ := c3 b0
    have c4 : (single_key_logic pr k1).1 = .RIGHT_CLICK :=
      c5 ⟨by rw [b3]; exact Nat.pos_of_ne_zero ht, b4, by rw [b3]; exact hd⟩
    obtain ⟨fs, k2, h2, d1, d2⟩ :=
      read_key_events_released_right idle (single_key_logic pr k1).2 hi
    have d3 := d2 (Or.inr c2)
    have h3 := read_key_events_cons pr idle k1 k2 fs (chordConfirmed_of_released pr hr) h2
    have h4 := read_key_events_append _ k1 k2 hold (pr :: idle) es _ h1 h3
    have h5 := read_key_events_cons p0 (hold ++ pr :: idle) k k2 _
      (chordConfirmed_of_rightHeld p0 hp0) h4
    refine ⟨_, k2, h5, ?_, ?_⟩
    · rw [List.count_cons_of_ne (fun h => a1 h.symm), List.count_append, c4,
        List.count_cons_self, List.count_eq_zero_of_not_mem b1,
        List.count_eq_zero_of_not_mem d3]
    · simp only [List.mem_cons, List.mem_append, not_or]
      exact ⟨fun h => a5 h.symm, b2, fun h => c1 h.symm, d1⟩

/-- The instance of amended C13 at a left press seen at clocks 100, 300 and
500 and released at clock 600. -/
theorem short_press_one_click_witness :
    ∃ evs kf,
      read_key_events keysInit
        (pollAt true false 100 :: [pollAt true false 300, pollAt true false 500] ++
          pollAt false false 600 :: [pollAt false false 700]) = some (evs, kf) ∧
      evs.count KeyEvent.LEFT_CLICK = 1 ∧ KeyEvent.LEFT_LONG_PRESS ∉ evs :=
  (short_press_one_click keysInit (pollAt true false 100) (pollAt false false 600)
    [pollAt true false 300, pollAt true false 500] [pollAt false false 700]
    (by decide) (by decide) (by decide) (by decide)).1 (by decide) (by decide) (by decide)

/-- C14 fails on the code: the wait loop of the chord path ends as soon as one
of the two buttons is released, so `read_key_event` returns `BOTH_PRESS` with
the right button still pressed at the moment of return. -/
theorem chord_returns_with_button_held :
    read_key_event chordPoll keysInit =
      some { event := .BOTH_PRESS, keys := keysInit, last_read := (false, true) } := by
  decide

/-- C15 fails on the code: after `BOTH_PRESS` was returned with the right button
still held, the release of that button returns `RIGHT_CLICK`, and holding it on
returns `RIGHT_LONG_PRESS`; and when the left button went down one poll before
the right one, the poll after the chord returns `LEFT_CLICK` although both
buttons were released when `BOTH_PRESS` was returned. -/
theorem chord_followed_by_single_event :
    (read_key_events keysInit
        [chordPoll, pollAt false true 600, pollAt false false 700]).map Prod.fst =
      some [.BOTH_PRESS, .NO_EVENT, .RIGHT_CLICK] ∧
    (read_key_events keysInit
        [chordPoll, pollAt false true 600, pollAt false true 1500]).map Prod.fst =
      some [.BOTH_PRESS, .NO_EVENT, .RIGHT_LONG_PRESS] ∧
    (read_key_events keysInit
        [pollAt true false 480,
          { chordPoll with loop_samples := [(true, true), (false, false)] },
          pollAt false false 700]).map Prod.fst =
      some [.NO_EVENT, .BOTH_PRESS, .LEFT_CLICK] := by
  decide

/-- C16: a call of `read_key_event` outside the chord path returns, with one
event; when the left-button block produces an event, which is `LEFT_CLICK` or
`LEFT_LONG_PRESS`, that event is the one returned and the down time and the
long-press flag of the right button are as before the call, whatever the right
button and its stored state are: a left release seen more than `DEBOUNCE_TIME`
after the press of a hold that has not fired returns `LEFT_CLICK`, and a left
hold that has not fired seen more than `LONG_PRESS_TIME` after its press
returns `LEFT_LONG_PRESS`. On the chord path the call returns `BOTH_PRESS` and
leaves the key driver as it was, once the wait loop ends. -/
theorem left_event_has_priority (p : Poll) (k : Keys) :
    (chordConfirmed p = false →
      ∃ r, read_key_event p k = some r ∧
        (∀ e k1, left_key_logic p.left_key_pressed p.millis k = (some e, k1) →
          (e = .LEFT_CLICK ∨ e = .LEFT_LONG_PRESS) ∧ r.event = e ∧ r.keys = k1 ∧
          r.keys.right_key_down_time = k.right_key_down_time ∧
          r.keys.right_key_long_press_fired = k.right_key_long_press_fired) ∧
        (p.left_key_pressed = false → 0 < k.left_key_down_time →
          k.left_key_long_press_fired = false →
          ulsub p.millis k.left_key_down_time > DEBOUNCE_TIME →
          r.event = .LEFT_CLICK ∧ r.keys = { k with left_key_down_time := 0 }) ∧
        (p.left_key_pressed = true → k.left_key_down_time ≠ 0 →
          k.left_key_long_press_fired = false →
          ulsub p.millis k.left_key_down_time > LONG_PRESS_TIME →
          r.event = .LEFT_LONG_PRESS ∧
            r.keys = { k with left_key_long_press_fired := true })) ∧
    (chordConfirmed p = true →
      read_key_event p k =
        (waitRelease p.loop_samples).map
          (fun s => { event := .BOTH_PRESS, keys := k, last_read := s })) := by
  constructor
  · intro hc
    obtain ⟨s, hs⟩ := read_key_event_of_not_chord p k hc
    refine ⟨_, hs, ?_, ?_, ?_⟩
    · intro e k1 hl
      simp only [single_key_logic, hl]
      obtain ⟨ld, rd, lf, rf⟩ := k
      unfold left_key_logic at hl
      simp only at hl
      split_ifs at hl <;> simp only [Prod.mk.injEq, Option.some.injEq] at hl <;>
        first
          | exact absurd hl.1 (by simp)
          | (obtain ⟨rfl, rfl⟩ := hl; simp)
    · intro h1 h2 h3 h4
      simp [single_key_logic, left_key_logic, h1, h2, h3, h4]
    · intro h1 h2 h3 h4
      simp [single_key_logic, left_key_logic, h1, h2, h3, h4]
  · intro hc
    unfold chordConfirmed at hc
    simp only [Bool.and_eq_true] at hc
    unfold read_key_event
    rw [if_pos hc.1, if_pos hc.2]
    cases waitRelease p.loop_samples <;> rfl

/-- The instance of C16 at a poll that sees the left button released 100 ms
after its press and the right button just pressed: `LEFT_CLICK` is returned and
the right button is not yet registered. -/
theorem left_event_has_priority_witness :
    ∃ r, read_key_event (pollAt false true 200) { keysInit with left_key_down_time := 100 } =
        some r ∧
      r.event = .LEFT_CLICK ∧
      r.keys = { { keysInit with left_key_down_time := 100 } with left_key_down_time := 0 } :=
  let ⟨r, h, _, h2, _⟩ :=
    (left_event_has_priority (pollAt false true 200)
      { keysInit with left_key_down_time := 100 }).1 (by decide)
  ⟨r, h, h2 (by decide) (by decide) (by decide) (by decide)⟩

/-- C17: in the top menu (not running, no sub-menu, overlay not
`BATTERY_DISPLAY`) on `ANIMATION`, `PIC`, `LETTER` or `NUMBER`, `RIGHT_CLICK`
sets `is_game_running` and changes nothing else: `in_sub_menu` stays false, and
`main_mode`, the sub-mode selectors, the brightness and the storage are as
before. -/
theorem top_menu_right_click_runs (env : Env) (w : World)
    (hr : w.appState.is_game_running = false) (hs : w.appState.in_sub_menu = false)
    (ho : w.appState.overlay_mode ≠ .BATTERY_DISPLAY)
    (hm : w.appState.main_mode = .ANIMATION ∨ w.appState.main_mode = .PIC ∨
      w.appState.main_mode = .LETTER ∨ w.appState.main_mode = .NUMBER) :
    handle_input .RIGHT_CLICK env w =
        { w with appState := { w.appState with is_game_running := true } } ∧
      (handle_input .RIGHT_CLICK env w).appState.is_game_running = true ∧
      (handle_input .RIGHT_CLICK env w).appState.in_sub_menu = false ∧
      (handle_input .RIGHT_CLICK env w).eeprom_writes = w.eeprom_writes := by
  have h : handle_input .RIGHT_CLICK env w =
      { w with appState := { w.appState with is_game_running := true } } := by
    simp [handle_input, handle_input_menu, hr, ho, hm]
  rw [h]
  exact ⟨rfl, rfl, hs, rfl⟩

/-- The instance of C17 at the initial state, the top menu on `ANIMATION`. -/
theorem top_menu_right_click_runs_witness :
    (handle_input .RIGHT_CLICK (envAt 10) (initWorld 255)).appState.is_game_running = true ∧
      (handle_input .RIGHT_CLICK (envAt 10) (initWorld 255)).appState.in_sub_menu = false :=
  ⟨(top_menu_right_click_runs (envAt 10) (initWorld 255) (by decide) (by decide) (by decide)
      (by decide)).2.1,
    (top_menu_right_click_runs (envAt 10) (initWorld 255) (by decide) (by decide) (by decide)
      (by decide)).2.2.1⟩

/-- C18: while directly-runnable content runs (overlay not `BATTERY_DISPLAY`),
`LEFT_CLICK` replaces the variant of the running content by its cyclic
successor and changes nothing else (`anim_mode` modulo 4 on `ANIMATION`,
`pic_mode` modulo 6 on `PIC`, `letter_mode` modulo 26 on `LETTER`,
`number_mode` modulo 10 on `NUMBER`; `METEOR` wraps to `FLAME`), and
`RIGHT_CLICK` returns the state unchanged. -/
theorem running_content_left_click (env : Env) (w : World)
    (hr : w.appState.is_game_running = true)
    (ho : w.appState.overlay_mode ≠ .BATTERY_DISPLAY) :
    (w.appState.main_mode = .ANIMATION →
      handle_input .LEFT_CLICK env w =
          { w with appState := { w.appState with
              anim_mode := AnimMode.cast ((w.appState.anim_mode.toNat + 1) % 4) } } ∧
        (handle_input .LEFT_CLICK env w).appState.anim_mode.toNat =
          (w.appState.anim_mode.toNat + 1) % 4 ∧
        (w.appState.anim_mode = .METEOR →
          (handle_input .LEFT_CLICK env w).appState.anim_mode = .FLAME)) ∧
    (w.appState.main_mode = .PIC →
      handle_input .LEFT_CLICK env w =
          { w with appState := { w.appState with
              pic_mode := PicMode.cast ((w.appState.pic_mode.toNat + 1) % 6) } } ∧
        (handle_input .LEFT_CLICK env w).appState.pic_mode.toNat =
          (w.appState.pic_mode.toNat + 1) % 6) ∧
    (w.appState.main_mode = .LETTER →
      handle_input .LEFT_CLICK env w =
          { w with appState := { w.appState with
              letter_mode := LetterMode.cast ((w.appState.letter_mode.toNat + 1) % 26) } } ∧
        (handle_input .LEFT_CLICK env w).appState.letter_mode.toNat =
          (w.appState.letter_mode.toNat + 1) % 26) ∧
    (w.appState.main_mode = .NUMBER →
      handle_input .LEFT_CLICK env w =
          { w with appState := { w.appState with
              number_mode := NumberMode.cast ((w.appState.number_mode.toNat + 1) % 10) } } ∧
        (handle_input .LEFT_CLICK env w).appState.number_mode.toNat =
          (w.appState.number_mode.toNat + 1) % 10) ∧
    (w.appState.main_mode = .ANIMATION ∨ w.appState.main_mode = .PIC ∨
        w.appState.main_mode = .LETTER ∨ w.appState.main_mode = .NUMBER →
      handle_input .RIGHT_CLICK env w = w) := by
  obtain ⟨⟨mm, am, pm, gm, lm, nm, tm, om, sub, run, bl⟩, t0, snap, pv, eb, ew, fl, lvl, cs,
    met, g⟩ := w
  simp only at hr ho
  subst hr
  refine ⟨?_, ?_, ?_, ?_, ?_⟩
  · intro hm
    simp only at hm
    subst hm
    refine ⟨?_, ?_, ?_⟩
    · simp [handle_input, handle_input_running, running_exit, running_number_game_input,
        running_letter_input, running_pic_input, running_animation_input, ho]
    · cases am <;>
        simp [handle_input, handle_input_running, running_exit, running_number_game_input,
          running_letter_input, running_pic_input, running_animation_input, ho,
          AnimMode.toNat, AnimMode.cast]
    · intro ha
      simp only at ha
      subst ha
      simp [handle_input, handle_input_running, running_exit, running_number_game_input,
        running_letter_input, running_pic_input, running_animation_input, ho,
        AnimMode.toNat, AnimMode.cast]
  · intro hm
    simp only at hm
    subst hm
    refine ⟨?_, ?_⟩
    · simp [handle_input, handle_input_running, running_exit, running_number_game_input,
        running_letter_input, running_pic_input, running_animation_input, ho]
    · cases pm <;>
        simp [handle_input, handle_input_running, running_exit, running_number_game_input,
          running_letter_input, running_pic_input, running_animation_input, ho,
          PicMode.toNat, PicMode.cast]
  · intro hm
    simp only at hm
    subst hm
    refine ⟨?_, ?_⟩
    · simp [handle_input, handle_input_running, running_exit, running_number_game_input,
        running_letter_input, running_pic_input, running_animation_input, ho]
    · cases lm <;>
        simp [handle_input, handle_input_running, running_exit, running_number_game_input,
          running_letter_input, running_pic_input, running_animation_input, ho,
          LetterMode.toNat, LetterMode.cast]
  · intro hm
    simp only at hm
    subst hm
    refine ⟨?_, ?_⟩
    · simp [handle_input, handle_input_running, running_exit, running_number_game_input,
        running_letter_input, running_pic_input, running_animation_input, ho]
    · cases nm <;>
        simp [handle_input, handle_input_running, running_exit, running_number_game_input,
          running_letter_input, running_pic_input, running_animation_input, ho,
          NumberMode.toNat, NumberMode.cast]
  · intro hm
    simp only at hm
    rcases hm with hm | hm | hm | hm <;> subst hm <;>
      simp [handle_input, handle_input_running, running_exit, running_number_game_input,
        running_letter_input, running_pic_input, running_animation_input, ho]

/-- The instance of C18 at the animation started from the initial state:
`LEFT_CLICK` moves `FLAME` to `RAINBOW`. -/
theorem running_content_left_click_witness :
    animRunning.appState.main_mode = .ANIMATION ∧
      (handle_input .LEFT_CLICK (envAt 50) animRunning).appState.anim_mode.toNat =
        (animRunning.appState.anim_mode.toNat + 1) % 4 :=
  ⟨by decide,
    ((running_content_left_click (envAt 50) animRunning (by decide) (by decide)).1
      (by decide)).2.1⟩

/-- What `RIGHT_LONG_PRESS` makes of `appState` while content runs: the two
navigation flags are cleared and nothing else changes. -/
theorem handle_input_running_exit_appState (env : Env) (w : World)
    (hr : w.appState.is_game_running = true)
    (ho : w.appState.overlay_mode ≠ .BATTERY_DISPLAY) :
    (handle_input .RIGHT_LONG_PRESS env w).appState =
      { w.appState with is_game_running := false, in_sub_menu := false } := by
  obtain ⟨⟨mm, am, pm, gm, lm, nm, tm, om, sub, run, bl⟩, t0, snap, pv, eb, ew, fl, lvl, cs,
    met, g⟩ := w
  simp only at hr ho
  subst hr
  cases mm <;>
    simp [handle_input, handle_input_running, running_exit, running_number_game_input,
      running_letter_input, running_pic_input, running_animation_input, ho]
  all_goals (cases gm <;> rfl)

/-- C19: in every running state (any `main_mode`, overlay not
`BATTERY_DISPLAY`), `RIGHT_LONG_PRESS` leaves `is_game_running` and
`in_sub_menu` false and every other field of `AppState`, `main_mode` and the
sub-mode selectors among them, unchanged. -/
theorem running_right_long_press_exits (env : Env) (w : World)
    (hr : w.appState.is_game_running = true)
    (ho : w.appState.overlay_mode ≠ .BATTERY_DISPLAY) :
    (handle_input .RIGHT_LONG_PRESS env w).appState =
        { w.appState with is_game_running := false, in_sub_menu := false } ∧
      (handle_input .RIGHT_LONG_PRESS env w).appState.is_game_running = false ∧
      (handle_input .RIGHT_LONG_PRESS env w).appState.in_sub_menu = false ∧
      (handle_input .RIGHT_LONG_PRESS env w).appState.main_mode = w.appState.main_mode ∧
      (handle_input .RIGHT_LONG_PRESS env w).appState.anim_mode = w.appState.anim_mode ∧
      (handle_input .RIGHT_LONG_PRESS env w).appState.pic_mode = w.appState.pic_mode ∧
      (handle_input .RIGHT_LONG_PRESS env w).appState.game_mode = w.appState.game_mode ∧
      (handle_input .RIGHT_LONG_PRESS env w).appState.letter_mode = w.appState.letter_mode ∧
      (handle_input .RIGHT_LONG_PRESS env w).appState.number_mode = w.appState.number_mode := by
  rw [handle_input_running_exit_appState env w hr ho]
  exact ⟨rfl, rfl, rfl, rfl, rfl, rfl, rfl, rfl, rfl⟩

/-- The instance of C19 at the animation started from the initial state. -/
theorem running_right_long_press_exits_witness :
    animRunning.appState.is_game_running = true ∧
      (handle_input .RIGHT_LONG_PRESS (envAt 900) animRunning).appState.is_game_running
        = false ∧
      (handle_input .RIGHT_LONG_PRESS (envAt 900) animRunning).appState.in_sub_menu = false :=
  ⟨by decide,
    (running_right_long_press_exits (envAt 900) animRunning (by decide) (by decide)).2.1,
    (running_right_long_press_exits (envAt 900) animRunning (by decide) (by decide)).2.2.1⟩

/-- C20, as stated, fails: Pinball, started from the game sub-menu, runs with
`in_sub_menu` true, and after `RIGHT_LONG_PRESS` `in_sub_menu` is false: the
next frame draws the main-menu icon of `GAME`, not the game icon of the
sub-menu. -/
theorem running_game_exit_counterexample :
    gameRunning.appState.main_mode = .GAME ∧
      gameRunning.appState.is_game_running = true ∧
      gameRunning.appState.in_sub_menu = true ∧
      (handle_input .RIGHT_LONG_PRESS (envAt 900) gameRunning).appState.in_sub_menu = false ∧
      (render_frame (envAt 910)
        (handle_input .RIGHT_LONG_PRESS (envAt 900) gameRunning)).2.calls =
        [.draw_main_menu_icon .GAME] := by
  decide

/-- C20, amended: in every state in which a game runs (`main_mode` is `GAME`,
overlay not `BATTERY_DISPLAY`), whether or not it was started from the
sub-menu, `RIGHT_LONG_PRESS` leaves `is_game_running` false and `in_sub_menu`
false, so that the main-content branch of `render_frame` draws the main-menu
icon of `GAME`: the top menu is the active view. -/
theorem running_game_exit_to_top_menu (env env2 : Env) (w : World)
    (hm : w.appState.main_mode = .GAME)
    (hr : w.appState.is_game_running = true)
    (ho : w.appState.overlay_mode ≠ .BATTERY_DISPLAY) :
    (handle_input .RIGHT_LONG_PRESS env w).appState.is_game_running = false ∧
      (handle_input .RIGHT_LONG_PRESS env w).appState.in_sub_menu = false ∧
      (render_frame_content env2 (handle_input .RIGHT_LONG_PRESS env w)).2 =
        [.draw_main_menu_icon .GAME] := by
  have h := handle_input_running_exit_appState env w hr ho
  refine ⟨by rw [h], by rw [h], ?_⟩
  unfold render_frame_content
  rw [h]
  simp [hm]

/-- The instance of amended C20 at Pinball started from the initial state. -/
theorem running_game_exit_to_top_menu_witness :
    gameRunning.appState.main_mode = .GAME ∧
      gameRunning.appState.in_sub_menu = true ∧
      (handle_input .RIGHT_LONG_PRESS (envAt 900) gameRunning).appState.in_sub_menu = false :=
  ⟨by decide, by decide,
    (running_game_exit_to_top_menu (envAt 900) (envAt 910) gameRunning (by decide) (by decide)
      (by decide)).2.1⟩

/-- C21 fails on the code for `GAME_OF_LIFE`: the exit logic of `handle_input`
resets Snake and Pinball only, so `RIGHT_LONG_PRESS` while the Game of Life
runs leaves its world as it was, not re-seeded, while `game_start` does seed
it; for Pinball the same event leaves the initial layout. -/
theorem running_game_exit_reset :
    lifeRunning.appState.main_mode = .GAME ∧
      lifeRunning.appState.game_mode = .GAME_OF_LIFE ∧
      lifeRunning.appState.is_game_running = true ∧
      (handle_input .RIGHT_LONG_PRESS (envRandom 900 7 1) lifeRunning).games.life =
        lifeRunning.games.life ∧
      (game_start .GAME_OF_LIFE (envRandom 900 7 1) lifeRunning.games).life ≠
        lifeRunning.games.life ∧
      pinballFresh
        (handle_input .RIGHT_LONG_PRESS (envAt 900)
          (handle_input .RIGHT_CLICK (envAt 100) gameRunning)).games.pinball := by
  unfold pinballFresh
  decide

/-- C22: in menu navigation (not running, overlay not `BATTERY_DISPLAY`)
`LEFT_CLICK` replaces one selector by its cyclic successor and changes nothing
else: `main_mode` modulo 6 outside a sub-menu (`TOOL` wraps to `ANIMATION`, and
six clicks from one of the six modes give the state back), `game_mode` modulo 3
in the `GAME` sub-menu, the brightness preview modulo 5 in the `TOOL` sub-menu,
where the committed brightness and the storage are untouched. -/
theorem menu_left_click (env : Env) (w : World)
    (hr : w.appState.is_game_running = false)
    (ho : w.appState.overlay_mode ≠ .BATTERY_DISPLAY) :
    (w.appState.in_sub_menu = false →
      handle_input .LEFT_CLICK env w =
          { w with appState := { w.appState with
              main_mode := MainMode.cast ((w.appState.main_mode.toNat + 1) % 6) } } ∧
        (handle_input .LEFT_CLICK env w).appState.main_mode.toNat =
          (w.appState.main_mode.toNat + 1) % 6 ∧
        (w.appState.main_mode = .TOOL →
          (handle_input .LEFT_CLICK env w).appState.main_mode = .ANIMATION) ∧
        (w.appState.main_mode ≠ .SYSTEM_OVERLAY →
          ∀ e1 e2 e3 e4 e5 : Env,
            handle_inputs w
              [(.LEFT_CLICK, env), (.LEFT_CLICK, e1), (.LEFT_CLICK, e2), (.LEFT_CLICK, e3),
               (.LEFT_CLICK, e4), (.LEFT_CLICK, e5)] = w)) ∧
    (w.appState.in_sub_menu = true → w.appState.main_mode = .GAME →
      handle_input .LEFT_CLICK env w =
          { w with appState := { w.appState with
              game_mode := GameMode.cast ((w.appState.game_mode.toNat + 1) % 3) } } ∧
        (handle_input .LEFT_CLICK env w).appState.game_mode.toNat =
          (w.appState.game_mode.toNat + 1) % 3) ∧
    (w.appState.in_sub_menu = true → w.appState.main_mode = .TOOL →
      handle_input .LEFT_CLICK env w =
        { w with preview_brightness_level := (w.preview_brightness_level + 1) % 5 }) := by
  obtain ⟨⟨mm, am, pm, gm, lm, nm, tm, om, sub, run, bl⟩, t0, snap, pv, eb, ew, fl, lvl, cs,
    met, g⟩ := w
  simp only at hr ho
  subst hr
  refine ⟨?_, ?_, ?_⟩
  · intro hs
    simp only at hs
    subst hs
    refine ⟨?_, ?_, ?_, ?_⟩
    · simp [handle_input, handle_input_menu, ho]
    · cases mm <;> simp [handle_input, handle_input_menu, ho, MainMode.toNat, MainMode.cast]
    · intro hm
      simp only at hm
      subst hm
      simp [handle_input, handle_input_menu, ho, MainMode.toNat, MainMode.cast]
    · intro hm e1 e2 e3 e4 e5
      cases mm <;>
        simp [handle_inputs, handle_input, handle_input_menu, ho, MainMode.toNat,
          MainMode.cast] at hm ⊢
  · intro hs hm
    simp only at hs hm
    subst hs hm
    refine ⟨?_, ?_⟩
    · simp [handle_input, handle_input_menu, ho]
    · cases gm <;> simp [handle_input, handle_input_menu, ho, GameMode.toNat, GameMode.cast]
  · intro hs hm
    simp only at hs hm
    subst hs hm
    simp [handle_input, handle_input_menu, ho]

/-- The instance of C22 at the initial state: `LEFT_CLICK` moves the top menu
from `ANIMATION` to `PIC`. -/
theorem menu_left_click_witness :
    (initWorld 255).appState.main_mode.toNat = 0 ∧
      (handle_input .LEFT_CLICK (envAt 10) (initWorld 255)).appState.main_mode.toNat =
        ((initWorld 255).appState.main_mode.toNat + 1) % 6 :=
  ⟨by decide,
    ((menu_left_click (envAt 10) (initWorld 255) (by decide) (by decide)).1 (by decide)).2.1⟩

/-- The first three entries of the body array after `snake_init`. -/
theorem snake_init_body (env : Env) (s : Snake) (h : 3 ≤ s.snake_body.length) :
    (snake_init env s).snake_body.take 3 = [⟨4, 4⟩, ⟨3, 4⟩, ⟨2, 4⟩] := by
  obtain ⟨st, dir, body, len, fd, lt, iv⟩ := s
  simp only at h
  match body, h with
  | a :: b :: c :: rest, _ => simp [snake_init]

/-- The state `snake_init` leaves is the initial layout of Snake. -/
theorem snake_init_fresh (env : Env) (s : Snake) (h : 3 ≤ s.snake_body.length) :
    snakeFresh (snake_init env s) := by
  refine ⟨rfl, rfl, snake_init_body env s h, rfl, ?_, ?_, ?_, ?_⟩ <;>
    simp [snake_init, randomFood] <;> omega

/-- The state `pinball_init` leaves is the initial layout of Pinball. -/
theorem pinball_init_fresh (env : Env) (p : Pinball) : pinballFresh (pinball_init env p) :=
  ⟨rfl, rfl, rfl, rfl, rfl, rfl, rfl⟩

/-- C23: on `GAME` outside running content (overlay not `BATTERY_DISPLAY`), a
`RIGHT_CLICK` in the top menu opens the sub-menu and changes nothing else, and
a `RIGHT_CLICK` in the sub-menu sets `is_game_running` and starts the selected
game with `game_start`, changing nothing else; Pinball and Snake then are in
their Running phase with their initial layout. -/
theorem game_menu_right_click (env : Env) (w : World)
    (hm : w.appState.main_mode = .GAME)
    (hr : w.appState.is_game_running = false)
    (ho : w.appState.overlay_mode ≠ .BATTERY_DISPLAY) :
    (w.appState.in_sub_menu = false →
      handle_input .RIGHT_CLICK env w =
        { w with appState := { w.appState with in_sub_menu := true } }) ∧
    (w.appState.in_sub_menu = true →
      handle_input .RIGHT_CLICK env w =
          { w with appState := { w.appState with is_game_running := true },
                   games := game_start w.appState.game_mode env w.games } ∧
        (w.appState.game_mode = .PINBALL →
          pinballFresh (handle_input .RIGHT_CLICK env w).games.pinball) ∧
        (w.appState.game_mode = .SNAKE → 3 ≤ w.games.snake.snake_body.length →
          snakeFresh (handle_input .RIGHT_CLICK env w).games.snake)) := by
  constructor
  · intro hs
    simp [handle_input, handle_input_menu, hm, hr, hs, ho]
  · intro hs
    have h : handle_input .RIGHT_CLICK env w =
        { w with appState := { w.appState with is_game_running := true },
                 games := game_start w.appState.game_mode env w.games } := by
      simp [handle_input, handle_input_menu, hm, hr, hs, ho]
    refine ⟨h, ?_, ?_⟩
    · intro hg
      rw [h, hg]
      exact pinball_init_fresh env _
    · intro hg hb
      rw [h, hg]
      exact snake_init_fresh env _ hb

/-- The instance of C23 at the initial state moved to `GAME`: the second
`RIGHT_CLICK` starts Pinball with its initial layout. -/
theorem game_menu_right_click_witness :
    pinballFresh
      (handle_input .RIGHT_CLICK (envAt 40)
        (handle_inputs (initWorld 255)
          [(.LEFT_CLICK, envAt 10), (.LEFT_CLICK, envAt 20),
           (.RIGHT_CLICK, envAt 30)])).games.pinball :=
  ((game_menu_right_click (envAt 40)
      (handle_inputs (initWorld 255)
        [(.LEFT_CLICK, envAt 10), (.LEFT_CLICK, envAt 20), (.RIGHT_CLICK, envAt 30)])
      (by decide) (by decide) (by decide)).2 (by decide)).2.1 (by decide)

/-- C24: when Pinball and Snake are in their GameOver phase, `LEFT_CLICK` and
`RIGHT_CLICK` restart them into Running with their initial layout (the food of
Snake inside the grid), whatever the state at game over was, and every other
event leaves their state unchanged. -/
theorem game_over_restart (event : KeyEvent) (env : Env) (p : Pinball) (s : Snake)
    (hp : p.pinball_state = .PINBALL_GAME_OVER)
    (hs : s.snake_state = .GAME_OVER) (hb : 3 ≤ s.snake_body.length) :
    (event = .LEFT_CLICK ∨ event = .RIGHT_CLICK →
      pinballFresh (pinball_handle_input event env p) ∧
        snakeFresh (snake_handle_input event env s)) ∧
    (event ≠ .LEFT_CLICK → event ≠ .RIGHT_CLICK →
      pinball_handle_input event env p = p ∧ snake_handle_input event env s = s) := by
  constructor
  · intro he
    have h1 : pinball_handle_input event env p = pinball_init env p := by
      simp [pinball_handle_input, hp, he]
    have h2 : snake_handle_input event env s = snake_init env s := by
      simp [snake_handle_input, hs, he]
    rw [h1, h2]
    exact ⟨pinball_init_fresh env p, snake_init_fresh env s hb⟩
  · intro h1 h2
    simp [pinball_handle_input, snake_handle_input, hp, hs, h1, h2]

/-- The instance of C24 at Pinball and Snake driven to game over without input,
restarted with `LEFT_CLICK`. -/
theorem game_over_restart_witness :
    pinballOver.pinball_state = .PINBALL_GAME_OVER ∧ snakeOver.snake_state = .GAME_OVER ∧
      pinballFresh (pinball_handle_input .LEFT_CLICK (envAt 2000) pinballOver) ∧
      snakeFresh (snake_handle_input .LEFT_CLICK (envAt 2000) snakeOver) :=
  ⟨by decide, by decide,
    (game_over_restart .LEFT_CLICK (envAt 2000) pinballOver snakeOver (by decide) (by decide)
      (by decide)).1 (Or.inl rfl)⟩

/-- The navigation invariant and the range of the two brightness levels are
kept by `handle_input`. -/
theorem handle_input_invariants (event : KeyEvent) (env : Env) (w : World)
    (h1 : navInvariant w.appState) (h2 : w.appState.brightness_level ≤ 4)
    (h3 : w.preview_brightness_level ≤ 4) :
    navInvariant (handle_input event env w).appState ∧
      (handle_input event env w).appState.brightness_level ≤ 4 ∧
      (handle_input event env w).preview_brightness_level ≤ 4 := by
  obtain ⟨⟨mm, am, pm, gm, lm, nm, tm, om, sub, run, bl⟩, t0, snap, pv, eb, ew, fl, lvl, cs,
    met, g⟩ := w
  simp only at h2 h3
  by_cases ho : om = .BATTERY_DISPLAY
  · have : handle_input event env
        ⟨⟨mm, am, pm, gm, lm, nm, tm, om, sub, run, bl⟩, t0, snap, pv, eb, ew, fl, lvl, cs,
          met, g⟩ =
        ⟨⟨mm, am, pm, gm, lm, nm, tm, om, sub, run, bl⟩, t0, snap, pv, eb, ew, fl, lvl, cs,
          met, g⟩ := by
      simp [handle_input, ho]
    rw [this]
    exact ⟨h1, h2, h3⟩
  · have hmod : (pv + 1) % 5 ≤ 4 := by omega
    cases mm <;> cases event <;> cases sub <;> cases run <;> cases gm <;>
      simp [navInvariant, handle_input, handle_input_menu, handle_input_running, running_exit,
        running_number_game_input, running_letter_input, running_pic_input,
        running_animation_input, save_brightness_to_eeprom, MainMode.cast, MainMode.toNat,
        ho, h2, h3, hmod] at h1 ⊢
    all_goals (split <;> simp [h2, h3])

/-- Steps 0, 0.5 and 1 of `render_frame` change no field of `appState` but
`overlay_mode`, which they leave at one of the values the program assigns when
it was one, and they leave the brightness preview alone. -/
theorem render_frame_overlay_frame (env : Env) (w : World) :
    (render_frame_overlay env w).appState =
        { w.appState with
          overlay_mode := (render_frame_overlay env w).appState.overlay_mode } ∧
      (render_frame_overlay env w).preview_brightness_level = w.preview_brightness_level ∧
      (overlayAssigned w.appState.overlay_mode →
        overlayAssigned (render_frame_overlay env w).appState.overlay_mode) := by
  obtain ⟨⟨mm, am, pm, gm, lm, nm, tm, om, sub, run, bl⟩, t0, snap, pv, eb, ew, fl, lvl, cs,
    met, g⟩ := w
  cases fl <;> cases om <;> cases cs <;>
    simp [render_frame_overlay, getCurrentChargingState, overlayAssigned]
  all_goals (split <;> simp)

/-- The main-content branch of `render_frame` leaves the brightness preview
alone. -/
theorem render_frame_content_preview (env : Env) (w : World) :
    (render_frame_content env w).1.preview_brightness_level = w.preview_brightness_level := by
  unfold render_frame_content
  split
  · split
    · split <;> rfl
    all_goals rfl
  · split
    · split <;> rfl
    · rfl

/-- The dispatch of `render_frame` leaves the brightness preview alone. -/
theorem render_frame_dispatch_preview (env : Env) (w : World) :
    (render_frame_dispatch env w).1.preview_brightness_level = w.preview_brightness_level := by
  unfold render_frame_dispatch
  split
  · split
    · rfl
    · split
      · rfl
      · split <;> rfl
  · exact render_frame_content_preview env w

/-- What `render_frame` leaves of `appState` and of the brightness preview:
only `overlay_mode` may differ, and it stays one of the values the program
assigns. -/
theorem render_frame_frame (env : Env) (w : World) :
    (render_frame env w).1.appState =
        { w.appState with overlay_mode := (render_frame env w).1.appState.overlay_mode } ∧
      (render_frame env w).1.preview_brightness_level = w.preview_brightness_level ∧
      (overlayAssigned w.appState.overlay_mode →
        overlayAssigned (render_frame env w).1.appState.overlay_mode) := by
  obtain ⟨h1, h2, h3⟩ := render_frame_overlay_frame env w
  have ha : (render_frame env w).1.appState = (render_frame_overlay env w).appState := by
    unfold render_frame
    simp only [render_frame_dispatch_appState]
  have hp : (render_frame env w).1.preview_brightness_level =
      (render_frame_overlay env w).preview_brightness_level := by
    unfold render_frame
    simp only [render_frame_dispatch_preview]
  rw [ha, hp]
  exact ⟨h1, h2, h3⟩

/-- The level `render_frame` renders with is decided by the state it is given. -/
theorem level_to_render_render_frame (env : Env) (w : World) :
    level_to_render (render_frame env w).1 = level_to_render w := by
  obtain ⟨h1, h2, _⟩ := render_frame_frame env w
  unfold level_to_render
  rw [h1, h2]

/-- `handle_input` leaves `overlay_mode` at one of the values the program
assigns. -/
theorem handle_input_overlayAssigned (event : KeyEvent) (env : Env) (w : World)
    (h : overlayAssigned w.appState.overlay_mode) :
    overlayAssigned (handle_input event env w).appState.overlay_mode := by
  by_cases he : event = .BOTH_PRESS
  · subst he
    rcases handle_input_overlay_of_chord env w with h1 | ⟨h1, _⟩
    · rw [h1]
      exact h
    · rw [h1]
      exact Or.inr (Or.inl rfl)
  · rw [handle_input_overlay_of_ne_chord event env w he]
    exact h

/-- The state `updateChargingState` returns has the brightness preview it was
given. -/
theorem updateChargingState_preview (chrg_low : Bool) (mv : Nat) (w : World) :
    (updateChargingState chrg_low mv w).preview_brightness_level =
      w.preview_brightness_level := by
  unfold updateChargingState
  simp only []
  split_ifs <;> rfl

/-- The state `updateVoltageState` returns has the brightness preview it was
given. -/
theorem updateVoltageState_preview (mv : Nat) (w : World) :
    (updateVoltageState mv w).preview_brightness_level = w.preview_brightness_level := by
  unfold updateVoltageState
  simp only []
  split_ifs <;> rfl

/-- Every reachable state satisfies the navigation invariant, has an
`overlay_mode` the program assigns, and has both brightness levels in 0..4. -/
theorem reachable_invariants (w : World) (h : Reachable w) :
    navInvariant w.appState ∧ overlayAssigned w.appState.overlay_mode ∧
      w.appState.brightness_level ≤ 4 ∧ w.preview_brightness_level ≤ 4 := by
  induction h with
  | init b =>
      refine ⟨?_, Or.inl rfl, ?_, ?_⟩
      · simp [navInvariant, initWorld, appStateInit]
      · simp [initWorld, appStateInit]
      · simp [initWorld]
  | @load w _ ih =>
      obtain ⟨h1, h2, h3, h4⟩ := ih
      unfold load_brightness_from_eeprom
      by_cases hb : w.eeprom_byte ≤ 4
      · have hc : w.eeprom_byte ≥ 0 ∧ w.eeprom_byte ≤ 4 := ⟨Nat.zero_le _, hb⟩
        simp only [if_pos hc]
        exact ⟨h1, h2, hb, h4⟩
      · have hc : ¬ (w.eeprom_byte ≥ 0 ∧ w.eeprom_byte ≤ 4) := fun h => hb h.2
        simp only [if_neg hc]
        exact ⟨h1, h2, by decide, h4⟩
  | @step w a _ ih =>
      obtain ⟨h1, h2, h3, h4⟩ := ih
      cases a with
      | key event env =>
          obtain ⟨g1, g2, g3⟩ := handle_input_invariants event env w h1 h3 h4
          exact ⟨g1, handle_input_overlayAssigned event env w h2, g2, g3⟩
      | frame env =>
          obtain ⟨g1, g2, g3⟩ := render_frame_frame env w
          simp only [step]
          rw [g1, g2]
          exact ⟨h1, g3 h2, h3, h4⟩
      | charging chrg_low mv =>
          simp only [step, updateChargingState_appState, updateChargingState_preview]
          exact ⟨h1, h2, h3, h4⟩
      | voltage mv =>
          simp only [step, updateVoltageState_appState, updateVoltageState_preview]
          exact ⟨h1, h2, h3, h4⟩

/-- `handle_input` changes `brightness_level` only when it confirms the preview:
on `RIGHT_CLICK` in the open `TOOL` sub-menu, outside running content and the
battery overlay. -/
theorem handle_input_brightness (event : KeyEvent) (env : Env) (w : World) :
    (handle_input event env w).appState.brightness_level = w.appState.brightness_level ∨
      (event = .RIGHT_CLICK ∧ w.appState.main_mode = .TOOL ∧ w.appState.in_sub_menu = true ∧
        w.appState.is_game_running = false ∧
        w.appState.overlay_mode ≠ .BATTERY_DISPLAY ∧
        (handle_input event env w).appState.brightness_level =
          w.preview_brightness_level) := by
  obtain ⟨⟨mm, am, pm, gm, lm, nm, tm, om, sub, run, bl⟩, t0, snap, pv, eb, ew, fl, lvl, cs,
    met, g⟩ := w
  by_cases ho : om = .BATTERY_DISPLAY
  · left
    simp [handle_input, ho]
  · cases mm <;> cases event <;> cases sub <;> cases run <;> cases gm <;>
      simp [handle_input, handle_input_menu, handle_input_running, running_exit,
        running_number_game_input, running_letter_input, running_pic_input,
        running_animation_input, save_brightness_to_eeprom, ho]
    all_goals (split <;> simp)

/-- C25: the brightness `render_frame` applies is the table value (0 -> 30,
1 -> 60, 2 -> 90, 3 -> 160, 4 -> 255) of the preview level when `main_mode` is
`TOOL` and `in_sub_menu` holds, and of the committed `brightness_level` in every
other state, whatever is drawn; and a call of the main loop changes
`brightness_level` only when it is `handle_input` with `RIGHT_CLICK` in the open
`TOOL` sub-menu (not running, overlay not `BATTERY_DISPLAY`), which sets it to
the preview. -/
theorem render_frame_brightness (env : Env) (w : World) :
    (render_frame env w).2.brightness =
        real_brightness
          (if w.appState.main_mode = .TOOL ∧ w.appState.in_sub_menu = true
            then w.preview_brightness_level else w.appState.brightness_level) ∧
      (real_brightness 0 = 30 ∧ real_brightness 1 = 60 ∧ real_brightness 2 = 90 ∧
        real_brightness 3 = 160 ∧ real_brightness 4 = 255) ∧
      (∀ a : Action,
        (step w a).appState.brightness_level = w.appState.brightness_level ∨
          ((∃ e, a = .key .RIGHT_CLICK e) ∧ w.appState.main_mode = .TOOL ∧
            w.appState.in_sub_menu = true ∧ w.appState.is_game_running = false ∧
            w.appState.overlay_mode ≠ .BATTERY_DISPLAY ∧
            (step w a).appState.brightness_level = w.preview_brightness_level)) := by
  refine ⟨?_, by decide, ?_⟩
  · show real_brightness (level_to_render (render_frame env w).1) = _
    rw [level_to_render_render_frame]
    rfl
  · intro a
    cases a with
    | key event e =>
        rcases handle_input_brightness event e w with h | ⟨h1, h2, h3, h4, h5, h6⟩
        · exact Or.inl h
        · subst h1
          exact Or.inr ⟨⟨e, rfl⟩, h2, h3, h4, h5, h6⟩
    | frame e =>
        left
        simp only [step]
        rw [(render_frame_frame e w).1]
    | charging chrg_low mv =>
        left
        simp only [step, updateChargingState_appState]
    | voltage mv =>
        left
        simp only [step, updateVoltageState_appState]

/-- The dispatch of `render_frame` invokes exactly the renderer of the stated
rule in every state that satisfies the navigation invariant and has an
`overlay_mode` the program assigns. -/
theorem render_frame_dispatch_selected (env : Env) (w : World)
    (h1 : navInvariant w.appState) (h2 : overlayAssigned w.appState.overlay_mode) :
    ∃ r, (render_frame_dispatch env w).2 = [r] ∧ selectedRenderer w.appState = some r ∧
      (r.isOverlay = true ↔ w.appState.overlay_mode ≠ .NONE) := by
  obtain ⟨⟨mm, am, pm, gm, lm, nm, tm, om, sub, run, bl⟩, t0, snap, pv, eb, ew, fl, lvl, cs,
    met, g⟩ := w
  cases om <;> cases run <;> cases sub <;> cases mm <;>
    simp [navInvariant, overlayAssigned, render_frame_dispatch, render_frame_content,
      selectedRenderer, Renderer.isOverlay] at h1 h2 ⊢
  all_goals (cases am <;> simp [Renderer.isOverlay])

/-- C26: in every reachable state `render_frame` invokes exactly one renderer,
the one the rule selects for the state it returns (whose `overlay_mode` is the
one after the overlay transitions of the frame): the overlay renderer matching
`overlay_mode` when that is not `NONE`, otherwise the content renderer of the
running content, otherwise the sub-menu icon, otherwise the main-menu icon; it
is an overlay renderer exactly when `overlay_mode` is not `NONE`. -/
theorem render_frame_one_renderer (env : Env) (w : World) (h : Reachable w) :
    ∃ r, (render_frame env w).2.calls = [r] ∧
      selectedRenderer (render_frame env w).1.appState = some r ∧
      (r.isOverlay = true ↔ (render_frame env w).1.appState.overlay_mode ≠ .NONE) := by
  obtain ⟨h1, h2, _, _⟩ := reachable_invariants _ (Reachable.step (.frame env) h)
  simp only [step] at h1 h2
  have ha : (render_frame env w).1.appState = (render_frame_overlay env w).appState := by
    unfold render_frame
    simp only [render_frame_dispatch_appState]
  rw [ha] at h1 h2 ⊢
  exact render_frame_dispatch_selected env (render_frame_overlay env w) h1 h2

/-- The instance of C26 at the state at program start: one renderer, the
main-menu icon. -/
theorem render_frame_one_renderer_witness :
    ∃ r, (render_frame (envAt 5) (initWorld 255)).2.calls = [r] ∧
      selectedRenderer (render_frame (envAt 5) (initWorld 255)).1.appState = some r ∧
      (r.isOverlay = true ↔
        (render_frame (envAt 5) (initWorld 255)).1.appState.overlay_mode ≠ .NONE) :=
  render_frame_one_renderer (envAt 5) (initWorld 255) (Reachable.init 255)

/-- How the two single-button blocks change the long-press flags: a flag is
set only in the poll that returns the long-press event of its button, held with
more than `LONG_PRESS_TIME` elapsed since its down time; it is cleared only by
the press-down transition of its button, and always by it when the block of
the button is reached. -/
theorem single_key_logic_flags (p : Poll) (k : Keys) :
    (k.left_key_long_press_fired = false →
      (single_key_logic p k).2.left_key_long_press_fired = true →
      p.left_key_pressed = true ∧ k.left_key_down_time ≠ 0 ∧
        ulsub p.millis k.left_key_down_time > LONG_PRESS_TIME ∧
        (single_key_logic p k).1 = .LEFT_LONG_PRESS) ∧
    (k.left_key_long_press_fired = true →
      (single_key_logic p k).2.left_key_long_press_fired = false →
      p.left_key_pressed = true ∧ k.left_key_down_time = 0) ∧
    (p.left_key_pressed = true → k.left_key_down_time = 0 →
      (single_key_logic p k).2.left_key_long_press_fired = false) ∧
    (k.right_key_long_press_fired = false →
      (single_key_logic p k).2.right_key_long_press_fired = true →
      p.right_key_pressed = true ∧ k.right_key_down_time ≠ 0 ∧
        ulsub p.millis k.right_key_down_time > LONG_PRESS_TIME ∧
        (single_key_logic p k).1 = .RIGHT_LONG_PRESS) ∧
    (k.right_key_long_press_fired = true →
      (single_key_logic p k).2.right_key_long_press_fired = false →
      p.right_key_pressed = true ∧ k.right_key_down_time = 0) ∧
    (p.right_key_pressed = true → k.right_key_down_time = 0 →
      (single_key_logic p k).1 ≠ .LEFT_CLICK → (single_key_logic p k).1 ≠ .LEFT_LONG_PRESS →
      (single_key_logic p k).2.right_key_long_press_fired = false) := by
  obtain ⟨l, r, t, db, ls⟩ := p
  obtain ⟨ld, rd, lf, rf⟩ := k
  cases l <;> cases r
  · cases lf <;> cases rf <;> by_cases h1 : ld = 0 <;> by_cases h2 : rd = 0 <;>
      by_cases h3 : DEBOUNCE_TIME < ulsub t ld <;>
      by_cases h4 : DEBOUNCE_TIME < ulsub t rd <;>
      simp [single_key_logic, left_key_logic, right_key_logic, Nat.pos_iff_ne_zero, *]
  · cases lf <;> cases rf <;> by_cases h1 : ld = 0 <;> by_cases h2 : rd = 0 <;>
      by_cases h3 : DEBOUNCE_TIME < ulsub t ld <;>
      by_cases h4 : LONG_PRESS_TIME < ulsub t rd <;>
      simp [single_key_logic, left_key_logic, right_key_logic, Nat.pos_iff_ne_zero, *]
  · cases lf <;> cases rf <;> by_cases h1 : ld = 0 <;> by_cases h2 : rd = 0 <;>
      by_cases h3 : LONG_PRESS_TIME < ulsub t ld <;>
      by_cases h4 : DEBOUNCE_TIME < ulsub t rd <;>
      simp [single_key_logic, left_key_logic, right_key_logic, Nat.pos_iff_ne_zero, *]
  · cases lf <;> cases rf <;> by_cases h1 : ld = 0 <;> by_cases h2 : rd = 0 <;>
      by_cases h3 : LONG_PRESS_TIME < ulsub t ld <;>
      by_cases h4 : LONG_PRESS_TIME < ulsub t rd <;>
      simp [single_key_logic, left_key_logic, right_key_logic, Nat.pos_iff_ne_zero, *]

/-- What a call of `read_key_event` that returns gives: on the chord path
`BOTH_PRESS` and the key driver as it was, outside it the result of the two
single-button blocks. -/
theorem read_key_event_result (p : Poll) (k : Keys) (r : KeyResult)
    (h : read_key_event p k = some r) :
    (chordConfirmed p = true ∧ r.event = .BOTH_PRESS ∧ r.keys = k) ∨
      (chordConfirmed p = false ∧ r.event = (single_key_logic p k).1 ∧
        r.keys = (single_key_logic p k).2) := by
  cases hc : chordConfirmed p
  · right
    obtain ⟨s, hs⟩ := read_key_event_of_not_chord p k hc
    rw [hs] at h
    cases h
    exact ⟨rfl, rfl, rfl⟩
  · left
    unfold chordConfirmed at hc
    simp only [Bool.and_eq_true] at hc
    unfold read_key_event at h
    rw [if_pos hc.1, if_pos hc.2] at h
    cases hw : waitRelease p.loop_samples with
    | none => simp [hw] at h
    | some s =>
        simp only [hw, Option.some.injEq] at h
        subst h
        exact ⟨rfl, rfl, rfl⟩

/-- C27, as stated, fails: after a left hold of 900 ms has fired its long-press
and the button is released, the flag of the left button is still true while the
button is not held; the next press clears it. -/
theorem long_press_flag_counterexample :
    (read_key_events keysInit
        [pollAt true false 100, pollAt true false 1000, pollAt false false 1100,
          pollAt false false 1200]).map
        (fun r => (r.1, r.2.left_key_down_time, r.2.left_key_long_press_fired)) =
      some ([.NO_EVENT, .LEFT_LONG_PRESS, .NO_EVENT, .NO_EVENT], 0, true) ∧
    (read_key_events keysInit
        [pollAt true false 100, pollAt true false 1000, pollAt false false 1100,
          pollAt true false 1300]).map
        (fun r => r.2.left_key_long_press_fired) = some false := by
  decide

/-- C27, amended: in a call of `read_key_event` that returns, the long-press
flag of a button is set only when that button is pressed with more than 800 ms
elapsed since its recorded down time, in the call that returns its long-press
event; it is cleared only by the press-down transition of that button (pressed
with down time 0), and always by it when the block of the button is reached; a
poll that sees the button released leaves the flag as it was, so the flag stays
true after a fired hold until the next press. -/
theorem long_press_flag_transitions (p : Poll) (k : Keys) (r : KeyResult)
    (h : read_key_event p k = some r) :
    (k.left_key_long_press_fired = false → r.keys.left_key_long_press_fired = true →
      p.left_key_pressed = true ∧ k.left_key_down_time ≠ 0 ∧
        ulsub p.millis k.left_key_down_time > LONG_PRESS_TIME ∧
        r.event = .LEFT_LONG_PRESS) ∧
    (k.left_key_long_press_fired = true → r.keys.left_key_long_press_fired = false →
      p.left_key_pressed = true ∧ k.left_key_down_time = 0) ∧
    (p.left_key_pressed = true → k.left_key_down_time = 0 → r.event ≠ .BOTH_PRESS →
      r.keys.left_key_long_press_fired = false) ∧
    (p.left_key_pressed = false →
      r.keys.left_key_long_press_fired = k.left_key_long_press_fired) ∧
    (k.right_key_long_press_fired = false → r.keys.right_key_long_press_fired = true →
      p.right_key_pressed = true ∧ k.right_key_down_time ≠ 0 ∧
        ulsub p.millis k.right_key_down_time > LONG_PRESS_TIME ∧
        r.event = .RIGHT_LONG_PRESS) ∧
    (k.right_key_long_press_fired = true → r.keys.right_key_long_press_fired = false →
      p.right_key_pressed = true ∧ k.right_key_down_time = 0) ∧
    (p.right_key_pressed = true → k.right_key_down_time = 0 → r.event ≠ .BOTH_PRESS →
      r.event ≠ .LEFT_CLICK → r.event ≠ .LEFT_LONG_PRESS →
      r.keys.right_key_long_press_fired = false) ∧
    (p.right_key_pressed = false →
      r.keys.right_key_long_press_fired = k.right_key_long_press_fired) := by
  rcases read_key_event_result p k r h with ⟨_, he, hk⟩ | ⟨_, he, hk⟩
  · rw [hk, he]
    refine ⟨?_, ?_, ?_, ?_, ?_, ?_, ?_, ?_⟩
    · intro h1 h2
      rw [h1] at h2
      exact absurd h2 (by decide)
    · intro h1 h2
      rw [h1] at h2
      exact absurd h2 (by decide)
    · intro _ _ h3
      exact absurd rfl h3
    · intro _
      rfl
    · intro h1 h2
      rw [h1] at h2
      exact absurd h2 (by decide)
    · intro h1 h2
      rw [h1] at h2
      exact absurd h2 (by decide)
    · intro _ _ h3
      exact absurd rfl h3
    · intro _
      rfl
  · obtain ⟨a1, a2, a3, b1, b2, b3⟩ := single_key_logic_flags p k
    rw [hk, he]
    refine ⟨a1, a2, fun h1 h2 _ => a3 h1 h2, ?_, b1, b2, fun h1 h2 _ h3 h4 => b3 h1 h2 h3 h4, ?_⟩
    · intro hp
      cases hf : k.left_key_long_press_fired <;>
        cases hg : (single_key_logic p k).2.left_key_long_press_fired
      · rfl
      · have := (a1 hf hg).1
        rw [hp] at this
        exact absurd this (by decide)
      · have := (a2 hf hg).1
        rw [hp] at this
        exact absurd this (by decide)
      · rfl
    · intro hp
      cases hf : k.right_key_long_press_fired <;>
        cases hg : (single_key_logic p k).2.right_key_long_press_fired
      · rfl
      · have := (b1 hf hg).1
        rw [hp] at this
        exact absurd this (by decide)
      · have := (b2 hf hg).1
        rw [hp] at this
        exact absurd this (by decide)
      · rfl

/-- The instance of amended C27 at the poll that sees the left button released
after a fired hold: the flag stays true. -/
theorem long_press_flag_transitions_witness :
    read_key_event (pollAt false false 1100)
        { keysInit with left_key_down_time := 100, left_key_long_press_fired := true } =
      some { event := .NO_EVENT,
             keys := { keysInit with left_key_long_press_fired := true },
             last_read := (false, false) } ∧
      ({ keysInit with left_key_long_press_fired := true } : Keys).left_key_long_press_fired =
        ({ keysInit with left_key_down_time := 100,
                         left_key_long_press_fired := true } : Keys).left_key_long_press_fired :=
  ⟨by decide,
    (long_press_flag_transitions (pollAt false false 1100)
      { keysInit with left_key_down_time := 100, left_key_long_press_fired := true }
      { event := .NO_EVENT, keys := { keysInit with left_key_long_press_fired := true },
        last_read := (false, false) } (by decide)).2.2.2.1 (by decide)⟩

/-- C28: in every reachable state `main_mode` is one of the six modes
`ANIMATION` .. `TOOL`, every sub-mode selector is within its range, an open
sub-menu is on `GAME` or `TOOL`, running content is not on `TOOL`, and a running
game has `in_sub_menu` set. -/
theorem reachable_navigation (w : World) (h : Reachable w) :
    w.appState.main_mode ≠ .SYSTEM_OVERLAY ∧ w.appState.main_mode.toNat < 6 ∧
      w.appState.anim_mode.toNat < 4 ∧ w.appState.pic_mode.toNat < 6 ∧
      w.appState.game_mode.toNat < 3 ∧ w.appState.letter_mode.toNat < 26 ∧
      w.appState.number_mode.toNat < 10 ∧
      (w.appState.in_sub_menu = true →
        w.appState.main_mode = .GAME ∨ w.appState.main_mode = .TOOL) ∧
      (w.appState.is_game_running = true → w.appState.main_mode ≠ .TOOL) ∧
      (w.appState.is_game_running = true → w.appState.main_mode = .GAME →
        w.appState.in_sub_menu = true) := by
  obtain ⟨⟨h1, h2, h3, h4⟩, _, _, _⟩ := reachable_invariants w h
  refine ⟨h1, ?_, ?_, ?_, ?_, ?_, ?_, h2, h3, h4⟩
  · revert h1
    cases w.appState.main_mode <;> simp [MainMode.toNat]
  · cases w.appState.anim_mode <;> simp [AnimMode.toNat]
  · cases w.appState.pic_mode <;> simp [PicMode.toNat]
  · cases w.appState.game_mode <;> simp [GameMode.toNat]
  · cases w.appState.letter_mode <;> simp [LetterMode.toNat]
  · cases w.appState.number_mode <;> simp [NumberMode.toNat]

/-- The instance of C28 at the state in which Pinball runs. -/
theorem reachable_navigation_witness :
    gameRunning.appState.main_mode ≠ .SYSTEM_OVERLAY ∧
      (gameRunning.appState.is_game_running = true → gameRunning.appState.main_mode = .GAME →
        gameRunning.appState.in_sub_menu = true) :=
  have h := reachable_navigation gameRunning
    (Reachable.step (.key .RIGHT_CLICK (envAt 40))
      (Reachable.step (.key .RIGHT_CLICK (envAt 30))
        (Reachable.step (.key .LEFT_CLICK (envAt 20))
          (Reachable.step (.key .LEFT_CLICK (envAt 10)) (Reachable.init 255)))))
  ⟨h.1, h.2.2.2.2.2.2.2.2.2⟩

/-- C29: in every reachable state `brightness_level` and the brightness preview
are in 0..4, so the level `render_frame` renders with is in 0..4, the brightness
it applies is one of the five table values, not the default, and the table is
strictly increasing in the level. -/
theorem reachable_brightness (env : Env) (w : World) (h : Reachable w) :
    w.appState.brightness_level ≤ 4 ∧ w.preview_brightness_level ≤ 4 ∧
      level_to_render (render_frame env w).1 ≤ 4 ∧
      (render_frame env w).2.brightness =
        [30, 60, 90, 160, 255].getD (level_to_render (render_frame env w).1) 0 ∧
      (∀ a b : Nat, a < b → b ≤ 4 → real_brightness a < real_brightness b) := by
  obtain ⟨_, _, h3, h4⟩ := reachable_invariants w h
  have h5 : level_to_render w ≤ 4 := by
    unfold level_to_render
    split
    · exact h4
    · exact h3
  have h6 : level_to_render (render_frame env w).1 ≤ 4 := by
    rw [level_to_render_render_frame]
    exact h5
  refine ⟨h3, h4, h6, ?_, ?_⟩
  · show real_brightness (level_to_render (render_frame env w).1) = _
    generalize level_to_render (render_frame env w).1 = n at h6
    interval_cases n <;> rfl
  · intro a b hab hb
    interval_cases b <;> interval_cases a <;> simp [real_brightness]

/-- The instance of C29 at the state reached by loading the invalid stored
byte 7: level 2 and brightness 90. -/
theorem reachable_brightness_witness :
    (load_brightness_from_eeprom (initWorld 7)).appState.brightness_level ≤ 4 ∧
      (render_frame (envAt 5) (load_brightness_from_eeprom (initWorld 7))).2.brightness =
        [30, 60, 90, 160, 255].getD
          (level_to_render
            (render_frame (envAt 5) (load_brightness_from_eeprom (initWorld 7))).1) 0 :=
  have h := reachable_brightness (envAt 5) (load_brightness_from_eeprom (initWorld 7))
    (Reachable.load (Reachable.init 7))
  ⟨h.1, h.2.2.2.1⟩

/-- The lowest bit of a shifted word, as the source reads a cell, is the bit
of the word. -/
theorem shiftRight_and_one (w j : Nat) : (w >>> j) &&& 1 = if w.testBit j then 1 else 0 := by
  rw [Nat.and_one_is_mod, Nat.shiftRight_eq_div_pow, Nat.testBit_to_div_mod]
  by_cases h : w / 2 ^ j % 2 = 1
  · simp [h]
  · have h0 : w / 2 ^ j % 2 = 0 := by omega
    simp [h0]

/-- The cell `getCellStateXY` reads is the cell of the grid at that place, and
dead outside the grid. -/
theorem getCellStateXY_eq (w0 w1 : Nat) (a b : Int) :
    getCellStateXY w0 w1 a b =
      if (inGrid a b && lifeCell w0 w1 a.toNat b.toNat) = true then 1 else 0 := by
  unfold getCellStateXY inGrid
  by_cases hg : 0 ≤ a ∧ a < 8 ∧ 0 ≤ b ∧ b < 8
  · obtain ⟨ha0, ha8, hb0, hb8⟩ := hg
    lift a to ℕ using ha0
    lift b to ℕ using hb0
    have ha : a < 8 := by omega
    have hb : b < 8 := by omega
    have hc : ¬ ((a : Int) < 0 ∨ (a : Int) ≥ 8 ∨ (b : Int) < 0 ∨ (b : Int) ≥ 8) := by omega
    rw [if_neg hc]
    have hd : (0 ≤ (a : Int) ∧ (a : Int) < 8 ∧ 0 ≤ (b : Int) ∧ (b : Int) < 8) := by omega
    simp only [hd, decide_True, Bool.true_and, Int.toNat_ofNat, and_self]
    unfold getCellState lifeCell
    have hi : ¬ (((b : Int) * 8 + (a : Int)) < 0 ∨ ((b : Int) * 8 + (a : Int)) ≥ 64) := by omega
    rw [if_neg hi]
    have hn : ((b : Int) * 8 + (a : Int)) = ((b * 8 + a : Nat) : Int) := by push_cast; ring
    by_cases h32 : b * 8 + a < 32
    · have h1 : ((b : Int) * 8 + (a : Int)) < 32 := by omega
      have h2 : (b * 8 + a) / 32 = 0 := by omega
      have h3 : (b * 8 + a) % 32 = b * 8 + a := by omega
      rw [if_pos h1, if_pos h2, h3, hn, Int.toNat_ofNat, shiftRight_and_one]
    · have h1 : ¬ ((b : Int) * 8 + (a : Int)) < 32 := by omega
      have h2 : ¬ (b * 8 + a) / 32 = 0 := by omega
      have h3 : (b * 8 + a) % 32 = b * 8 + a - 32 := by omega
      have h4 : (((b : Int) * 8 + (a : Int)) - 32).toNat = b * 8 + a - 32 := by omega
      rw [if_neg h1, if_neg h2, h3, h4, shiftRight_and_one]
  · have hc : (a < 0 ∨ a ≥ 8 ∨ b < 0 ∨ b ≥ 8) := by omega
    rw [if_pos hc]
    simp [hg]

/-- The neighbour count of the source is the number of live neighbours inside
the grid. -/
theorem countNeighbors_eq (w0 w1 x y : Nat) :
    countNeighbors w0 w1 x y = liveNeighbours w0 w1 x y := by
  unfold countNeighbors liveNeighbours neighbourOffsets
  simp only [List.foldl, getCellStateXY_eq, List.countP_cons, List.countP_nil]
  simp
  omega

/-- The cell the source reads by its index is the cell of the grid. -/
theorem getCellState_eq (w0 w1 x y : Nat) (hx : x < 8) (hy : y < 8) :
    getCellState w0 w1 ((y * 8 + x : Nat) : Int) = if lifeCell w0 w1 x y = true then 1 else 0 := by
  have h := getCellStateXY_eq w0 w1 (x : Int) (y : Int)
  unfold getCellStateXY inGrid at h
  have hc : ¬ ((x : Int) < 0 ∨ (x : Int) ≥ 8 ∨ (y : Int) < 0 ∨ (y : Int) ≥ 8) := by omega
  have hd : (0 ≤ (x : Int) ∧ (x : Int) < 8 ∧ 0 ≤ (y : Int) ∧ (y : Int) < 8) := by omega
  rw [if_neg hc] at h
  simp only [hd, decide_True, Bool.true_and, Int.toNat_ofNat, and_self] at h
  rw [← h]
  congr 1

/-- One step of the loops of `computeNextGeneration`: the cell `(x, y)` of the
new world is set when Conway's rules on the old world make it alive, and no
other cell changes. -/
theorem nextCell_cell (w0 w1 : Nat) (next : Nat × Nat) (x y a b : Nat)
    (hx : x < 8) (hy : y < 8) (ha : a < 8) (hb : b < 8) :
    lifeCell (nextCell w0 w1 next x y).1 (nextCell w0 w1 next x y).2 a b =
      (lifeCell next.1 next.2 a b || (decide (a = x ∧ b = y) && conwayNext w0 w1 x y)) := by
  have hrule : (if getCellState w0 w1 ((y * 8 + x : Nat) : Int) = 1 ∧
        (countNeighbors w0 w1 x y = 2 ∨ countNeighbors w0 w1 x y = 3) then true
      else if getCellState w0 w1 ((y * 8 + x : Nat) : Int) = 0 ∧
        countNeighbors w0 w1 x y = 3 then true else false) = conwayNext w0 w1 x y := by
    rw [getCellState_eq w0 w1 x y hx hy, countNeighbors_eq]
    unfold conwayNext
    cases lifeCell w0 w1 x y <;> simp
  unfold nextCell
  simp only [hrule]
  cases hcw : conwayNext w0 w1 x y
  · simp
  · simp only [if_true, Bool.and_true]
    unfold lifeCell
    by_cases h32 : y * 8 + x < 32
    · rw [if_pos h32]
      by_cases h32b : b * 8 + a < 32
      · have h1 : (b * 8 + a) / 32 = 0 := by omega
        have h2 : (b * 8 + a) % 32 = b * 8 + a := by omega
        simp only [h1, if_true, h2, Nat.testBit_or, Nat.one_shiftLeft, Nat.testBit_two_pow]
        congr 1
        apply decide_eq_decide.mpr
        omega
      · have h1 : ¬ (b * 8 + a) / 32 = 0 := by omega
        simp only [h1, if_false]
        have : decide (a = x ∧ b = y) = false := by
          apply decide_eq_false
          omega
        rw [this, Bool.or_false]
    · rw [if_neg h32]
      by_cases h32b : b * 8 + a < 32
      · have h1 : (b * 8 + a) / 32 = 0 := by omega
        simp only [h1, if_true]
        have : decide (a = x ∧ b = y) = false := by
          apply decide_eq_false
          omega
        rw [this, Bool.or_false]
      · have h1 : ¬ (b * 8 + a) / 32 = 0 := by omega
        have h2 : (b * 8 + a) % 32 = b * 8 + a - 32 := by omega
        simp only [h1, if_false, h2, Nat.testBit_or, Nat.one_shiftLeft, Nat.testBit_two_pow]
        congr 1
        apply decide_eq_decide.mpr
        omega

/-- The inner loop of `computeNextGeneration` over the rows `ys` of column
`x`. -/
theorem nextCell_rows (w0 w1 : Nat) (x a b : Nat) (hx : x < 8) (ha : a < 8) (hb : b < 8)
    (ys : List Nat) (hys : ∀ y ∈ ys, y < 8) (next : Nat × Nat) :
    lifeCell (ys.foldl (fun n y => nextCell w0 w1 n x y) next).1
        (ys.foldl (fun n y => nextCell w0 w1 n x y) next).2 a b =
      (lifeCell next.1 next.2 a b ||
        ys.any (fun y => decide (a = x ∧ b = y) && conwayNext w0 w1 x y)) := by
  induction ys generalizing next with
  | nil => simp
  | cons y ys ih =>
      have hy : y < 8 := hys y (List.mem_cons_self y ys)
      rw [List.foldl_cons, ih (fun z hz => hys z (List.mem_cons_of_mem y hz)),
        nextCell_cell w0 w1 next x y a b hx hy ha hb, List.any_cons, Bool.or_assoc]

/-- The outer loop of `computeNextGeneration` over the columns `xs`. -/
theorem nextCell_columns (w0 w1 : Nat) (a b : Nat) (ha : a < 8) (hb : b < 8)
    (xs : List Nat) (hxs : ∀ x ∈ xs, x < 8) (next : Nat × Nat) :
    lifeCell
        (xs.foldl (fun n x => (List.range 8).foldl (fun n y => nextCell w0 w1 n x y) n) next).1
        (xs.foldl (fun n x => (List.range 8).foldl (fun n y => nextCell w0 w1 n x y) n) next).2
        a b =
      (lifeCell next.1 next.2 a b ||
        xs.any (fun x =>
          (List.range 8).any (fun y => decide (a = x ∧ b = y) && conwayNext w0 w1 x y))) := by
  induction xs generalizing next with
  | nil => simp
  | cons x xs ih =>
      have hx : x < 8 := hxs x (List.mem_cons_self x xs)
      rw [List.foldl_cons, ih (fun z hz => hxs z (List.mem_cons_of_mem x hz)),
        nextCell_rows w0 w1 x a b hx ha hb (List.range 8)
          (fun y hy => List.mem_range.mp hy) next,
        List.any_cons, Bool.or_assoc]

/-- C30: `computeNextGeneration` applies Conway's rules on the 8x8 grid, the
cells outside the grid counted as dead: for every world and every cell
`(x, y)` with `x, y < 8`, the cell is alive in the new world exactly when, in
the old world, it was alive with 2 or 3 live neighbours or dead with exactly 3,
the cell `(x, y)` being bit `(y * 8 + x) % 32` of word `(y * 8 + x) / 32`, the
bit `getCellState` reads. -/
theorem computeNextGeneration_conway (w0 w1 x y : Nat) (hx : x < 8) (hy : y < 8) :
    lifeCell (computeNextGeneration w0 w1).1 (computeNextGeneration w0 w1).2 x y =
        conwayNext w0 w1 x y ∧
      getCellState w0 w1 ((y * 8 + x : Nat) : Int) =
        (if lifeCell w0 w1 x y = true then 1 else 0) ∧
      countNeighbors w0 w1 x y = liveNeighbours w0 w1 x y := by
  refine ⟨?_, getCellState_eq w0 w1 x y hx hy, countNeighbors_eq w0 w1 x y⟩
  unfold computeNextGeneration
  rw [nextCell_columns w0 w1 x y hx hy (List.range 8) (fun z hz => List.mem_range.mp hz) (0, 0)]
  have h0 : lifeCell (0, 0).1 (0, 0).2 x y = false := by
    unfold lifeCell
    split <;> exact Nat.zero_testBit _
  rw [h0, Bool.false_or]
  cases hc : conwayNext w0 w1 x y
  · rw [Bool.eq_false_iff]
    intro h
    rw [List.any_eq_true] at h
    obtain ⟨x1, _, h⟩ := h
    rw [List.any_eq_true] at h
    obtain ⟨y1, _, h⟩ := h
    simp only [Bool.and_eq_true, decide_eq_true_eq] at h
    obtain ⟨⟨rfl, rfl⟩, h⟩ := h
    rw [hc] at h
    exact absurd h (by decide)
  · rw [List.any_eq_true]
    refine ⟨x, List.mem_range.mpr hx, ?_⟩
    rw [List.any_eq_true]
    refine ⟨y, List.mem_range.mpr hy, ?_⟩
    simp [hc]

/-- The instance of C30 at the world with the three cells (0, 0), (1, 0) and
(2, 0) alive, for the cell (1, 1). -/
theorem computeNextGeneration_conway_witness :
    lifeCell (computeNextGeneration 7 0).1 (computeNextGeneration 7 0).2 1 1 =
      conwayNext 7 0 1 1 :=
  (computeNextGeneration_conway 7 0 1 1 (by decide) (by decide)).1

/-- One draw of `initGameOfLife` makes the drawn cell alive and changes no
other cell. -/
theorem seedStep_cell (env : Env) (wd : Nat × Nat) (i a b : Nat) (ha : a < 8) (hb : b < 8) :
    lifeCell (seedStep env wd i).1 (seedStep env wd i).2 a b =
      (lifeCell wd.1 wd.2 a b || decide (env.random i % 64 = b * 8 + a)) := by
  have hr : env.random i % 64 < 64 := Nat.mod_lt _ (by decide)
  unfold seedStep lifeCell
  generalize env.random i % 64 = n at hr ⊢
  by_cases h32 : n < 32
  · rw [if_pos h32]
    by_cases h32b : b * 8 + a < 32
    · have h1 : (b * 8 + a) / 32 = 0 := by omega
      have h2 : (b * 8 + a) % 32 = b * 8 + a := by omega
      simp only [h1, if_true, h2, Nat.testBit_or, Nat.one_shiftLeft, Nat.testBit_two_pow]
    · have h1 : ¬ (b * 8 + a) / 32 = 0 := by omega
      simp only [h1, if_false]
      have : decide (n = b * 8 + a) = false := by
        apply decide_eq_false
        omega
      rw [this, Bool.or_false]
  · rw [if_neg h32]
    by_cases h32b : b * 8 + a < 32
    · have h1 : (b * 8 + a) / 32 = 0 := by omega
      simp only [h1, if_true]
      have : decide (n = b * 8 + a) = false := by
        apply decide_eq_false
        omega
      rw [this, Bool.or_false]
    · have h1 : ¬ (b * 8 + a) / 32 = 0 := by omega
      have h2 : (b * 8 + a) % 32 = b * 8 + a - 32 := by omega
      simp only [h1, if_false, h2, Nat.testBit_or, Nat.one_shiftLeft, Nat.testBit_two_pow]
      congr 1
      apply decide_eq_decide.mpr
      omega

/-- One draw of `initGameOfLife` keeps both words of the world 32-bit
values. -/
theorem seedStep_lt (env : Env) (wd : Nat × Nat) (i : Nat)
    (h : wd.1 < 2 ^ 32 ∧ wd.2 < 2 ^ 32) :
    (seedStep env wd i).1 < 2 ^ 32 ∧ (seedStep env wd i).2 < 2 ^ 32 := by
  have hr : env.random i % 64 < 64 := Nat.mod_lt _ (by decide)
  unfold seedStep
  generalize env.random i % 64 = n at hr ⊢
  by_cases h32 : n < 32
  · rw [if_pos h32]
    refine ⟨Nat.or_lt_two_pow h.1 ?_, h.2⟩
    rw [Nat.one_shiftLeft]
    exact Nat.pow_lt_pow_right (by decide) h32
  · rw [if_neg h32]
    refine ⟨h.1, Nat.or_lt_two_pow h.2 ?_⟩
    rw [Nat.one_shiftLeft]
    exact Nat.pow_lt_pow_right (by decide) (by omega)

/-- After the draws `is` a cell is alive when it was alive before or one of
the draws is its index. -/
theorem seedStep_foldl (env : Env) (a b : Nat) (ha : a < 8) (hb : b < 8) (is : List Nat)
    (wd : Nat × Nat) :
    lifeCell (is.foldl (seedStep env) wd).1 (is.foldl (seedStep env) wd).2 a b =
      (lifeCell wd.1 wd.2 a b || is.any (fun i => decide (env.random i % 64 = b * 8 + a))) := by
  induction is generalizing wd with
  | nil => simp
  | cons i is ih =>
      rw [List.foldl_cons, ih, seedStep_cell env wd i a b ha hb, List.any_cons, Bool.or_assoc]

/-- The draws keep both words of the world 32-bit values. -/
theorem seedStep_foldl_lt (env : Env) (is : List Nat) (wd : Nat × Nat)
    (h : wd.1 < 2 ^ 32 ∧ wd.2 < 2 ^ 32) :
    (is.foldl (seedStep env) wd).1 < 2 ^ 32 ∧ (is.foldl (seedStep env) wd).2 < 2 ^ 32 := by
  induction is generalizing wd with
  | nil => exact h
  | cons i is ih =>
      rw [List.foldl_cons]
      exact ih _ (seedStep_lt env wd i h)

/-- The loop of `initGameOfLife` is the iteration of `seedStep` from the empty
world. -/
theorem initGameOfLife_eq (env : Env) (g : Life) :
    initGameOfLife env g =
      { g with life_world0 := ((List.range 12).foldl (seedStep env) (0, 0)).1,
               life_world1 := ((List.range 12).foldl (seedStep env) (0, 0)).2 } := rfl

/-- What `initGameOfLife` seeds: the alive cells are exactly the cells drawn,
both words are 32-bit values, the cell of the first draw is alive, and the
update time is kept. -/
theorem initGameOfLife_seed (env : Env) (g : Life) :
    (initGameOfLife env g).gol_last_update_time = g.gol_last_update_time ∧
      (∀ x y, x < 8 → y < 8 →
        lifeCell (initGameOfLife env g).life_world0 (initGameOfLife env g).life_world1 x y =
          seededCell env x y) ∧
      ((initGameOfLife env g).life_world0 < 2 ^ 32 ∧
        (initGameOfLife env g).life_world1 < 2 ^ 32) ∧
      seededCell env (env.random 0 % 64 % 8) (env.random 0 % 64 / 8) = true := by
  rw [initGameOfLife_eq]
  refine ⟨rfl, ?_, seedStep_foldl_lt env _ _ (by decide), ?_⟩
  · intro x y hx hy
    simp only []
    rw [seedStep_foldl env x y hx hy]
    have h0 : lifeCell (0, 0).1 (0, 0).2 x y = false := by
      unfold lifeCell
      split <;> exact Nat.zero_testBit _
    rw [h0, Bool.false_or]
    rfl
  · unfold seededCell
    rw [List.any_eq_true]
    refine ⟨0, by decide, ?_⟩
    simp only [decide_eq_true_eq]
    omega

/-- C31: one call of `updateAndRenderGameOfLife` with more than 200 ms elapsed
since the last evolution records the clock and evolves one generation. When
the new generation is all dead or equal to the previous one the world is
re-seeded: the result is the state `initGameOfLife` leaves, in which the cells
alive are exactly the cells of the 12 draws of `random(64)` (so at least one
cell is alive, the cell of the first draw) and both words are 32-bit values.
Otherwise the world is exactly `computeNextGeneration` of the previous world.
With at most 200 ms elapsed the state is unchanged. -/
theorem updateAndRenderGameOfLife_spec (env : Env) (g : Life) :
    (ulsub env.millis g.gol_last_update_time > 200 →
      (computeNextGeneration g.life_world0 g.life_world1 = (0, 0) ∨
        computeNextGeneration g.life_world0 g.life_world1 = (g.life_world0, g.life_world1) →
        updateAndRenderGameOfLife env g =
          initGameOfLife env { g with gol_last_update_time := env.millis } ∧
        (updateAndRenderGameOfLife env g).gol_last_update_time = env.millis ∧
        (∀ x y, x < 8 → y < 8 →
          lifeCell (updateAndRenderGameOfLife env g).life_world0
            (updateAndRenderGameOfLife env g).life_world1 x y = seededCell env x y) ∧
        ((updateAndRenderGameOfLife env g).life_world0 < 2 ^ 32 ∧
          (updateAndRenderGameOfLife env g).life_world1 < 2 ^ 32) ∧
        ∃ x y, x < 8 ∧ y < 8 ∧
          lifeCell (updateAndRenderGameOfLife env g).life_world0
            (updateAndRenderGameOfLife env g).life_world1 x y = true) ∧
      (¬ (computeNextGeneration g.life_world0 g.life_world1 = (0, 0) ∨
          computeNextGeneration g.life_world0 g.life_world1 =
            (g.life_world0, g.life_world1)) →
        updateAndRenderGameOfLife env g =
          { life_world0 := (computeNextGeneration g.life_world0 g.life_world1).1,
            life_world1 := (computeNextGeneration g.life_world0 g.life_world1).2,
            gol_last_update_time := env.millis })) ∧
    (ulsub env.millis g.gol_last_update_time ≤ 200 → updateAndRenderGameOfLife env g = g) := by
  obtain ⟨w0, w1, t⟩ := g
  refine ⟨fun h => ⟨fun hc => ?_, fun hc => ?_⟩, fun h => ?_⟩
  · have hc2 : ((computeNextGeneration w0 w1).1 = 0 ∧ (computeNextGeneration w0 w1).2 = 0) ∨
        ((computeNextGeneration w0 w1).1 = w0 ∧ (computeNextGeneration w0 w1).2 = w1) := by
      rcases hc with hc | hc
      · left; rw [hc]; exact ⟨rfl, rfl⟩
      · right; rw [hc]; exact ⟨rfl, rfl⟩
    have he : updateAndRenderGameOfLife env
          { life_world0 := w0, life_world1 := w1, gol_last_update_time := t } =
        initGameOfLife env
          { life_world0 := w0, life_world1 := w1, gol_last_update_time := env.millis } := by
      simp only [updateAndRenderGameOfLife, GOL_UPDATE_INTERVAL]
      rw [if_pos h, if_pos hc2]
      rfl
    obtain ⟨s1, s2, s3, s4⟩ := initGameOfLife_seed env
      { life_world0 := w0, life_world1 := w1, gol_last_update_time := env.millis }
    rw [he]
    refine ⟨rfl, s1, s2, s3, env.random 0 % 64 % 8, env.random 0 % 64 / 8, ?_, ?_, ?_⟩
    · exact Nat.mod_lt _ (by decide)
    · have : env.random 0 % 64 < 64 := Nat.mod_lt _ (by decide)
      omega
    · rw [s2 _ _ (Nat.mod_lt _ (by decide))
        (by have : env.random 0 % 64 < 64 := Nat.mod_lt _ (by decide); omega)]
      exact s4
  · have hc2 : ¬ (((computeNextGeneration w0 w1).1 = 0 ∧ (computeNextGeneration w0 w1).2 = 0) ∨
        ((computeNextGeneration w0 w1).1 = w0 ∧ (computeNextGeneration w0 w1).2 = w1)) := by
      intro h2
      apply hc
      rcases h2 with ⟨h2, h3⟩ | ⟨h2, h3⟩
      · left; exact Prod.ext h2 h3
      · right; exact Prod.ext h2 h3
    simp only [updateAndRenderGameOfLife, GOL_UPDATE_INTERVAL]
    rw [if_pos h, if_neg hc2]
  · simp only [updateAndRenderGameOfLife, GOL_UPDATE_INTERVAL]
    rw [if_neg (Nat.not_lt.mpr h)]

/-- The instances of C31 at the block still life, evolved 300 ms after the last
evolution with the draws 0, 5, .., 55: the new generation equals the old one
and the world is re-seeded with exactly the cells drawn; and at the world with
the cells (0, 0), (1, 0) and (2, 0) alive: the cells (1, 0) and (1, 1) are
alive afterwards. -/
theorem updateAndRenderGameOfLife_spec_witness :
    (ulsub 300 0 > 200 ∧ computeNextGeneration 771 0 = (771, 0) ∧
      updateAndRenderGameOfLife (envRandom 300 5 0) lifeBlock =
        { life_world0 := 1108378657, life_world1 := 8659208, gol_last_update_time := 300 } ∧
      ∀ x y, x < 8 → y < 8 →
        lifeCell (updateAndRenderGameOfLife (envRandom 300 5 0) lifeBlock).life_world0
          (updateAndRenderGameOfLife (envRandom 300 5 0) lifeBlock).life_world1 x y =
            seededCell (envRandom 300 5 0) x y) ∧
      updateAndRenderGameOfLife (envAt 300)
          { life_world0 := 7, life_world1 := 0, gol_last_update_time := 0 } =
        { life_world0 := 514, life_world1 := 0, gol_last_update_time := 300 } :=
  ⟨⟨by decide, by decide,
      (((updateAndRenderGameOfLife_spec (envRandom 300 5 0) lifeBlock).1 (by decide)).1
        (Or.inr (by decide))).1.trans (by decide),
      (((updateAndRenderGameOfLife_spec (envRandom 300 5 0) lifeBlock).1 (by decide)).1
        (Or.inr (by decide))).2.2.1⟩,
    ((updateAndRenderGameOfLife_spec (envAt 300)
      { life_world0 := 7, life_world1 := 0, gol_last_update_time := 0 }).1 (by decide)).2
      (by decide)⟩

/-- The Running invariant of Pinball holds after `pinball_init`. -/
theorem pinball_strong_init (env : Env) (p : Pinball) :
    pinballInvariant (pinball_init env p) ∧ pinballHeading (pinball_init env p) := by
  simp [pinballInvariant, pinballHeading, pinball_init]

/-- The Running invariant of Pinball is kept by `pinball_handle_input`. -/
theorem pinball_strong_input (event : KeyEvent) (env : Env) (p : Pinball)
    (h : p.pinball_state = .PINBALL_RUNNING → pinballInvariant p ∧ pinballHeading p) :
    (pinball_handle_input event env p).pinball_state = .PINBALL_RUNNING →
      pinballInvariant (pinball_handle_input event env p) ∧
        pinballHeading (pinball_handle_input event env p) := by
  obtain ⟨st, bx, bY, vx, vy, pd, gt, gs, hue, got⟩ := p
  cases st
  · intro _
    obtain ⟨⟨h1, h2, h3, h4, h5, h6⟩, h7⟩ := h rfl
    refine ⟨⟨h1, h2, h3, h4, ?_, h6⟩, h7⟩
    simp only [pinball_handle_input, constrain, BOARD_WIDTH, PADDLE_LEN]
    simp only at h5
    cases event <;> simp <;> split_ifs <;> omega
  · cases event <;> simp [pinball_handle_input, pinballInvariant, pinballHeading, pinball_init]

/-- The Running invariant of Pinball is kept by `pinball_update_and_render`. -/
theorem pinball_strong_tick (env : Env) (p : Pinball)
    (h : p.pinball_state = .PINBALL_RUNNING → pinballInvariant p ∧ pinballHeading p) :
    (pinball_update_and_render env p).pinball_state = .PINBALL_RUNNING →
      pinballInvariant (pinball_update_and_render env p) ∧
        pinballHeading (pinball_update_and_render env p) := by
  obtain ⟨st, bx, bY, vx, vy, pd, gt, gs, hue, got⟩ := p
  cases st
  · obtain ⟨⟨h1, h2, h3, h4, h5, h6, h7, h8⟩, h9, h10, h11, h12⟩ := h rfl
    simp only at h1 h2 h3 h4 h5 h6 h7 h8 h9 h10 h11 h12
    by_cases ht : ulsub env.millis gt > toUL gs
    · by_cases hy : bY + vy ≥ 6
      · by_cases hp : bx + vx ≥ pd ∧ bx + vx < pd + 3
        · intro _
          simp only [pinball_update_and_render, pinballInvariant, pinballHeading, BOARD_WIDTH,
            BOARD_HEIGHT, PADDLE_LEN, if_pos ht, if_true]
          rw [if_pos (by omega), if_pos hp]
          simp only
          refine ⟨⟨by omega, by omega, ?_, ?_, h5, ?_⟩, ?_, ?_, ?_, ?_⟩
          · split_ifs <;> omega
          · split_ifs <;> omega
          · split_ifs <;> omega
          · split_ifs <;> omega
          · split_ifs <;> omega
          · split_ifs <;> omega
          · split_ifs <;> omega
        · intro hs
          simp only [pinball_update_and_render, BOARD_WIDTH, BOARD_HEIGHT, PADDLE_LEN,
            if_pos ht, if_true] at hs
          rw [if_pos (by omega), if_neg hp] at hs
          simp at hs
      · intro _
        simp only [pinball_update_and_render, pinballInvariant, pinballHeading, BOARD_WIDTH,
          BOARD_HEIGHT, PADDLE_LEN, if_pos ht, if_true]
        rw [if_neg (by omega)]
        simp only
        refine ⟨⟨by omega, by omega, ?_, ?_, h5, h6, h7, h8⟩, ?_, ?_, ?_, ?_⟩
        · split_ifs <;> omega
        · split_ifs <;> omega
        · split_ifs <;> omega
        · split_ifs <;> omega
        · split_ifs <;> omega
        · split_ifs <;> omega
    · intro _
      simp only [pinball_update_and_render, if_neg ht, if_true]
      exact ⟨⟨h1, h2, h3, h4, h5, h6, h7, h8⟩, h9, h10, h11, h12⟩
  · simp [pinball_update_and_render]

/-- In every Pinball state reachable from `pinball_init`, the Running phase
has the stated invariant and the ball heads away from the wall it is on. -/
theorem pinball_reachable_strong (p : Pinball) (h : PinballReachable p) :
    p.pinball_state = .PINBALL_RUNNING → pinballInvariant p ∧ pinballHeading p := by
  induction h with
  | init env p => exact fun _ => pinball_strong_init env p
  | input event env _ ih => exact pinball_strong_input event env _ ih
  | tick env _ ih => exact pinball_strong_tick env _ ih

/-- Under the invariant every index drawn in the Running phase is a pixel of
the matrix. -/
theorem pinball_render_running (env : Env) (p : Pinball)
    (hs : p.pinball_state = .PINBALL_RUNNING) (h : pinballInvariant p) :
    ∀ i ∈ pinball_render env p, i ≠ -1 ∧ 0 ≤ i ∧ i < 64 := by
  obtain ⟨st, bx, bY, vx, vy, pd, gt, gs, hue, got⟩ := p
  obtain ⟨h1, h2, _, _, h5, _⟩ := h
  simp only at hs h1 h2 h5
  subst hs
  have hr : List.range PADDLE_LEN.toNat = [0, 1, 2] := by decide
  have hk : ∀ k : Int, 0 ≤ k → k ≤ 2 →
      pos2index (pd + k) (BOARD_HEIGHT - 1) ≠ -1 ∧ 0 ≤ pos2index (pd + k) (BOARD_HEIGHT - 1) ∧
        pos2index (pd + k) (BOARD_HEIGHT - 1) < 64 := by
    intro k k0 k2
    simp only [pos2index, BOARD_WIDTH, BOARD_HEIGHT]
    split_ifs <;> omega
  have hb : pos2index bx bY ≠ -1 ∧ 0 ≤ pos2index bx bY ∧ pos2index bx bY < 64 := by
    simp only [pos2index, BOARD_WIDTH, BOARD_HEIGHT]
    split_ifs <;> omega
  simp only [pinball_render, if_true, hr, List.map_cons, List.map_nil, List.cons_append,
    List.nil_append]
  refine List.forall_mem_cons.mpr ⟨hk _ (by simp) (by simp), ?_⟩
  refine List.forall_mem_cons.mpr ⟨hk _ (by simp) (by simp), ?_⟩
  refine List.forall_mem_cons.mpr ⟨hk _ (by simp) (by simp), ?_⟩
  refine List.forall_mem_cons.mpr ⟨hb, ?_⟩
  intro i hi
  exact absurd hi (List.not_mem_nil i)

/-- C32: in the Running phase of Pinball `pinball_handle_input` changes
nothing but `paddle_pos` (ball position, ball velocity, speed and phase are
kept, for every event); `LEFT_CLICK` sets `paddle_pos` to
`constrain (paddle_pos - 1) 0 5`, which is `max (paddle_pos - 1) 0` as soon as
`paddle_pos ≤ 6`, `RIGHT_CLICK` sets it to `constrain (paddle_pos + 1) 0 5`,
which is `min (paddle_pos + 1) 5` as soon as `-1 ≤ paddle_pos`, and every
other event leaves a `paddle_pos` within 0..5 unchanged; in every state
reachable from `pinball_init` the paddle is within 0..5 in the Running phase,
so there the two clicks are the stated `max` and `min`. -/
theorem pinball_paddle_input (event : KeyEvent) (env : Env) (p : Pinball)
    (hs : p.pinball_state = .PINBALL_RUNNING) :
    pinball_handle_input event env p =
        { p with paddle_pos := (pinball_handle_input event env p).paddle_pos } ∧
      (event = .LEFT_CLICK →
        (pinball_handle_input event env p).paddle_pos = constrain (p.paddle_pos - 1) 0 5 ∧
        (p.paddle_pos ≤ 6 →
          (pinball_handle_input event env p).paddle_pos = max (p.paddle_pos - 1) 0)) ∧
      (event = .RIGHT_CLICK →
        (pinball_handle_input event env p).paddle_pos = constrain (p.paddle_pos + 1) 0 5 ∧
        (-1 ≤ p.paddle_pos →
          (pinball_handle_input event env p).paddle_pos = min (p.paddle_pos + 1) 5)) ∧
      (event ≠ .LEFT_CLICK → event ≠ .RIGHT_CLICK →
        (pinball_handle_input event env p).paddle_pos = constrain p.paddle_pos 0 5 ∧
        (0 ≤ p.paddle_pos ∧ p.paddle_pos ≤ 5 →
          (pinball_handle_input event env p).paddle_pos = p.paddle_pos)) ∧
      (PinballReachable p → 0 ≤ p.paddle_pos ∧ p.paddle_pos ≤ 5) := by
  obtain ⟨st, bx, bY, vx, vy, pd, gt, gs, hue, got⟩ := p
  simp only at hs
  subst hs
  refine ⟨?_, ?_, ?_, ?_, ?_⟩
  · simp [pinball_handle_input]
  · rintro rfl
    simp only [pinball_handle_input, constrain, BOARD_WIDTH, PADDLE_LEN]
    refine ⟨by simp, fun h => ?_⟩
    simp
    split_ifs <;> omega
  · rintro rfl
    simp only [pinball_handle_input, constrain, BOARD_WIDTH, PADDLE_LEN]
    refine ⟨by simp, fun h => ?_⟩
    simp
    split_ifs <;> omega
  · intro h1 h2
    simp only [pinball_handle_input, constrain, BOARD_WIDTH, PADDLE_LEN]
    refine ⟨by simp [h1, h2], fun h => ?_⟩
    simp [h1, h2]
    split_ifs <;> omega
  · intro h
    exact (pinball_reachable_strong _ h rfl).1.2.2.2.2.1

/-- The instance of C32 at Pinball right after its start (paddle at 2), with a
`LEFT_CLICK`: the paddle moves to 1. -/
theorem pinball_paddle_input_witness :
    gameRunning.games.pinball.pinball_state = .PINBALL_RUNNING ∧
      (pinball_handle_input .LEFT_CLICK (envAt 50) gameRunning.games.pinball).paddle_pos =
        max (gameRunning.games.pinball.paddle_pos - 1) 0 :=
  ⟨by decide,
    ((pinball_paddle_input .LEFT_CLICK (envAt 50) gameRunning.games.pinball
      (by decide)).2.1 rfl).2 (by decide)⟩

/-- The body array keeps its length when it is shifted. -/
theorem shiftBody_length (k : Nat) (body : List Point) :
    (shiftBody body k).length = body.length := by
  induction k generalizing body with
  | zero => rfl
  | succ k ih => rw [shiftBody, ih, List.length_set]

/-- The cells of the shifted body array: cell `j` in `1..k` holds the old cell
`j - 1`, every other cell is as it was. -/
theorem shiftBody_getElem? (k : Nat) (body : List Point) (hk : k < body.length) (j : Nat) :
    (shiftBody body k)[j]? = if 1 ≤ j ∧ j ≤ k then body[j - 1]? else body[j]? := by
  induction k generalizing body with
  | zero =>
      have : ¬ (1 ≤ j ∧ j ≤ 0) := by omega
      rw [if_neg this]
      rfl
  | succ k ih =>
      have hk1 : k < (body.set (k + 1) (body.getD k default)).length := by
        rw [List.length_set]; omega
      rw [shiftBody, ih _ hk1]
      have hd : body.getD k default = body[k] := by
        rw [List.getD_eq_getElem?_getD, List.getElem?_eq_getElem (by omega)]
        rfl
      simp only [List.getElem?_set, hd]
      by_cases h1 : 1 ≤ j ∧ j ≤ k
      · have h2 : 1 ≤ j ∧ j ≤ k + 1 := by omega
        have h3 : ¬ k + 1 = j - 1 := by omega
        rw [if_pos h1, if_pos h2, if_neg h3]
      · rw [if_neg h1]
        by_cases h4 : k + 1 = j
        · have h2 : 1 ≤ j ∧ j ≤ k + 1 := by omega
          rw [if_pos h4, if_pos hk, if_pos h2]
          subst h4
          simp only [Nat.add_sub_cancel]
          rw [List.getElem?_eq_getElem (by omega)]
        · have h2 : ¬ (1 ≤ j ∧ j ≤ k + 1) := by omega
          rw [if_neg h4, if_neg h2]

/-- The first `n + 1` cells after the body is shifted by `n` and the head is
written are the new head followed by the first `n` old cells. -/
theorem shiftBody_take (n : Nat) (body : List Point) (h : Point) (hn : n < body.length) :
    ((shiftBody body n).set 0 h).take (n + 1) = h :: body.take n := by
  apply List.ext_getElem?
  intro j
  have hl : 0 < (shiftBody body n).length := by rw [shiftBody_length]; omega
  rw [List.getElem?_take, List.getElem?_set, shiftBody_getElem? n body hn, List.getElem?_cons,
    List.getElem?_take]
  by_cases h0 : j = 0
  · subst h0
    simp [hl]
  · have h1 : ¬ 0 = j := fun h => h0 h.symm
    rw [if_neg h1, if_neg h0]
    by_cases h2 : j < n + 1
    · rw [if_pos h2, if_pos (by omega), if_pos (by omega)]
    · rw [if_neg h2, if_neg (by omega)]

/-- The self-collision loop of `snake_update_and_render` finds the new head
exactly when it is one of the first `len` cells of the body array. -/
theorem hitSelf_iff (body : List Point) (len : Nat) (h : Point) (hl : len ≤ body.length) :
    (List.range len).any (fun i => decide (h = body.getD i default)) = true ↔
      h ∈ body.take len := by
  rw [List.any_eq_true, List.mem_iff_getElem?]
  constructor
  · rintro ⟨i, hi, hh⟩
    rw [List.mem_range] at hi
    refine ⟨i, ?_⟩
    rw [List.getElem?_take, if_pos hi]
    simp only [decide_eq_true_eq] at hh
    rw [hh, List.getD_eq_getElem?_getD, List.getElem?_eq_getElem (by omega)]
    rfl
  · rintro ⟨i, hi⟩
    rw [List.getElem?_take] at hi
    by_cases h1 : i < len
    · rw [if_pos h1] at hi
      refine ⟨i, List.mem_range.mpr h1, ?_⟩
      simp only [decide_eq_true_eq]
      rw [List.getD_eq_getElem?_getD, hi]
      rfl
    · rw [if_neg h1] at hi
      exact absurd hi (by simp)

/-- When the cell next to the head is inside the grid, the `int8_t`
arithmetic of the move does not wrap. -/
theorem nextHead_eq_movedHead (d : SnakeDirection) (head : Point)
    (h : inGrid (movedHead d head).x (movedHead d head).y = true) :
    nextHead d head = movedHead d head := by
  obtain ⟨x, y⟩ := head
  cases d <;> simp only [inGrid, movedHead, decide_eq_true_eq] at h <;>
    simp only [nextHead, movedHead, toInt8, Point.mk.injEq, true_and, and_true] <;> omega

/-- From a head with `int8_t` coordinates, the move leaves the grid in the
`int8_t` arithmetic of the source exactly when it does in unbounded
integers. -/
theorem nextHead_inGrid (d : SnakeDirection) (head : Point)
    (h : (-128 ≤ head.x ∧ head.x ≤ 127) ∧ (-128 ≤ head.y ∧ head.y ≤ 127)) :
    inGrid (nextHead d head).x (nextHead d head).y =
      inGrid (movedHead d head).x (movedHead d head).y := by
  obtain ⟨x, y⟩ := head
  simp only at h
  cases d <;> simp only [inGrid, nextHead, movedHead, toInt8] <;>
    apply decide_eq_decide.mpr <;> constructor <;> intro _ <;> omega

/-- The food `randomFood` draws is inside the grid. -/
theorem randomFood_inGrid (env : Env) : inGrid (randomFood env).x (randomFood env).y = true := by
  simp only [inGrid, randomFood, decide_eq_true_eq]
  omega

/-- A move of the snake is the reference step on its view, whatever the move
interval. -/
theorem snake_tick_view (env : Env) (s : Snake)
    (hrun : s.snake_state = .RUNNING)
    (ht : ulsub env.millis s.snake_last_move_time > toUL s.snake_move_interval)
    (hbody : s.snake_body.length = SNAKE_MAX_LENGTH)
    (hlen : 1 ≤ s.snake_len ∧ s.snake_len ≤ SNAKE_MAX_LENGTH)
    (hhead : (-128 ≤ (s.snake_body.getD 0 default).x ∧ (s.snake_body.getD 0 default).x ≤ 127) ∧
      (-128 ≤ (s.snake_body.getD 0 default).y ∧ (s.snake_body.getD 0 default).y ≤ 127)) :
    snakeView (snake_update_and_render env s) =
        snakeReferenceStep env s.snake_dir (snakeView s) ∧
      (snake_update_and_render env s).snake_dir = s.snake_dir ∧
      (snake_update_and_render env s).snake_last_move_time = env.millis ∧
      inGrid (randomFood env).x (randomFood env).y = true := by
  obtain ⟨st, d, body, len, food, t, iv⟩ := s
  simp only [SNAKE_MAX_LENGTH] at hrun ht hbody hlen hhead
  subst hrun
  have hin := nextHead_inGrid d (body.getD 0 default) hhead
  have hhd : (body.take len).headD default = body.getD 0 default := by
    cases body with
    | nil => simp at hbody
    | cons a rest =>
        obtain ⟨k, rfl⟩ : ∃ k, len = k + 1 := ⟨len - 1, by omega⟩
        rfl
  have htick : SnakeState.RUNNING = SnakeState.RUNNING ∧ ulsub env.millis t > toUL iv :=
    ⟨rfl, ht⟩
  have hwall : ∀ q : Point,
      decide (q.x < 0 ∨ q.x ≥ BOARD_WIDTH ∨ q.y < 0 ∨ q.y ≥ BOARD_HEIGHT) = !inGrid q.x q.y := by
    intro q
    rw [inGrid, ← decide_not]
    apply decide_eq_decide.mpr
    simp only [BOARD_WIDTH, BOARD_HEIGHT]
    omega
  refine ⟨?_, ?_, ?_, randomFood_inGrid env⟩
  · unfold snake_update_and_render
    rw [if_pos htick]
    simp only [snakeView, snakeReferenceStep, hhd, hwall]
    cases hg : inGrid (movedHead d (body.getD 0 default)).x (movedHead d (body.getD 0 default)).y
    · rw [hg] at hin
      simp only [hin, Bool.not_false, Bool.true_or, if_true, true_or]
    · have hh := nextHead_eq_movedHead d (body.getD 0 default) hg
      rw [hh, hg]
      generalize movedHead d (body.getD 0 default) = h
      have hcond : ((!true || (List.range len).any fun i => decide (h = body.getD i default))
          = true) ↔ (true = false ∨ h ∈ List.take len body) := by
        rw [Bool.not_true, Bool.false_or, hitSelf_iff body len h (by omega)]
        simp
      by_cases hc : true = false ∨ h ∈ List.take len body
      · rw [if_pos hc, if_pos (hcond.mpr hc)]
      · rw [if_neg hc, if_neg (fun x => hc (hcond.mp x))]
        simp only [decide_eq_true_eq, SNAKE_MAX_LENGTH]
        have hl2 : (if h = food ∧ len < 64 then (len + 1) % 256 else len) =
            (if h = food then min (len + 1) 64 else len) := by
          by_cases hf : h = food
          · by_cases h64 : len < 64
            · simp only [hf, h64, and_self, if_true]
              omega
            · simp only [hf, h64, and_false, if_false, if_true]
              omega
          · simp only [hf, false_and, if_false]
        rw [hl2]
        generalize hn : (if h = food then min (len + 1) 64 else len) = n
        have hn1 : 1 ≤ n ∧ n ≤ len + 1 ∧ n ≤ 64 := by
          subst hn
          split_ifs <;> omega
        obtain ⟨m, rfl⟩ : ∃ m, n = m + 1 := ⟨n - 1, by omega⟩
        simp only [Nat.add_sub_cancel]
        rw [shiftBody_take m body h (by omega), List.take_succ_cons, List.take_take,
          min_eq_left (by omega)]
  · unfold snake_update_and_render
    rw [if_pos htick]
    simp only []
    split_ifs <;> rfl
  · unfold snake_update_and_render
    rw [if_pos htick]
    simp only []
    split_ifs <;> rfl

/-- C33: a Snake move tick (the phase `RUNNING`, the move interval at its 350
ms, more than 350 ms elapsed since the last move), on the 64-cell body array
with a length in 1..64 and `int8_t` head coordinates, is the reference step on
the view of the state (phase, segments from head to tail, length, food): with
`h` the head moved one cell in the current direction, the phase becomes
`GAME_OVER` with body and length unchanged when `h` is outside the grid or is
one of the current segments, the tail included; otherwise the segments are `h`
followed by the old segments, cut to the new length, which is one more, at
most 64, exactly when `h` is on the food, and the food is drawn again, inside
the grid, only then. The direction is kept and the move time is the clock. -/
theorem snake_tick_reference (env : Env) (s : Snake)
    (hrun : s.snake_state = .RUNNING) (hint : s.snake_move_interval = 350)
    (ht : ulsub env.millis s.snake_last_move_time > 350)
    (hbody : s.snake_body.length = SNAKE_MAX_LENGTH)
    (hlen : 1 ≤ s.snake_len ∧ s.snake_len ≤ SNAKE_MAX_LENGTH)
    (hhead : (-128 ≤ (s.snake_body.getD 0 default).x ∧ (s.snake_body.getD 0 default).x ≤ 127) ∧
      (-128 ≤ (s.snake_body.getD 0 default).y ∧ (s.snake_body.getD 0 default).y ≤ 127)) :
    snakeView (snake_update_and_render env s) =
        snakeReferenceStep env s.snake_dir (snakeView s) ∧
      (snake_update_and_render env s).snake_dir = s.snake_dir ∧
      (snake_update_and_render env s).snake_last_move_time = env.millis ∧
      inGrid (randomFood env).x (randomFood env).y = true :=
  snake_tick_view env s hrun (by rw [hint]; exact ht) hbody hlen hhead

/-- The instance of C33 at Snake right after its start at clock 40, moved at
clock 500. -/
theorem snake_tick_reference_witness :
    snakeView (snake_update_and_render (envAt 500) snakeStarted) =
      snakeReferenceStep (envAt 500) snakeStarted.snake_dir (snakeView snakeStarted) :=
  (snake_tick_reference (envAt 500) snakeStarted
    (by decide) (by decide) (by decide) (by decide) (by decide) (by decide)).1

/-- C34: `updateChargingState` is the stated transition table on the charge
pin, the previous state and the voltage `readBatteryVoltage` returns, and it
changes nothing but the state and the charging-changed flag; the flag is set
exactly when the state changes to `STATE_CHARGING` or to `STATE_CHARGE_FULL`
and is otherwise as it was; and the state never goes from `STATE_DISCHARGING`
to `STATE_CHARGE_FULL` in one call. -/
theorem updateChargingState_table (chrg_low : Bool) (mv : Nat) (w : World) :
    updateChargingState chrg_low mv w =
        { w with
          g_charging_state :=
            (chargingTable chrg_low (readBatteryVoltage mv) w.g_charging_state
              w.g_charging_started_event).1,
          g_charging_started_event :=
            (chargingTable chrg_low (readBatteryVoltage mv) w.g_charging_state
              w.g_charging_started_event).2 } ∧
      ((updateChargingState chrg_low mv w).g_charging_started_event =
        if (updateChargingState chrg_low mv w).g_charging_state ≠ w.g_charging_state ∧
            ((updateChargingState chrg_low mv w).g_charging_state = .STATE_CHARGING ∨
              (updateChargingState chrg_low mv w).g_charging_state = .STATE_CHARGE_FULL)
        then true else w.g_charging_started_event) ∧
      ¬ (w.g_charging_state = .STATE_DISCHARGING ∧
          (updateChargingState chrg_low mv w).g_charging_state = .STATE_CHARGE_FULL) := by
  obtain ⟨a, t0, snap, pv, eb, ew, fl, lvl, cs, met, g⟩ := w
  cases chrg_low <;> cases cs <;>
    simp [updateChargingState, chargingTable, VOLTAGE_LEVEL_FULL]
  split <;> simp

/-- The instance of C34 at the initial state with the charger plugged in: the
state becomes `STATE_CHARGING` and the flag is set. -/
theorem updateChargingState_table_witness :
    (updateChargingState true 1950 (initWorld 255)).g_charging_state = .STATE_CHARGING ∧
      (updateChargingState true 1950 (initWorld 255)).g_charging_started_event = true :=
  ⟨congrArg World.g_charging_state (updateChargingState_table true 1950 (initWorld 255)).1,
    congrArg World.g_charging_started_event
      (updateChargingState_table true 1950 (initWorld 255)).1⟩

/-- C35: in every Pinball state reachable from `pinball_init` by any
interleaving of `pinball_handle_input` events and calls of
`pinball_update_and_render`, while the phase is Running the ball is in columns
0..7 and rows 0..6, both velocity components are +1 or -1, the paddle is in
0..5 and `game_speed` is a multiple of 20 between 60 and 300; and every index
the rendering part then passes to `setWs2812Color`, from `pos2index` for the
three paddle cells and for the ball, is not -1 and is a pixel 0..63. -/
theorem pinball_running_invariant (p : Pinball) (h : PinballReachable p)
    (hs : p.pinball_state = .PINBALL_RUNNING) :
    pinballInvariant p ∧ ∀ env, ∀ i ∈ pinball_render env p, i ≠ -1 ∧ 0 ≤ i ∧ i < 64 :=
  ⟨(pinball_reachable_strong p h hs).1,
    fun env => pinball_render_running env p hs (pinball_reachable_strong p h hs).1⟩

/-- The instance of C35 at Pinball started again after a lost game, the paddle
moved once and one tick made. -/
theorem pinball_running_invariant_witness :
    pinballPlayed.pinball_state = .PINBALL_RUNNING ∧ pinballInvariant pinballPlayed ∧
      ∀ env, ∀ i ∈ pinball_render env pinballPlayed, i ≠ -1 ∧ 0 ≤ i ∧ i < 64 :=
  ⟨by decide, pinball_running_invariant pinballPlayed
    (.tick _ (.input _ _ (.init _ _))) (by decide)⟩

/-- The reference step keeps the invariant of the view. -/
theorem snakeReferenceStep_invariant (env : Env) (d : SnakeDirection) (v : SnakeView)
    (h : snakeViewInvariant v) : snakeViewInvariant (snakeReferenceStep env d v) := by
  obtain ⟨h1, h2, h3, h4⟩ := h
  unfold snakeReferenceStep
  simp only []
  split
  · exact ⟨h1, h2, h3, h4⟩
  · rename_i hc
    rw [not_or] at hc
    obtain ⟨c1, c2⟩ := hc
    rw [Bool.not_eq_false] at c1
    refine ⟨?_, ?_, ?_, ?_⟩
    · simp only []
      split_ifs <;> omega
    · intro p hp
      have hp2 := List.mem_of_mem_take hp
      rcases List.mem_cons.mp hp2 with hp3 | hp3
      · rw [hp3]; exact c1
      · exact h2 p hp3
    · exact List.Nodup.sublist (List.take_sublist _ _) (List.nodup_cons.mpr ⟨c2, h3⟩)
    · simp only []
      split_ifs
      · exact randomFood_inGrid env
      · exact h4

/-- The state `snake_init` leaves on the 64-cell array has the invariant. -/
theorem snake_init_view (env : Env) (s : Snake) (h : s.snake_body.length = SNAKE_MAX_LENGTH) :
    (snake_init env s).snake_body.length = SNAKE_MAX_LENGTH ∧
      snakeViewInvariant (snakeView (snake_init env s)) := by
  have h3 : 3 ≤ s.snake_body.length := by rw [h]; decide
  have hb := snake_init_body env s h3
  refine ⟨?_, ?_⟩
  · simp only [snake_init, List.length_set]
    exact h
  · have hv : snakeView (snake_init env s) =
        { phase := .RUNNING, segments := [⟨4, 4⟩, ⟨3, 4⟩, ⟨2, 4⟩], length := 3,
          food := randomFood env } := by
      simp only [snakeView]
      rw [show (snake_init env s).snake_len = 3 from rfl, hb]
      rfl
    rw [hv]
    refine ⟨?_, ?_, ?_, randomFood_inGrid env⟩ <;> simp only [] <;> decide

/-- The invariant of the view is kept by `snake_handle_input`. -/
theorem snake_handle_input_view (event : KeyEvent) (env : Env) (s : Snake)
    (h : s.snake_body.length = SNAKE_MAX_LENGTH ∧ snakeViewInvariant (snakeView s)) :
    (snake_handle_input event env s).snake_body.length = SNAKE_MAX_LENGTH ∧
      snakeViewInvariant (snakeView (snake_handle_input event env s)) := by
  unfold snake_handle_input
  split
  · split
    · exact snake_init_view env s h.1
    · exact h
  · split
    · split <;> exact h
    · split
      · split <;> exact h
      · exact h

/-- A cell of the body array below `len` is the cell of the same index of the
list of segments. -/
theorem getD_eq_take_getElem? (body : List Point) (len i : Nat) (hi : i < len)
    (hl : len ≤ body.length) : (body.take len)[i]? = some (body.getD i default) := by
  rw [List.getElem?_take, if_pos hi, List.getD_eq_getElem?_getD,
    List.getElem?_eq_getElem (by omega)]
  rfl

/-- The invariant of the view is kept by `snake_update_and_render`. -/
theorem snake_update_and_render_view (env : Env) (s : Snake)
    (h : s.snake_body.length = SNAKE_MAX_LENGTH ∧ snakeViewInvariant (snakeView s)) :
    (snake_update_and_render env s).snake_body.length = SNAKE_MAX_LENGTH ∧
      snakeViewInvariant (snakeView (snake_update_and_render env s)) := by
  obtain ⟨hb, hv⟩ := h
  refine ⟨?_, ?_⟩
  · unfold snake_update_and_render
    split
    · simp only []
      split
      · exact hb
      · simp only [List.length_set, shiftBody_length]
        exact hb
    · exact hb
  · by_cases ht : s.snake_state = .RUNNING ∧
        ulsub env.millis s.snake_last_move_time > toUL s.snake_move_interval
    · have hlen : 1 ≤ s.snake_len ∧ s.snake_len ≤ SNAKE_MAX_LENGTH :=
        ⟨by have := hv.1.1; simp only [snakeView] at this; omega, hv.1.2⟩
      have hgrid : inGrid (s.snake_body.getD 0 default).x (s.snake_body.getD 0 default).y
          = true := by
        apply hv.2.1
        apply List.mem_iff_getElem?.mpr
        exact ⟨0, getD_eq_take_getElem? s.snake_body s.snake_len 0 (by omega) (by omega)⟩
      have hhead : (-128 ≤ (s.snake_body.getD 0 default).x ∧
          (s.snake_body.getD 0 default).x ≤ 127) ∧
          (-128 ≤ (s.snake_body.getD 0 default).y ∧ (s.snake_body.getD 0 default).y ≤ 127) := by
        simp only [inGrid, decide_eq_true_eq] at hgrid
        omega
      rw [(snake_tick_view env s ht.1 ht.2 hb hlen hhead).1]
      exact snakeReferenceStep_invariant env s.snake_dir _ hv
    · unfold snake_update_and_render
      rw [if_neg ht]
      exact hv

/-- Every Snake state reachable from `snake_init` has the 64-cell array and
the invariant of the view. -/
theorem snake_reachable_view (s : Snake) (h : SnakeReachable s) :
    s.snake_body.length = SNAKE_MAX_LENGTH ∧ snakeViewInvariant (snakeView s) := by
  induction h with
  | init env s hs => exact snake_init_view env s hs
  | input event env _ ih => exact snake_handle_input_view event env _ ih
  | tick env _ ih => exact snake_update_and_render_view env _ ih

/-- The invariant of the view gives the stated invariant on the cells of the
body array. -/
theorem snakeInvariant_of_view (s : Snake)
    (h : s.snake_body.length = SNAKE_MAX_LENGTH ∧ snakeViewInvariant (snakeView s)) :
    snakeInvariant s := by
  obtain ⟨hb, h1, h2, h3, h4⟩ := h
  simp only [snakeView, SNAKE_MAX_LENGTH] at hb h1 h2 h3 h4
  refine ⟨h1, ?_, ?_, h4⟩
  · intro i hi
    apply h2
    exact List.mem_iff_getElem?.mpr
      ⟨i, getD_eq_take_getElem? s.snake_body s.snake_len i hi (by omega)⟩
  · intro i j hij hj he
    have hl : (s.snake_body.take s.snake_len).length = s.snake_len := by
      rw [List.length_take]; omega
    have := List.nodup_iff_getElem?_ne_getElem?.mp h3 i j hij (by rw [hl]; exact hj)
    rw [getD_eq_take_getElem? s.snake_body s.snake_len i (by omega) (by omega),
      getD_eq_take_getElem? s.snake_body s.snake_len j hj (by omega), he] at this
    exact this rfl

/-- Under the invariant every pixel index the rendering part of Snake writes
is within 0..63. -/
theorem snake_render_range (env : Env) (s : Snake) (h : snakeInvariant s) :
    ∀ i ∈ snake_render env s, 0 ≤ i ∧ i < 64 := by
  obtain ⟨_, h2, _, h4⟩ := h
  intro i hi
  unfold snake_render at hi
  have hcell : ∀ p : Point, inGrid p.x p.y = true →
      0 ≤ p.y * BOARD_WIDTH + p.x ∧ p.y * BOARD_WIDTH + p.x < 64 := by
    intro p hp
    simp only [inGrid, decide_eq_true_eq] at hp
    simp only [BOARD_WIDTH]
    omega
  split at hi
  · rcases List.mem_append.mp hi with hi | hi
    · obtain ⟨k, hk, rfl⟩ := List.mem_map.mp hi
      exact hcell _ (h2 k (List.mem_range.mp hk))
    · split at hi
      · rw [List.mem_singleton] at hi
        rw [hi]
        exact hcell _ h4
      · exact absurd hi (List.not_mem_nil i)
  · split at hi
    · split at hi
      · obtain ⟨k, hk, rfl⟩ := List.mem_map.mp hi
        have := List.mem_range.mp hk
        omega
      · exact absurd hi (List.not_mem_nil i)
    · exact absurd hi (List.not_mem_nil i)

/-- C36: in every Snake state reachable from `snake_init` (on the 64-cell body
array) by any interleaving of `snake_handle_input` events and calls of
`snake_update_and_render`, `snake_len` is in 3..64, every body segment with
index below `snake_len` is inside the 8x8 grid, the segments are pairwise
distinct and the food is inside the grid; and every pixel index the rendering
part writes, `y * 8 + x` for the segments and the food, is within 0..63. -/
theorem snake_invariant (s : Snake) (h : SnakeReachable s) :
    snakeInvariant s ∧ ∀ env, ∀ i ∈ snake_render env s, 0 ≤ i ∧ i < 64 :=
  ⟨snakeInvariant_of_view s (snake_reachable_view s h),
    fun env => snake_render_range env s (snakeInvariant_of_view s (snake_reachable_view s h))⟩

/-- The instance of C36 at Snake started at clock 40, turned once and moved
once. -/
theorem snake_invariant_witness :
    snakeInvariant
      (snake_update_and_render (envAt 500) (snake_handle_input .LEFT_CLICK (envAt 100)
        snakeStarted)) :=
  (snake_invariant _ (.tick _ (.input _ _ (.init _ _ (by decide))))).1

/-- C37: outside the game-over phase of Snake (so in its Running phase), a
`LEFT_CLICK` and a `RIGHT_CLICK` each turn the snake to a direction
perpendicular to the current one, which is neither the current direction nor
its opposite; the two clicks applied to the same state give opposite
directions; `snake_handle_input` changes nothing but the direction; and every
other event changes nothing at all. -/
theorem snake_turns (env : Env) (s : Snake) (h : s.snake_state ≠ .GAME_OVER) :
    perpendicular s.snake_dir (snake_handle_input .LEFT_CLICK env s).snake_dir = true ∧
      perpendicular s.snake_dir (snake_handle_input .RIGHT_CLICK env s).snake_dir = true ∧
      (snake_handle_input .LEFT_CLICK env s).snake_dir ≠ s.snake_dir ∧
      (snake_handle_input .LEFT_CLICK env s).snake_dir ≠ s.snake_dir.opposite ∧
      (snake_handle_input .RIGHT_CLICK env s).snake_dir ≠ s.snake_dir ∧
      (snake_handle_input .RIGHT_CLICK env s).snake_dir ≠ s.snake_dir.opposite ∧
      (snake_handle_input .RIGHT_CLICK env s).snake_dir =
        (snake_handle_input .LEFT_CLICK env s).snake_dir.opposite ∧
      (∀ event, snake_handle_input event env s =
        { s with snake_dir := (snake_handle_input event env s).snake_dir }) ∧
      ∀ event, event ≠ .LEFT_CLICK → event ≠ .RIGHT_CLICK →
        snake_handle_input event env s = s := by
  obtain ⟨st, d, body, len, food, t, iv⟩ := s
  simp only at h
  refine ⟨?_, ?_, ?_, ?_, ?_, ?_, ?_, ?_, ?_⟩
  all_goals first
    | (intro event h1 h2; cases event <;> simp_all [snake_handle_input])
    | (intro event; cases event <;> cases d <;> simp [snake_handle_input, h])
    | (cases d <;> simp [snake_handle_input, h, perpendicular, SnakeDirection.opposite,
        SnakeDirection.horizontal])

/-- The instance of C37 at Snake right after its start, heading right: a
`LEFT_CLICK` turns it up and a `RIGHT_CLICK` turns it down. -/
theorem snake_turns_witness :
    snakeStarted.snake_state ≠ .GAME_OVER ∧
      (snake_handle_input .LEFT_CLICK (envAt 50) snakeStarted).snake_dir ≠
        snakeStarted.snake_dir ∧
      (snake_handle_input .RIGHT_CLICK (envAt 50) snakeStarted).snake_dir =
        (snake_handle_input .LEFT_CLICK (envAt 50) snakeStarted).snake_dir.opposite :=
  ⟨by decide, (snake_turns (envAt 50) snakeStarted (by decide)).2.2.1,
    (snake_turns (envAt 50) snakeStarted (by decide)).2.2.2.2.2.2.1⟩

/-- The running branch of `handle_input` does not look at `overlay_mode`. -/
theorem handle_input_running_setOverlay (event : KeyEvent) (env : Env) (w : World)
    (m : SystemOverlayMode) :
    handle_input_running event env (setOverlay m w) =
      setOverlay m (handle_input_running event env w) := by
  obtain ⟨⟨mm, am, pm, gm, lm, nm, tm, om, sub, run, bl⟩, t0, snap, pv, eb, ew, fl, lvl, cs,
    met, g⟩ := w
  cases mm <;> cases event <;>
    simp [handle_input_running, running_exit, running_number_game_input, running_letter_input,
      running_pic_input, running_animation_input, setOverlay]
  all_goals (cases gm <;> rfl)

/-- The menu branch of `handle_input` does not look at `overlay_mode`. -/
theorem handle_input_menu_setOverlay (event : KeyEvent) (env : Env) (w : World)
    (m : SystemOverlayMode) :
    handle_input_menu event env (setOverlay m w) =
      setOverlay m (handle_input_menu event env w) := by
  obtain ⟨⟨mm, am, pm, gm, lm, nm, tm, om, sub, run, bl⟩, t0, snap, pv, eb, ew, fl, lvl, cs,
    met, g⟩ := w
  cases mm <;> cases event <;> cases sub <;>
    simp [handle_input_menu, save_brightness_to_eeprom, setOverlay]
  all_goals (split <;> simp)

/-- What `handle_input` does on a state whose `overlay_mode` is any value but
`BATTERY_DISPLAY`: the overlay is touched only by an accepted `BOTH_PRESS`. -/
theorem handle_input_setOverlay (event : KeyEvent) (env : Env) (w : World)
    (m : SystemOverlayMode) (hm : m ≠ .BATTERY_DISPLAY) :
    handle_input event env (setOverlay m w) =
      if event = .NO_EVENT then setOverlay m w
      else if event = .BOTH_PRESS then
        if w.appState.main_mode = .GAME ∧ w.appState.is_game_running = true then setOverlay m w
        else
          { setOverlay .BATTERY_DISPLAY w with
            battery_overlay_start_time := env.millis,
            battery_level_snapshot := w.g_current_level }
      else if w.appState.is_game_running = true then
        setOverlay m (handle_input_running event env w)
      else setOverlay m (handle_input_menu event env w) := by
  unfold handle_input
  rw [handle_input_running_setOverlay, handle_input_menu_setOverlay]
  have h1 : ¬ (setOverlay m w).appState.overlay_mode = .BATTERY_DISPLAY := hm
  rw [if_neg h1]
  by_cases he : event = .NO_EVENT
  · rw [if_pos he, if_pos he]
  · rw [if_neg he, if_neg he]
    by_cases hb : event = .BOTH_PRESS
    · rw [if_pos hb, if_pos hb]
      by_cases hg : w.appState.main_mode = .GAME ∧ w.appState.is_game_running = true
      · simp [setOverlay, hg]
      · rw [if_neg hg]
        simp [setOverlay, hg, getCurrentBatteryLevel]
    · rw [if_neg hb, if_neg hb]
      rfl

/-- C38, amended: for every key event and every two states that differ only
in `overlay_mode`, neither being `BATTERY_DISPLAY` (in particular `NONE`
against `CHARGING` or `CHARGE_FULL`), `handle_input` gives states that agree
in everything but `overlay_mode`: navigation fields, brightness, preview,
storage writes and game state. On `BOTH_PRESS` outside a running game both
results have `overlay_mode = BATTERY_DISPLAY`; on `BOTH_PRESS` while a game
runs the event is ignored and each state keeps its own `overlay_mode`; on
every other event each state keeps its own `overlay_mode`. -/
theorem charging_overlay_transparent (event : KeyEvent) (env : Env) (w : World)
    (m1 m2 : SystemOverlayMode) (h1 : m1 ≠ .BATTERY_DISPLAY) (h2 : m2 ≠ .BATTERY_DISPLAY) :
    setOverlay .NONE (handle_input event env (setOverlay m1 w)) =
        setOverlay .NONE (handle_input event env (setOverlay m2 w)) ∧
      (event = .BOTH_PRESS →
        ¬ (w.appState.main_mode = .GAME ∧ w.appState.is_game_running = true) →
        (handle_input event env (setOverlay m1 w)).appState.overlay_mode = .BATTERY_DISPLAY ∧
        (handle_input event env (setOverlay m2 w)).appState.overlay_mode = .BATTERY_DISPLAY) ∧
      (event = .BOTH_PRESS → w.appState.main_mode = .GAME ∧ w.appState.is_game_running = true →
        handle_input event env (setOverlay m1 w) = setOverlay m1 w ∧
        handle_input event env (setOverlay m2 w) = setOverlay m2 w) ∧
      (event ≠ .BOTH_PRESS →
        (handle_input event env (setOverlay m1 w)).appState.overlay_mode = m1 ∧
        (handle_input event env (setOverlay m2 w)).appState.overlay_mode = m2) := by
  rw [handle_input_setOverlay event env w m1 h1, handle_input_setOverlay event env w m2 h2]
  refine ⟨?_, ?_, ?_, ?_⟩
  · split_ifs <;> rfl
  · intro he hg
    subst he
    simp [hg, setOverlay]
  · intro he hg
    subst he
    simp [hg]
  · intro he
    simp only [if_neg he]
    split_ifs <;> exact ⟨rfl, rfl⟩

/-- The instance of C38 at running Pinball with a `LEFT_CLICK`, the overlay
`NONE` against `CHARGING`: the paddle moves the same way in both. -/
theorem charging_overlay_transparent_witness :
    setOverlay .NONE (handle_input .LEFT_CLICK (envAt 50) (setOverlay .NONE gameRunning)) =
      setOverlay .NONE (handle_input .LEFT_CLICK (envAt 50) (setOverlay .CHARGING gameRunning)) :=
  (charging_overlay_transparent .LEFT_CLICK (envAt 50) gameRunning .NONE .CHARGING
    (by decide) (by decide)).1

/-- C38, as stated, fails on `BOTH_PRESS` while a game runs: with the charger
plugged in during Pinball (`overlay_mode = CHARGING`) and the state that
differs from it only in `overlay_mode = NONE`, `BOTH_PRESS` is ignored in both
and the resulting `overlay_mode` is `CHARGING` in one and `NONE` in the
other. -/
theorem charging_overlay_transparent_counterexample :
    chargingDuringGame.appState.overlay_mode = .CHARGING ∧
      (setOverlay .NONE chargingDuringGame).appState.overlay_mode = .NONE ∧
      setOverlay .CHARGING (setOverlay .NONE chargingDuringGame) = chargingDuringGame ∧
      (handle_input .BOTH_PRESS (envAt 200) chargingDuringGame).appState.overlay_mode =
        .CHARGING ∧
      (handle_input .BOTH_PRESS (envAt 200)
        (setOverlay .NONE chargingDuringGame)).appState.overlay_mode = .NONE := by
  decide

/-- The paddle stays in range through `pinball_handle_input`. -/
theorem pinball_handle_input_paddle (event : KeyEvent) (env : Env) (p : Pinball)
    (h : 0 ≤ p.paddle_pos ∧ p.paddle_pos ≤ 5) :
    0 ≤ (pinball_handle_input event env p).paddle_pos ∧
      (pinball_handle_input event env p).paddle_pos ≤ 5 := by
  obtain ⟨st, bx, bY, vx, vy, pd, gt, gs, hue, got⟩ := p
  simp only at h
  cases st <;> cases event <;>
    simp [pinball_handle_input, pinball_init, constrain, BOARD_WIDTH, PADDLE_LEN, h]
  all_goals (split_ifs <;> omega)

/-- A call of `pinball_update_and_render` does not move the paddle. -/
theorem pinball_update_and_render_paddle (env : Env) (p : Pinball) :
    (pinball_update_and_render env p).paddle_pos = p.paddle_pos := by
  simp only [pinball_update_and_render]
  split_ifs <;> rfl

/-- An event that is not a click leaves Pinball as it is when the paddle is in
range. -/
theorem pinball_handle_input_other (event : KeyEvent) (env : Env) (p : Pinball)
    (h1 : event ≠ .LEFT_CLICK) (h2 : event ≠ .RIGHT_CLICK)
    (h : 0 ≤ p.paddle_pos ∧ p.paddle_pos ≤ 5) : pinball_handle_input event env p = p := by
  obtain ⟨st, bx, bY, vx, vy, pd, gt, gs, hue, got⟩ := p
  simp only at h
  cases st <;> simp [pinball_handle_input, h1, h2, constrain, BOARD_WIDTH, PADDLE_LEN]
  split_ifs <;> omega

/-- An event that is not a click leaves Snake as it is. -/
theorem snake_handle_input_other (event : KeyEvent) (env : Env) (s : Snake)
    (h1 : event ≠ .LEFT_CLICK) (h2 : event ≠ .RIGHT_CLICK) :
    snake_handle_input event env s = s := by
  simp [snake_handle_input, h1, h2]

/-- An event that is not a click leaves the games as they are when the paddle
is in range. -/
theorem game_handle_input_other (mode : GameMode) (event : KeyEvent) (env : Env) (g : Games)
    (h1 : event ≠ .LEFT_CLICK) (h2 : event ≠ .RIGHT_CLICK)
    (h : 0 ≤ g.pinball.paddle_pos ∧ g.pinball.paddle_pos ≤ 5) :
    game_handle_input mode event env g = g := by
  cases mode
  · simp only [game_handle_input, pinball_handle_input_other event env g.pinball h1 h2 h]
  · simp only [game_handle_input, snake_handle_input_other event env g.snake h1 h2]
  · rfl

/-- The paddle stays in range through `game_handle_input`. -/
theorem game_handle_input_paddle (mode : GameMode) (event : KeyEvent) (env : Env) (g : Games)
    (h : 0 ≤ g.pinball.paddle_pos ∧ g.pinball.paddle_pos ≤ 5) :
    0 ≤ (game_handle_input mode event env g).pinball.paddle_pos ∧
      (game_handle_input mode event env g).pinball.paddle_pos ≤ 5 := by
  cases mode
  · exact pinball_handle_input_paddle event env g.pinball h
  · exact h
  · exact h

/-- The paddle stays in range through `game_start`. -/
theorem game_start_paddle (mode : GameMode) (env : Env) (g : Games)
    (h : 0 ≤ g.pinball.paddle_pos ∧ g.pinball.paddle_pos ≤ 5) :
    0 ≤ (game_start mode env g).pinball.paddle_pos ∧
      (game_start mode env g).pinball.paddle_pos ≤ 5 := by
  cases mode
  · simp [game_start, pinball_init]
  · exact h
  · exact h

/-- A call of `game_update_and_render` does not move the paddle. -/
theorem game_update_and_render_paddle (mode : GameMode) (env : Env) (g : Games) :
    (game_update_and_render mode env g).pinball.paddle_pos = g.pinball.paddle_pos := by
  cases mode
  · exact pinball_update_and_render_paddle env g.pinball
  · rfl
  · rfl

/-- The paddle stays in range through the running branch of `handle_input`. -/
theorem handle_input_running_paddle (event : KeyEvent) (env : Env) (w : World)
    (h : paddleInRange w) : paddleInRange (handle_input_running event env w) := by
  obtain ⟨⟨mm, am, pm, gm, lm, nm, tm, om, sub, run, bl⟩, t0, snap, pv, eb, ew, fl, lvl, cs,
    met, g⟩ := w
  have hg := game_handle_input_paddle gm event env g h
  cases mm <;> cases event <;>
    simp [handle_input_running, running_exit, running_number_game_input, running_letter_input,
      running_pic_input, running_animation_input, paddleInRange] <;>
    first
    | exact h
    | exact hg
    | (cases gm <;> first | exact hg | simp [pinball_init])

/-- The paddle stays in range through the menu branch of `handle_input`. -/
theorem handle_input_menu_paddle (event : KeyEvent) (env : Env) (w : World)
    (h : paddleInRange w) : paddleInRange (handle_input_menu event env w) := by
  obtain ⟨⟨mm, am, pm, gm, lm, nm, tm, om, sub, run, bl⟩, t0, snap, pv, eb, ew, fl, lvl, cs,
    met, g⟩ := w
  have hg := game_start_paddle gm env g h
  cases mm <;> cases event <;> cases sub <;>
    simp [handle_input_menu, save_brightness_to_eeprom, paddleInRange] <;>
    first
    | exact h
    | exact hg
    | (split <;> exact h)

/-- The paddle stays in range through `handle_input`. -/
theorem handle_input_paddle (event : KeyEvent) (env : Env) (w : World)
    (h : paddleInRange w) : paddleInRange (handle_input event env w) := by
  unfold handle_input
  split
  · exact h
  · split
    · exact h
    · split
      · simp only []
        split <;> exact h
      · split
        · exact handle_input_running_paddle event env w h
        · exact handle_input_menu_paddle event env w h

/-- Steps 0, 0.5 and 1 of `render_frame` leave the games as they are. -/
theorem render_frame_overlay_games (env : Env) (w : World) :
    (render_frame_overlay env w).games = w.games := by
  obtain ⟨⟨mm, am, pm, gm, lm, nm, tm, om, sub, run, bl⟩, t0, snap, pv, eb, ew, fl, lvl, cs,
    met, g⟩ := w
  cases fl <;> cases om <;> cases cs <;>
    simp [render_frame_overlay, getCurrentChargingState]
  all_goals (split <;> rfl)

/-- The paddle stays in range through the content branch of `render_frame`. -/
theorem render_frame_content_paddle (env : Env) (w : World) (h : paddleInRange w) :
    paddleInRange (render_frame_content env w).1 := by
  obtain ⟨⟨mm, am, pm, gm, lm, nm, tm, om, sub, run, bl⟩, t0, snap, pv, eb, ew, fl, lvl, cs,
    met, g⟩ := w
  have hg := game_update_and_render_paddle gm env g
  unfold paddleInRange at h ⊢
  simp only at h
  cases run <;> cases sub <;> cases mm <;> simp [render_frame_content] <;>
    first
    | exact h
    | (rw [hg]; exact h)
    | (cases am <;> exact h)

/-- The paddle stays in range through `render_frame`. -/
theorem render_frame_paddle (env : Env) (w : World) (h : paddleInRange w) :
    paddleInRange (render_frame env w).1 := by
  have hg := render_frame_overlay_games env w
  have h1 : paddleInRange (render_frame_overlay env w) := by
    unfold paddleInRange
    rw [hg]
    exact h
  show paddleInRange (render_frame_dispatch env (render_frame_overlay env w)).1
  unfold render_frame_dispatch
  split
  · split
    · exact h1
    · split
      · exact h1
      · split <;> exact h1
  · exact render_frame_content_paddle env _ h1

/-- `updateChargingState` leaves the games as they are. -/
theorem updateChargingState_games (chrg_low : Bool) (mv : Nat) (w : World) :
    (updateChargingState chrg_low mv w).games = w.games := by
  obtain ⟨a, t0, snap, pv, eb, ew, fl, lvl, cs, met, g⟩ := w
  cases chrg_low <;> cases cs <;> simp [updateChargingState]
  split <;> rfl

/-- `updateVoltageState` leaves the games as they are. -/
theorem updateVoltageState_games (mv : Nat) (w : World) :
    (updateVoltageState mv w).games = w.games := by
  simp only [updateVoltageState]
  split_ifs <;> rfl

/-- In every reachable state the paddle of Pinball is within 0..5. -/
theorem reachable_paddle (w : World) (h : Reachable w) : paddleInRange w := by
  induction h with
  | init b => simp [paddleInRange, initWorld]
  | @load w _ ih =>
      simp only [load_brightness_from_eeprom]
      split_ifs <;> exact ih
  | @step w a _ ih =>
      cases a with
      | key event env => exact handle_input_paddle event env w ih
      | frame env => exact render_frame_paddle env w ih
      | charging chrg_low mv =>
          unfold paddleInRange at ih ⊢
          simp only [step, updateChargingState_games]
          exact ih
      | voltage mv =>
          unfold paddleInRange at ih ⊢
          simp only [step, updateVoltageState_games]
          exact ih

/-- C39: in every reachable state (menu, sub-menu, running content of any
kind, any overlay), `handle_input` with `LEFT_LONG_PRESS` returns the state it
was given: no field of `AppState`, neither the brightness preview, nor the
persistent storage, nor the state of any game changes. -/
theorem left_long_press_noop (env : Env) (w : World) (h : Reachable w) :
    handle_input .LEFT_LONG_PRESS env w = w := by
  have hp := reachable_paddle w h
  obtain ⟨⟨mm, am, pm, gm, lm, nm, tm, om, sub, run, bl⟩, t0, snap, pv, eb, ew, fl, lvl, cs,
    met, g⟩ := w
  have hg := game_handle_input_other gm .LEFT_LONG_PRESS env g (by decide) (by decide) hp
  cases run <;> cases mm <;>
    simp [handle_input, handle_input_menu, handle_input_running, running_exit,
      running_number_game_input, running_letter_input, running_pic_input,
      running_animation_input, hg]

/-- The instance of C39 at running Pinball, reached from program start by
four key events. -/
theorem left_long_press_noop_witness :
    handle_input .LEFT_LONG_PRESS (envAt 50) gameRunning = gameRunning :=
  left_long_press_noop (envAt 50) gameRunning
    (.step (.key .RIGHT_CLICK (envAt 40)) (.step (.key .RIGHT_CLICK (envAt 30))
      (.step (.key .LEFT_CLICK (envAt 20)) (.step (.key .LEFT_CLICK (envAt 10)) (.init 255)))))

/-- Block 2 of `read_key_event` leaves the variables of the right button as
they are. -/
theorem left_key_logic_right_fields (l : Bool) (t : Nat) (k : Keys) :
    (left_key_logic l t k).2.right_key_down_time = k.right_key_down_time ∧
      (left_key_logic l t k).2.right_key_long_press_fired = k.right_key_long_press_fired := by
  unfold left_key_logic
  split_ifs <;> exact ⟨rfl, rfl⟩

/-- After block 2 has returned an event, it returns none on the next poll with
the same level of the left button, and changes nothing. -/
theorem left_key_logic_after_event (l : Bool) (t t2 : Nat) (k : Keys) (el : KeyEvent)
    (hl : (left_key_logic l t k).1 = some el) :
    (left_key_logic l t2 (left_key_logic l t k).2).1 = none ∧
      (left_key_logic l t2 (left_key_logic l t k).2).2 = (left_key_logic l t k).2 := by
  obtain ⟨ld, rd, lf, rf⟩ := k
  cases l <;> cases lf <;> by_cases h1 : ld = 0 <;>
    simp [left_key_logic, h1, Nat.pos_iff_ne_zero] at hl ⊢
  · by_cases h3 : ulsub t ld > DEBOUNCE_TIME <;> simp [h3] at hl ⊢
  · by_cases h3 : ulsub t ld > LONG_PRESS_TIME <;> simp [h3, h1] at hl ⊢

/-- An event block 3 would return is returned by it on a later poll with the
same level of the right button, when the variables of the right button are
the same and the time elapsed since its down time has not gone down. -/
theorem right_key_logic_later (r : Bool) (t t2 : Nat) (k k2 : Keys) (e : KeyEvent)
    (hd : k2.right_key_down_time = k.right_key_down_time)
    (hf : k2.right_key_long_press_fired = k.right_key_long_press_fired)
    (hright : (right_key_logic r t k).1 = some e)
    (hclock : ulsub t k.right_key_down_time ≤ ulsub t2 k.right_key_down_time) :
    (right_key_logic r t2 k2).1 = some e ∧ (e = .RIGHT_CLICK ∨ e = .RIGHT_LONG_PRESS) := by
  obtain ⟨ld, rd, lf, rf⟩ := k
  obtain ⟨ld2, rd2, lf2, rf2⟩ := k2
  simp only at hd hf hclock
  subst hd hf
  cases r <;> cases rf2 <;> by_cases h1 : rd2 = 0 <;>
    simp [right_key_logic, h1, Nat.pos_iff_ne_zero] at hright ⊢
  · by_cases h3 : ulsub t rd2 > DEBOUNCE_TIME
    · have h4 : ulsub t2 rd2 > DEBOUNCE_TIME := lt_of_lt_of_le h3 hclock
      simp [h3, h4] at hright ⊢
      exact hright.symm ▸ ⟨rfl, Or.inl rfl⟩
    · simp [h3] at hright
  · by_cases h3 : ulsub t rd2 > LONG_PRESS_TIME
    · have h4 : ulsub t2 rd2 > LONG_PRESS_TIME := lt_of_lt_of_le h3 hclock
      simp [h3, h4] at hright ⊢
      exact hright.symm ▸ ⟨rfl, Or.inr rfl⟩
    · simp [h3] at hright

/-- The events block 2 can return. -/
theorem left_key_logic_event (l : Bool) (t : Nat) (k : Keys) (el : KeyEvent)
    (hl : (left_key_logic l t k).1 = some el) : el = .LEFT_CLICK ∨ el = .LEFT_LONG_PRESS := by
  unfold left_key_logic at hl
  split_ifs at hl <;> simp at hl
  · exact Or.inr hl.symm
  · exact Or.inl hl.symm

/-- When block 2 returns an event, block 3 is not run. -/
theorem single_key_logic_of_left (p : Poll) (k : Keys) (el : KeyEvent)
    (hl : (left_key_logic p.left_key_pressed p.millis k).1 = some el) :
    single_key_logic p k = (el, (left_key_logic p.left_key_pressed p.millis k).2) := by
  unfold single_key_logic
  rcases h : left_key_logic p.left_key_pressed p.millis k with ⟨o, k1⟩
  rw [h] at hl
  simp only at hl
  subst hl
  rfl

/-- When block 2 returns no event, the event of block 3 is the event of the
poll. -/
theorem single_key_logic_of_right (p : Poll) (k : Keys) (e : KeyEvent)
    (hl : (left_key_logic p.left_key_pressed p.millis k).1 = none)
    (hr : (right_key_logic p.right_key_pressed p.millis
      (left_key_logic p.left_key_pressed p.millis k).2).1 = some e) :
    (single_key_logic p k).1 = e := by
  unfold single_key_logic
  rcases h : left_key_logic p.left_key_pressed p.millis k with ⟨o, k1⟩
  rw [h] at hl hr
  simp only at hl hr
  subst hl
  rcases h2 : right_key_logic p.right_key_pressed p.millis k1 with ⟨o2, k2⟩
  rw [h2] at hr
  simp only at hr
  subst hr
  simp only [h2]

/-- C40: a right-button event masked by a left-button event of the same poll
is returned by the next poll. If poll `p` returns the event of the left block
(a `LEFT_CLICK` or `LEFT_LONG_PRESS`) while the right block, run by itself on
the same state, would have returned `e` (a `RIGHT_CLICK` or
`RIGHT_LONG_PRESS`), and the next poll `p2` reads the same raw levels, runs the
single-button blocks (it does not take the chord path to its end) and its
clock has not gone back (the time elapsed since the right down time, in the
32-bit arithmetic of the source, is not smaller than in `p`), then in `p2` the
left block returns no event and `p2` returns `e`. -/
theorem masked_right_event_deferred (p p2 : Poll) (k : Keys) (r : KeyResult) (e : KeyEvent)
    (hr : read_key_event p k = some r)
    (hl : (left_key_logic p.left_key_pressed p.millis k).1 = some r.event)
    (hright : (right_key_logic p.right_key_pressed p.millis k).1 = some e)
    (hlev : p2.left_key_pressed = p.left_key_pressed ∧
      p2.right_key_pressed = p.right_key_pressed)
    (hchord : chordConfirmed p2 = false)
    (hclock : ulsub p.millis k.right_key_down_time ≤ ulsub p2.millis k.right_key_down_time) :
    (r.event = .LEFT_CLICK ∨ r.event = .LEFT_LONG_PRESS) ∧
      (e = .RIGHT_CLICK ∨ e = .RIGHT_LONG_PRESS) ∧
      (left_key_logic p2.left_key_pressed p2.millis r.keys).1 = none ∧
      ∃ r2, read_key_event p2 r.keys = some r2 ∧ r2.event = e := by
  have hev := left_key_logic_event _ _ _ _ hl
  have hk : r.keys = (left_key_logic p.left_key_pressed p.millis k).2 := by
    rcases read_key_event_result p k r hr with ⟨_, h2, _⟩ | ⟨_, _, h3⟩
    · rw [h2] at hev
      rcases hev with h | h <;> exact absurd h (by decide)
    · rw [h3, single_key_logic_of_left p k r.event hl]
  obtain ⟨hl1, hl2⟩ := hlev
  obtain ⟨g1, g2⟩ := left_key_logic_after_event p.left_key_pressed p.millis p2.millis k r.event hl
  obtain ⟨f1, f2⟩ := left_key_logic_right_fields p.left_key_pressed p.millis k
  obtain ⟨g3, g4⟩ := right_key_logic_later p.right_key_pressed p.millis p2.millis k
    (left_key_logic p.left_key_pressed p.millis k).2 e f1 f2 hright hclock
  have hleft2 : (left_key_logic p2.left_key_pressed p2.millis r.keys).1 = none := by
    rw [hk, hl1]
    exact g1
  refine ⟨hev, g4, hleft2, ?_⟩
  obtain ⟨s, hs⟩ := read_key_event_of_not_chord p2 r.keys hchord
  refine ⟨_, hs, ?_⟩
  apply single_key_logic_of_right p2 r.keys e hleft2
  rw [hk, hl1, hl2, g2]
  exact g3

/-- The instance of C40 at both buttons released in the same poll at clock
200, after presses at clock 100: the poll returns `LEFT_CLICK`, and the poll at
clock 210 returns the `RIGHT_CLICK`. -/
theorem masked_right_event_deferred_witness :
    (∃ r, read_key_event (pollAt false false 200) bothDown = some r ∧
      r.event = .LEFT_CLICK) ∧
    ∃ r2, read_key_event (pollAt false false 210) { bothDown with left_key_down_time := 0 } =
        some r2 ∧ r2.event = .RIGHT_CLICK :=
  ⟨⟨_, rfl, rfl⟩,
    (masked_right_event_deferred (pollAt false false 200) (pollAt false false 210) bothDown
      { event := .LEFT_CLICK, keys := { bothDown with left_key_down_time := 0 },
        last_read := (false, false) }
      .RIGHT_CLICK (by decide) (by decide) (by decide) ⟨rfl, rfl⟩ (by decide)
      (by decide)).2.2.2⟩

end WS2812
